import Mathlib

/-!
# SovoBot: the name-mapping cache (`src/utils/MappingManager.js`)

A shallow embedding of the `MappingManager` class: the values a parsed JSON data pack is made
of, the five insertion-ordered `Map` tables, the five loaders, the lookups and the club search.

Conventions of the embedding.

* `JVal` is a JavaScript value as `JSON.parse` produces it, plus `undefined` (a missing
  property) and `NaN` (a failed `parseInt`). `JVal.num n` is the integer-valued Number `n`;
  fractional and non-finite Numbers are outside the embedding. The arithmetic of the embedding
  is exact, which is what JavaScript does on the safe integers (`isSafeInteger`, at most
  `2^53 - 1` in absolute value): there `parseInt` returns the integer of the digits, `d + 1` is
  the sum and the text of a Number has all its decimal digits. Beyond that range a Number
  rounds, so a statement that names the digits of a Number or a sum assumes the range, for
  the Number itself and for the Numbers of the records that could take its key
  (`JVal.safeNumbers`).
* An object is the list of its own properties. Arrays and objects are fresh references: as
  `Map` keys they are equal to no other key.
* A statement that can throw returns the error together with the state reached so far, because
  the tables are mutated in place.
-/

namespace SovoBot

/-! ## Values -/

/-- A JavaScript value of the embedding. -/
inductive JVal where
  | undefined : JVal
  | null : JVal
  | bool (b : Bool) : JVal
  | nan : JVal
  | num (n : Int) : JVal
  | str (s : String) : JVal
  | arr (xs : List JVal) : JVal
  | obj (kvs : List (String × JVal)) : JVal
  deriving Repr, Inhabited

/-- An error thrown by the program: every one the embedded code can raise is a `TypeError`. -/
inductive JsError where
  | typeError (msg : String) : JsError
  deriving Repr, DecidableEq, Inhabited

/-- ToBoolean: `undefined`, `null`, `false`, `0`, `NaN` and `""` are falsy, all else is truthy. -/
def truthy : JVal → Bool
  | .undefined => false
  | .null => false
  | .bool b => b
  | .nan => false
  | .num n => n != 0
  | .str s => s.data != []
  | .arr _ => true
  | .obj _ => true

/-- The `a || b` operator on already evaluated operands. -/
def jsOr (a b : JVal) : JVal := if truthy a then a else b

/-- The test `Array.isArray`. -/
def isArray : JVal → Bool
  | .arr _ => true
  | _ => false

/-- The elements of an array (nothing for another value). -/
def arrayElems : JVal → List JVal
  | .arr xs => xs
  | _ => []

/-- Values that are not objects (arrays included among the objects). -/
def JVal.isPrimitive : JVal → Bool
  | .arr _ => false
  | .obj _ => false
  | _ => true

/-- Own property lookup in a property list. -/
def lookupProp (k : String) : List (String × JVal) → Option JVal
  | [] => none
  | (k', v) :: rest => if k' = k then some v else lookupProp k rest

/-- Whether a property list has an own property `k`. -/
def hasOwn (k : String) (kvs : List (String × JVal)) : Bool := (lookupProp k kvs).isSome

/-- Property read `v.k`, for the property names the program uses (`PackData`, `meta`,
`lastUpdate`, `ClubData`, `PlayerData`, `LeagueData`, `StadiumData`, `CupData`, `C`, `P`, `L`,
`S`, `id`, `n`, `f`, `s`, `c`, `d`): none of them exists on a prototype, so the read is an own
property of an object or `undefined`; reading from `null` or `undefined` throws. -/
def getProp (v : JVal) (k : String) : Except JsError JVal :=
  match v with
  | .undefined => .error (.typeError ("Cannot read properties of undefined (reading " ++ k ++ ")"))
  | .null => .error (.typeError ("Cannot read properties of null (reading " ++ k ++ ")"))
  | .obj kvs => .ok ((lookupProp k kvs).getD .undefined)
  | _ => .ok .undefined

/-! ## Number and string conversions -/

/-- The constant `Number.MAX_SAFE_INTEGER`, `2^53 - 1`. -/
def maxSafeInteger : Int := 9007199254740991

/-- The test `Number.isSafeInteger` on an integer: in this range a Number holds the integer
exactly and no other integer rounds to it. -/
def isSafeInteger (n : Int) : Bool := decide (-maxSafeInteger ≤ n ∧ n ≤ maxSafeInteger)

mutual
/-- Whether every Number inside a value is a safe integer. -/
def JVal.safeNumbers : JVal → Bool
  | .num n => isSafeInteger n
  | .arr xs => safeElems xs
  | .obj kvs => safeProps kvs
  | _ => true
/-- Whether every Number inside the elements of an array is a safe integer. -/
def safeElems : List JVal → Bool
  | [] => true
  | x :: rest => x.safeNumbers && safeElems rest
/-- Whether every Number inside the properties of an object is a safe integer. -/
def safeProps : List (String × JVal) → Bool
  | [] => true
  | (_, v) :: rest => v.safeNumbers && safeProps rest
end

/-- Decimal digits of a natural number, most significant first. -/
def natDigits (n : Nat) : List Char := Nat.toDigits 10 n

/-- Number::toString on an integer-valued Number: all its decimal digits, which is the text
JavaScript gives for a safe integer. -/
def intToChars (n : Int) : List Char :=
  match n with
  | .ofNat m => natDigits m
  | .negSucc m => '-' :: natDigits (m + 1)

/-- The decimal text of an integer. -/
def decimal (n : Int) : String := String.mk (intToChars n)

/-- Comma-join of already converted array elements. -/
def joinComma : List (List Char) → List Char
  | [] => []
  | [x] => x
  | x :: y :: rest => x ++ ',' :: joinComma (y :: rest)

mutual
/-- ToString on a value, as a list of characters. A plain object prints as
`[object Object]`; an object with an own `toString` property (never callable in parsed JSON)
has no primitive value and throws; an array is the comma-join of its elements, `null` and
`undefined` elements printing as empty. -/
def toChars : JVal → Except JsError (List Char)
  | .undefined => .ok "undefined".data
  | .null => .ok "null".data
  | .bool b => .ok (if b then "true".data else "false".data)
  | .nan => .ok "NaN".data
  | .num n => .ok (intToChars n)
  | .str s => .ok s.data
  | .arr xs =>
    match elemChars xs with
    | .ok parts => .ok (joinComma parts)
    | .error e => .error e
  | .obj kvs =>
    if hasOwn "toString" kvs then
      .error (.typeError "Cannot convert object to primitive value")
    else .ok "[object Object]".data
/-- ToString of each element of an array, for `Array.prototype.join`. -/
def elemChars : List JVal → Except JsError (List (List Char))
  | [] => .ok []
  | x :: rest =>
    let head : Except JsError (List Char) :=
      match x with
      | .undefined => .ok []
      | .null => .ok []
      | y => toChars y
    match head with
    | .error e => .error e
    | .ok cs =>
      match elemChars rest with
      | .ok parts => .ok (cs :: parts)
      | .error e => .error e
end

/-- ToString on a value. -/
def toStr (v : JVal) : Except JsError String :=
  match toChars v with
  | .ok cs => .ok (String.mk cs)
  | .error e => .error e

/-- WhiteSpace and LineTerminator characters of ECMAScript (what `trim` and `parseInt` strip). -/
def isJsWhiteSpace (c : Char) : Bool :=
  let n := c.toNat
  n = 9 || n = 10 || n = 11 || n = 12 || n = 13 || n = 32 || n = 0xA0 || n = 0x1680 ||
  (0x2000 ≤ n && n ≤ 0x200A) || n = 0x2028 || n = 0x2029 || n = 0x202F || n = 0x205F ||
  n = 0x3000 || n = 0xFEFF

/-- Value of a character as a digit of the given radix (10 or 16), if it is one. -/
def digitValue (radix : Nat) (c : Char) : Option Nat :=
  let n := c.toNat
  if 48 ≤ n ∧ n ≤ 57 then some (n - 48)
  else if radix = 16 ∧ 97 ≤ n ∧ n ≤ 102 then some (n - 87)
  else if radix = 16 ∧ 65 ≤ n ∧ n ≤ 70 then some (n - 55)
  else none

/-- Reads the longest run of digits at the head of `cs`: the number read so far and the count
of digits consumed. -/
def readDigits (radix : Nat) : List Char → Nat → Nat → Nat × Nat
  | [], acc, cnt => (acc, cnt)
  | c :: rest, acc, cnt =>
    match digitValue radix c with
    | some d => readDigits radix rest (acc * radix + d) (cnt + 1)
    | none => (acc, cnt)

/-- Magnitude part of `parseInt`: an optional `0x`/`0X` switches to radix 16. -/
def parseMagnitude : List Char → Nat × Nat
  | c :: x :: rest =>
    if c = '0' ∧ (x = 'x' ∨ x = 'X') then readDigits 16 rest 0 0
    else readDigits 10 (c :: x :: rest) 0 0
  | cs => readDigits 10 cs 0 0

/-- Sign part of `parseInt`: whether a leading `-` was read, and what follows the sign. -/
def stripSign : List Char → Bool × List Char
  | [] => (false, [])
  | c :: rest =>
    if c = '-' then (true, rest) else if c = '+' then (false, rest) else (false, c :: rest)

/-- The function `parseInt` (no radix argument) on a string: leading white space is dropped, then
an optional sign, then the digits; no digit at all gives `NaN`. The result is the integer of
the digits, which is what JavaScript returns when that integer is safe. -/
def parseIntChars (cs : List Char) : JVal :=
  let signed := stripSign (cs.dropWhile isJsWhiteSpace)
  let r := parseMagnitude signed.2
  if r.2 = 0 then .nan
  else if signed.1 then .num (-(r.1 : Int)) else .num (r.1 : Int)

/-- The call `parseInt(v)`: ToString on the argument, then the string is parsed. -/
def parseInt (v : JVal) : Except JsError JVal :=
  match toChars v with
  | .ok cs => .ok (parseIntChars cs)
  | .error e => .error e

/-- The method `String.prototype.trim`. -/
def jsTrim (cs : List Char) : List Char :=
  ((cs.dropWhile isJsWhiteSpace).reverse.dropWhile isJsWhiteSpace).reverse

/-! ## The `Map` tables -/

/-- SameValueZero, the key equality of `Map`: primitives by value (`NaN` equals `NaN`),
objects and arrays by reference, which no other value shares. -/
def sameValueZero : JVal → JVal → Bool
  | .undefined, .undefined => true
  | .null, .null => true
  | .bool a, .bool b => a == b
  | .nan, .nan => true
  | .num a, .num b => a == b
  | .str a, .str b => a == b
  | _, _ => false

/-- A `Map`: its entries in insertion order. -/
abbrev JMap := List (JVal × JVal)

/-- The method `Map.prototype.get`: the value of the entry with that key, else `undefined`. -/
def JMap.get : JMap → JVal → JVal
  | [], _ => .undefined
  | (k', v) :: rest, k => if sameValueZero k' k then v else JMap.get rest k

/-- The method `Map.prototype.has`. -/
def JMap.has : JMap → JVal → Bool
  | [], _ => false
  | (k', _) :: rest, k => sameValueZero k' k || JMap.has rest k

/-- The method `Map.prototype.set`: an existing key keeps its position and takes the new value,
a new key is appended. -/
def JMap.set : JMap → JVal → JVal → JMap
  | [], k, v => [(k, v)]
  | (k', v') :: rest, k, v =>
    if sameValueZero k' k then (k', v) :: rest else (k', v') :: JMap.set rest k v

/-- The property `Map.prototype.size`. -/
def JMap.size (m : JMap) : Nat := m.length

/-! ## The manager and its loaders -/

/-- A `Date` object, by its time value: milliseconds since the epoch, or an invalid date. -/
inductive JDate where
  | invalid : JDate
  | time (ms : Int) : JDate
  deriving Repr, DecidableEq, Inhabited

/-- The mutable fields of a `MappingManager` instance: the five tables and `lastUpdate`
(`none` is `null`). -/
structure MappingManager where
  clubNames : JMap
  playerNames : JMap
  leagueNames : JMap
  stadiumNames : JMap
  cupNames : JMap
  lastUpdate : Option JDate
  deriving Repr, Inhabited

/-- The state the constructor sets up: five empty tables, `lastUpdate = null`. -/
def MappingManager.fresh : MappingManager := ⟨[], [], [], [], [], none⟩

/-- Outcome of running statements on a state: the error thrown, if any, and the state reached
(in-place mutations made before a throw stay). -/
structure Run (σ : Type) where
  thrown : Option JsError
  state : σ

/-- What one iteration of a loader loop does: at most one `set(key, value)` on the table, and
possibly a throw (before the `set` when there is none, after it otherwise). -/
structure Effect where
  entry : Option (JVal × JVal)
  thrown : Option JsError

/-- An iteration that either throws before touching the table or performs the given `set`. -/
def Effect.ofExcept : Except JsError (Option (JVal × JVal)) → Effect
  | .ok entry => ⟨entry, none⟩
  | .error e => ⟨none, some e⟩

/-- The table an iteration leaves. -/
def Effect.apply (e : Effect) (m : JMap) : JMap :=
  match e.entry with
  | some (k, v) => m.set k v
  | none => m

/-- The statement `for (const x of xs) body` over a table: the iterations run in order and the
first throw ends the loop. -/
def forOf (body : JVal → Effect) : List JVal → JMap → Run JMap
  | [], m => ⟨none, m⟩
  | x :: rest, m =>
    match (body x).thrown with
    | some e => ⟨some e, (body x).apply m⟩
    | none => forOf body rest ((body x).apply m)

/-- The common shape of the five loaders: `table.clear()`, then, when
`data && data.FIELD && Array.isArray(data.FIELD)`, the loop over `data.FIELD`. -/
def loadTable (body : JVal → Effect) (field : String) (data : JVal) : Run JMap :=
  if truthy data then
    match getProp data field with
    | .error e => ⟨some e, []⟩
    | .ok list =>
      if truthy list && isArray list then forOf body (arrayElems list) [] else ⟨none, []⟩
  else ⟨none, []⟩

/-- Loop body of `loadClubs`:
`if (club.id && club.n) { clubNames.set(parseInt(club.id), club.n) }`. -/
def clubRecord (club : JVal) : Except JsError (Option (JVal × JVal)) := do
  let id ← getProp club "id"
  if truthy id then
    let n ← getProp club "n"
    if truthy n then
      let clubId ← parseInt id
      pure (some (clubId, n))
    else pure none
  else pure none

/-- Loop body of `loadPlayers`: the guard `player.id && (player.f || player.s)`, then the key
`parseInt(player.id)` and the name `(player.f || '') + ' ' + (player.s || '')` trimmed, stored
only when it is not empty. -/
def playerRecord (player : JVal) : Except JsError (Option (JVal × JVal)) := do
  let id ← getProp player "id"
  if truthy id then
    let f ← getProp player "f"
    let s ← getProp player "s"
    if truthy f || truthy s then
      let playerId ← parseInt id
      let first ← toChars (jsOr f (.str ""))
      let last ← toChars (jsOr s (.str ""))
      let fullName := jsTrim (first ++ ' ' :: last)
      if fullName != [] then pure (some (playerId, .str (String.mk fullName)))
      else pure none
    else pure none
  else pure none

/-- Loop body of `loadLeagues` up to the `set`: the guard `league.c && league.d && league.n`
and the key `league.c + '_' + league.d`. -/
def leagueRecord (league : JVal) : Except JsError (Option (JVal × JVal)) := do
  let c ← getProp league "c"
  if truthy c then
    let d ← getProp league "d"
    if truthy d then
      let n ← getProp league "n"
      if truthy n then
        let cs ← toChars c
        let ds ← toChars d
        pure (some (.str (String.mk (cs ++ '_' :: ds)), n))
      else pure none
    else pure none
  else pure none

/-- Loop body of `loadLeagues`: after the `set`, the argument of `logger.debug` converts
`league.n` to a string, which can throw. -/
def leagueEffect (league : JVal) : Effect :=
  match leagueRecord league with
  | .error e => ⟨none, some e⟩
  | .ok none => ⟨none, none⟩
  | .ok (some (k, n)) =>
    match toChars n with
    | .ok _ => ⟨some (k, n), none⟩
    | .error e => ⟨some (k, n), some e⟩

/-- Loop body of `loadStadiums`, the same as for clubs. -/
def stadiumRecord (stadium : JVal) : Except JsError (Option (JVal × JVal)) := do
  let id ← getProp stadium "id"
  if truthy id then
    let n ← getProp stadium "n"
    if truthy n then
      let stadiumId ← parseInt id
      pure (some (stadiumId, n))
    else pure none
  else pure none

/-- Loop body of `loadCups`: the id is the key as it is, without `parseInt`. -/
def cupRecord (cup : JVal) : Except JsError (Option (JVal × JVal)) := do
  let id ← getProp cup "id"
  if truthy id then
    let n ← getProp cup "n"
    if truthy n then pure (some (id, n))
    else pure none
  else pure none

/-- The method `loadClubs(clubData)`. -/
def loadClubs (clubData : JVal) (mm : MappingManager) : Run MappingManager :=
  let r := loadTable (fun x => Effect.ofExcept (clubRecord x)) "C" clubData
  ⟨r.thrown, { mm with clubNames := r.state }⟩

/-- The method `loadPlayers(playerData)`. -/
def loadPlayers (playerData : JVal) (mm : MappingManager) : Run MappingManager :=
  let r := loadTable (fun x => Effect.ofExcept (playerRecord x)) "P" playerData
  ⟨r.thrown, { mm with playerNames := r.state }⟩

/-- The method `loadLeagues(leagueData)`. -/
def loadLeagues (leagueData : JVal) (mm : MappingManager) : Run MappingManager :=
  let r := loadTable leagueEffect "L" leagueData
  ⟨r.thrown, { mm with leagueNames := r.state }⟩

/-- The method `loadStadiums(stadiumData)`. -/
def loadStadiums (stadiumData : JVal) (mm : MappingManager) : Run MappingManager :=
  let r := loadTable (fun x => Effect.ofExcept (stadiumRecord x)) "S" stadiumData
  ⟨r.thrown, { mm with stadiumNames := r.state }⟩

/-- The method `loadCups(cupData)`. -/
def loadCups (cupData : JVal) (mm : MappingManager) : Run MappingManager :=
  let r := loadTable (fun x => Effect.ofExcept (cupRecord x)) "C" cupData
  ⟨r.thrown, { mm with cupNames := r.state }⟩

/-- The value of `v.k` when the read does not throw, `undefined` when it does. -/
def propOr (v : JVal) (k : String) : JVal :=
  match getProp v k with
  | .ok w => w
  | .error _ => .undefined

/-- The run of the `loadClubs` loop on the `ClubData` of a pack, from the cleared table. -/
def clubTable (packData : JVal) : Run JMap :=
  loadTable (fun x => Effect.ofExcept (clubRecord x)) "C" (propOr packData "ClubData")

/-- The run of the `loadPlayers` loop on the `PlayerData` of a pack. -/
def playerTable (packData : JVal) : Run JMap :=
  loadTable (fun x => Effect.ofExcept (playerRecord x)) "P" (propOr packData "PlayerData")

/-- The run of the `loadLeagues` loop on the `LeagueData` of a pack. -/
def leagueTable (packData : JVal) : Run JMap :=
  loadTable leagueEffect "L" (propOr packData "LeagueData")

/-- The run of the `loadStadiums` loop on the `StadiumData` of a pack. -/
def stadiumTable (packData : JVal) : Run JMap :=
  loadTable (fun x => Effect.ofExcept (stadiumRecord x)) "S" (propOr packData "StadiumData")

/-- The run of the `loadCups` loop on the `CupData` of a pack. -/
def cupTable (packData : JVal) : Run JMap :=
  loadTable (fun x => Effect.ofExcept (cupRecord x)) "C" (propOr packData "CupData")

/-- A statement `this.loadX(packData.NAME)`, run only when nothing was thrown before. -/
def thenLoad (loader : JVal → MappingManager → Run MappingManager) (packData : JVal)
    (name : String) (r : Run MappingManager) : Run MappingManager :=
  match r.thrown with
  | some _ => r
  | none =>
    match getProp packData name with
    | .error e => ⟨some e, r.state⟩
    | .ok sub => loader sub r.state

/-- The five loader calls of `loadMappings`, in their order. -/
def loadPack (packData : JVal) (mm : MappingManager) : Run MappingManager :=
  thenLoad loadCups packData "CupData"
    (thenLoad loadStadiums packData "StadiumData"
      (thenLoad loadLeagues packData "LeagueData"
        (thenLoad loadPlayers packData "PlayerData"
          (thenLoad loadClubs packData "ClubData" ⟨none, mm⟩))))

/-- The statement `if (jsonData.meta && jsonData.meta.lastUpdate) this.lastUpdate = new
Date(jsonData.meta.lastUpdate)`; `newDate` is the `Date` constructor on one argument, taken as
total: it throws only on an object that has no primitive value, which the text that
`updateMappings` writes as `meta.lastUpdate` is not. -/
def setLastUpdate (newDate : JVal → JDate) (jsonData : JVal) (mm : MappingManager) :
    Run MappingManager :=
  match getProp jsonData "meta" with
  | .error e => ⟨some e, mm⟩
  | .ok info =>
    if truthy info then
      match getProp info "lastUpdate" with
      | .error e => ⟨some e, mm⟩
      | .ok stamp =>
        if truthy stamp then ⟨none, { mm with lastUpdate := some (newDate stamp) }⟩
        else ⟨none, mm⟩
    else ⟨none, mm⟩

/-- The `try` block of `loadMappings` once the file has been read and parsed into `jsonData`:
without a truthy `PackData` the method returns and changes nothing; else the five loaders run
and `lastUpdate` is set from `meta`. A throw leaves the `try` block with the state reached. -/
def loadMappingsTry (newDate : JVal → JDate) (jsonData : JVal) (mm : MappingManager) :
    Run MappingManager :=
  match getProp jsonData "PackData" with
  | .error e => ⟨some e, mm⟩
  | .ok packData =>
    if truthy packData then
      let r := loadPack packData mm
      match r.thrown with
      | some _ => r
      | none => setLastUpdate newDate jsonData r.state
    else ⟨none, mm⟩

/-! ## Lookups -/

/-- The method `getClubName(clubId)`: `clubNames.get(parseInt(clubId)) || "Club #" + clubId`. -/
def getClubName (mm : MappingManager) (clubId : JVal) : Except JsError JVal := do
  let key ← parseInt clubId
  let found := mm.clubNames.get key
  if truthy found then pure found
  else
    let text ← toChars clubId
    pure (.str (String.mk ("Club #".data ++ text)))

/-- The method `getPlayerName(playerId)`. -/
def getPlayerName (mm : MappingManager) (playerId : JVal) : Except JsError JVal := do
  let key ← parseInt playerId
  let found := mm.playerNames.get key
  if truthy found then pure found
  else
    let text ← toChars playerId
    pure (.str (String.mk ("Joueur #".data ++ text)))

/-- The method `getLeagueName(leagueId)`: the table is not consulted. -/
def getLeagueName (_mm : MappingManager) (leagueId : JVal) : Except JsError JVal := do
  let text ← toChars leagueId
  pure (.str (String.mk ("Ligue #".data ++ text)))

/-- The expression `v + 1`: numeric addition on `undefined`, `null`, booleans and Numbers (the
exact sum, which is the Number JavaScript computes when it is a safe integer), concatenation
with `"1"` on a string or on an object (which is first converted to a string). -/
def addOne (v : JVal) : Except JsError JVal :=
  match v with
  | .undefined => .ok .nan
  | .null => .ok (.num 1)
  | .bool b => .ok (.num (if b then 2 else 1))
  | .nan => .ok .nan
  | .num n => .ok (.num (n + 1))
  | .str s => .ok (.str (String.mk (s.data ++ ['1'])))
  | other =>
    match toChars other with
    | .ok cs => .ok (.str (String.mk (cs ++ ['1'])))
    | .error e => .error e

/-- The method `getLeagueNameByCountryDivision(countryCode, division)`: the key is
`countryCode + '_' + (division + 1)`, the fallback `"Ligue " + countryCode + " D" +
(division + 1)`. -/
def getLeagueNameByCountryDivision (mm : MappingManager) (countryCode division : JVal) :
    Except JsError JVal := do
  let c ← toChars countryCode
  let next ← addOne division
  let d ← toChars next
  let leagueKey := JVal.str (String.mk (c ++ '_' :: d))
  let found := mm.leagueNames.get leagueKey
  if truthy found then pure found
  else pure (.str (String.mk ("Ligue ".data ++ c ++ " D".data ++ d)))

/-- The method `getStadiumName(stadiumId)`. -/
def getStadiumName (mm : MappingManager) (stadiumId : JVal) : Except JsError JVal := do
  let key ← parseInt stadiumId
  let found := mm.stadiumNames.get key
  if truthy found then pure found
  else
    let text ← toChars stadiumId
    pure (.str (String.mk ("Stade #".data ++ text)))

/-- The method `getCupName(cupId)`: the id is the key as it is. -/
def getCupName (mm : MappingManager) (cupId : JVal) : Except JsError JVal := do
  let found := mm.cupNames.get cupId
  if truthy found then pure found
  else
    let text ← toChars cupId
    pure (.str (String.mk ("Coupe #".data ++ text)))

/-! ## Statistics and search -/

/-- What `getStats()` returns. -/
structure Stats where
  clubs : Nat
  players : Nat
  leagues : Nat
  stadiums : Nat
  cups : Nat
  lastUpdate : Option JDate
  nextUpdate : Option JDate
  deriving Repr, DecidableEq

/-- TimeClip of the `Date` constructor: a time value beyond 8.64e15 ms is an invalid date. -/
def timeClip (t : Int) : JDate :=
  if t.natAbs ≤ 8640000000000000 then .time t else .invalid

/-- The method `getStats()`. -/
def getStats (mm : MappingManager) : Stats :=
  { clubs := mm.clubNames.size
    players := mm.playerNames.size
    leagues := mm.leagueNames.size
    stadiums := mm.stadiumNames.size
    cups := mm.cupNames.size
    lastUpdate := mm.lastUpdate
    nextUpdate :=
      match mm.lastUpdate with
      | none => none
      | some .invalid => some .invalid
      | some (.time t) => some (timeClip (t + 7 * 24 * 60 * 60 * 1000)) }

/-- Whether `xs` begins with `ys`. -/
def startsWith : List Char → List Char → Bool
  | _, [] => true
  | [], _ :: _ => false
  | x :: xs, y :: ys => x == y && startsWith xs ys

/-- The method `String.prototype.includes`: `needle` occurs somewhere in `hay`. -/
def includes : List Char → List Char → Bool
  | [], needle => startsWith [] needle
  | x :: xs, needle => startsWith (x :: xs) needle || includes xs needle

/-- The loop of `searchClubs` over the remaining entries of the table: a name that is not a
string has no `toLowerCase` method and throws; a match is pushed and the loop breaks as soon as
`results.length >= limit`. -/
def searchLoop (toLowerCase : String → String) (searchLower : String) (limit : Int) :
    JMap → List (JVal × String) → Except JsError (List (JVal × String))
  | [], results => .ok results
  | (clubId, clubName) :: rest, results =>
    match clubName with
    | .str name =>
      if includes (toLowerCase name).data searchLower.data then
        let results' := results ++ [(clubId, name)]
        if (results'.length : Int) ≥ limit then .ok results'
        else searchLoop toLowerCase searchLower limit rest results'
      else searchLoop toLowerCase searchLower limit rest results
    | _ => .error (.typeError "clubName.toLowerCase is not a function")

/-- The method `searchClubs(searchTerm, limit = 10)`; the results are the `(id, name)` pairs.
`toLowerCase` is `String.prototype.toLowerCase`; `limit = none` is an omitted argument. -/
def searchClubs (toLowerCase : String → String) (mm : MappingManager) (searchTerm : JVal)
    (limit : Option Int) : Except JsError (List (JVal × String)) :=
  match searchTerm with
  | .str term => searchLoop toLowerCase (toLowerCase term) (limit.getD 10) mm.clubNames []
  | .undefined => .error (.typeError "Cannot read properties of undefined (reading toLowerCase)")
  | .null => .error (.typeError "Cannot read properties of null (reading toLowerCase)")
  | _ => .error (.typeError "searchTerm.toLowerCase is not a function")

/-- The entries of a club table whose lower-cased name contains `searchLower`, in table
order, as `(id, name)` pairs. -/
def matchingClubs (toLowerCase : String → String) (searchLower : String) (table : JMap) :
    List (JVal × String) :=
  table.filterMap (fun e =>
    match e.2 with
    | .str name =>
      if includes (toLowerCase name).data searchLower.data then some (e.1, name) else none
    | _ => none)

/-- The search as the specification words it: a full scan of the club table for the names
containing the term, both lower-cased, followed by truncation to `limit` results. -/
def searchClubsFullScan (toLowerCase : String → String) (mm : MappingManager) (term : String)
    (limit : Nat) : List (JVal × String) :=
  (matchingClubs toLowerCase (toLowerCase term) mm.clubNames).take limit

/-- Lower-casing of the letters `A` to `Z`, what `toLowerCase` does on ASCII text. -/
def asciiLower (s : String) : String := String.mk (s.data.map Char.toLower)

/-- A club table of 50 clubs, "United 0" to "United 49", under the ids 0 to 49. -/
def unitedClubs : JMap :=
  (List.range 50).map (fun i => (JVal.num i, JVal.str ("United " ++ decimal i)))

/-- A manager whose club table is `unitedClubs`. -/
def unitedManager : MappingManager := { MappingManager.fresh with clubNames := unitedClubs }

/-- The five entities of the data pack. -/
inductive Entity where
  | club : Entity
  | player : Entity
  | league : Entity
  | stadium : Entity
  | cup : Entity
  deriving Repr, DecidableEq

/-- The property of `PackData` that holds the sub-table of an entity. -/
def Entity.subTable : Entity → String
  | .club => "ClubData"
  | .player => "PlayerData"
  | .league => "LeagueData"
  | .stadium => "StadiumData"
  | .cup => "CupData"

/-- The property of a sub-table that holds its list of records. -/
def Entity.listField : Entity → String
  | .club => "C"
  | .player => "P"
  | .league => "L"
  | .stadium => "S"
  | .cup => "C"

/-- The table of an entity in the manager. -/
def Entity.table : Entity → MappingManager → JMap
  | .club, mm => mm.clubNames
  | .player, mm => mm.playerNames
  | .league, mm => mm.leagueNames
  | .stadium, mm => mm.stadiumNames
  | .cup, mm => mm.cupNames

/-- The loader method of an entity. -/
def Entity.loader : Entity → JVal → MappingManager → Run MappingManager
  | .club => loadClubs
  | .player => loadPlayers
  | .league => loadLeagues
  | .stadium => loadStadiums
  | .cup => loadCups

/-- The loop body of the loader of an entity. -/
def Entity.body : Entity → JVal → Effect
  | .club => fun x => Effect.ofExcept (clubRecord x)
  | .player => fun x => Effect.ofExcept (playerRecord x)
  | .league => leagueEffect
  | .stadium => fun x => Effect.ofExcept (stadiumRecord x)
  | .cup => fun x => Effect.ofExcept (cupRecord x)

/-- The run of the loader loop of an entity on the pack. -/
def Entity.loop (e : Entity) (packData : JVal) : Run JMap :=
  loadTable e.body e.listField (propOr packData e.subTable)

/-- The lookup method of an entity by a single id (for leagues the bare-id `getLeagueName`). -/
def Entity.lookup : Entity → MappingManager → JVal → Except JsError JVal
  | .club => getClubName
  | .player => getPlayerName
  | .league => getLeagueName
  | .stadium => getStadiumName
  | .cup => getCupName

/-! ## Refresh: the remote source, the snapshot file and the clock -/

/-- The position of an entity in the order in which `loadMappings` runs the loaders. -/
def Entity.index : Entity → Nat
  | .club => 0
  | .player => 1
  | .league => 2
  | .stadium => 3
  | .cup => 4

/-- The properties `0`, `1`, ... that spreading an array or a string creates. -/
def indexProps : Nat → List JVal → List (String × JVal)
  | _, [] => []
  | i, x :: rest => (String.mk (natDigits i), x) :: indexProps (i + 1) rest

/-- The own enumerable properties an object spread `{...v}` copies: those of an object, the
indexed elements of an array, the indexed characters of a string, nothing for another value.
A string is spread by character, which is what JavaScript does on a text of the basic plane,
where a character is one UTF-16 unit. -/
def spreadProps : JVal → List (String × JVal)
  | .obj kvs => kvs
  | .arr xs => indexProps 0 xs
  | .str s => indexProps 0 (s.data.map (fun c => JVal.str (String.mk [c])))
  | _ => []

/-- Writing a property in an object literal: an existing property keeps its position and
takes the new value, a new one is appended. -/
def setProp : List (String × JVal) → String → JVal → List (String × JVal)
  | [], k, v => [(k, v)]
  | (k', v') :: rest, k, v =>
    if k' = k then (k', v) :: rest else (k', v') :: setProp rest k v

/-- The constant `dataPackUrl`. -/
def dataPackUrl : String := "https://elrincondeldt.com/sv/rincon_v1.json"

/-- The object `{...data, meta: {lastUpdate, source, version}}` of `updateMappings`, with
`stamp` the ISO text of the current time. -/
def withMeta (data : JVal) (stamp : String) : JVal :=
  .obj (setProp (spreadProps data) "meta"
    (.obj [("lastUpdate", .str stamp), ("source", .str dataPackUrl), ("version", .str "3.0")]))

mutual
/-- What `JSON.parse(JSON.stringify(v))` gives back: `NaN` becomes `null`, an `undefined`
array element becomes `null` and a property whose value is `undefined` is dropped. -/
def jsonClone : JVal → JVal
  | .undefined => .undefined
  | .null => .null
  | .bool b => .bool b
  | .nan => .null
  | .num n => .num n
  | .str s => .str s
  | .arr xs => .arr (cloneElems xs)
  | .obj kvs => .obj (cloneProps kvs)
/-- The elements of an array after `JSON.stringify` and `JSON.parse`. -/
def cloneElems : List JVal → List JVal
  | [] => []
  | x :: rest =>
    (match x with
     | .undefined => JVal.null
     | y => jsonClone y) :: cloneElems rest
/-- The properties of an object after `JSON.stringify` and `JSON.parse`. -/
def cloneProps : List (String × JVal) → List (String × JVal)
  | [] => []
  | (k, v) :: rest =>
    match v with
    | .undefined => cloneProps rest
    | w => (k, jsonClone w) :: cloneProps rest
end

/-- What the program does not control: the outcome of each `axios.get` (an error, or the
`response.data` of the response), of each `fs.writeFile` (an error or none), each reading of
the clock by `new Date()` in milliseconds, and the `Date` conversions `toISOString` and
`new Date(value)`. The n-th call of a kind gets the n-th outcome. -/
structure Env where
  remote : Nat → Except JsError JVal
  writeError : Nat → Option JsError
  clock : Nat → Int
  toISOString : Int → String
  newDate : JVal → JDate

/-- The state of the system: the manager, the snapshot file (`none` when it is missing or
cannot be read or parsed, else the document `JSON.parse` gives) and how many fetches, writes
and clock readings have been made. -/
structure Sys where
  mm : MappingManager
  disk : Option JVal
  fetches : Nat
  writes : Nat
  ticks : Nat

/-- The state after one more `axios.get`. -/
def Sys.fetched (s : Sys) : Sys := { s with fetches := s.fetches + 1 }

/-- The state after one more reading of the clock. -/
def Sys.ticked (s : Sys) : Sys := { s with ticks := s.ticks + 1 }

/-- The state after a `writeFile` that failed. -/
def Sys.writeFailed (s : Sys) : Sys := { s with writes := s.writes + 1 }

/-- The state after a `writeFile` that stored the text of `doc`. -/
def Sys.written (s : Sys) (doc : JVal) : Sys :=
  { s with writes := s.writes + 1, disk := some (jsonClone doc) }

/-- The method `loadMappings()`, with `onCatch` what its `catch` block awaits (the call
`this.updateMappings()`): the file is read and parsed, the `try` block runs on the live tables,
and any error, from the read, the parse or a loader, enters the `catch` block. -/
def loadMappingsWith (env : Env) (onCatch : Sys → Option (Run Sys)) (s : Sys) :
    Option (Run Sys) :=
  match s.disk with
  | none => onCatch s
  | some jsonData =>
    let r := loadMappingsTry env.newDate jsonData s.mm
    match r.thrown with
    | none => some ⟨none, { s with mm := r.state }⟩
    | some _ => onCatch { s with mm := r.state }

/-- The method `updateMappings()`: fetch; on success build the document with `meta`, write
the snapshot, reload it with `loadMappings()`; every error is logged and thrown again. The
first argument bounds the depth of the calls `updateMappings` -> `loadMappings` ->
`updateMappings`; `none` is a run that needs more. A failed write leaves the file as it
was. -/
def updateMappings (env : Env) : Nat → Sys → Option (Run Sys)
  | 0, _ => none
  | fuel + 1, s =>
    match env.remote s.fetches with
    | .error e => some ⟨some e, s.fetched⟩
    | .ok data =>
      let dataWithMeta := withMeta data (env.toISOString (env.clock s.ticks))
      match env.writeError s.writes with
      | some e => some ⟨some e, s.fetched.ticked.writeFailed⟩
      | none =>
        loadMappingsWith env (fun s' => updateMappings env fuel s')
          (s.fetched.ticked.written dataWithMeta)

/-- The method `loadMappings()`. -/
def loadMappings (env : Env) (fuel : Nat) (s : Sys) : Option (Run Sys) :=
  loadMappingsWith env (fun s' => updateMappings env fuel s') s

/-- The method `forceUpdate()`. -/
def forceUpdate (env : Env) (fuel : Nat) (s : Sys) : Option (Run Sys) :=
  updateMappings env fuel s

/-- The test `!this.lastUpdate || (now - this.lastUpdate) > 7 * 24 * 60 * 60 * 1000` of
`checkForUpdates`; with an invalid date the difference is `NaN` and the comparison false. -/
def isStale (lastUpdate : Option JDate) (now : Int) : Bool :=
  match lastUpdate with
  | none => true
  | some .invalid => false
  | some (.time t) => decide (now - t > 7 * 24 * 60 * 60 * 1000)

/-- The method `checkForUpdates()`: the clock is read, a stale manager awaits
`updateMappings()`, and the `catch` block logs and swallows every error. -/
def checkForUpdates (env : Env) (fuel : Nat) (s : Sys) : Option (Run Sys) :=
  let now := env.clock s.ticks
  if isStale s.mm.lastUpdate now then
    match updateMappings env fuel s.ticked with
    | none => none
    | some r => some ⟨none, r.state⟩
  else some ⟨none, s.ticked⟩

/-- A name property of a player record that is a text, or missing. -/
def nameField : Option String → JVal
  | none => .undefined
  | some t => .str t

/-- The characters of a name property, a missing one counting as empty. -/
def nameText : Option String → List Char
  | none => []
  | some t => t.data

/-- The display name of a player as the specification words it: the first and the last name
joined by one space, then trimmed. -/
def displayName (first last : Option String) : List Char :=
  jsTrim (nameText first ++ ' ' :: nameText last)

/-! ## The API client (`src/api/ApiClient.js`): formatting helpers and cache -/

/-- The glyph of a win, a green disc. -/
def ApiClient.green : Char := Char.ofNat 0x1F7E2

/-- The glyph of a draw, a yellow disc. -/
def ApiClient.yellow : Char := Char.ofNat 0x1F7E1

/-- The glyph of a loss, a red disc. -/
def ApiClient.red : Char := Char.ofNat 0x1F534

/-- The glyph of any other character, a white disc. -/
def ApiClient.white : Char := Char.ofNat 0x26AA

/-- The `switch` of `formatForm` on one character. -/
def ApiClient.glyph (c : Char) : Char :=
  if c = 'W' then ApiClient.green
  else if c = 'D' then ApiClient.yellow
  else if c = 'L' then ApiClient.red
  else ApiClient.white

/-- What `split('')` and the `map` of `formatForm` make of one character of the string: one
glyph, or two white ones for a character outside the basic plane, which `split('')` cuts into
its two code units. -/
def ApiClient.unitGlyphs (c : Char) : List Char :=
  if c.toNat < 0x10000 then [ApiClient.glyph c] else [ApiClient.white, ApiClient.white]

/-- The glyphs of the characters of a text, in the order of the text. -/
def ApiClient.glyphs : List Char → List Char
  | [] => []
  | c :: rest => ApiClient.unitGlyphs c ++ ApiClient.glyphs rest

/-- The method `formatForm(form)`: "Aucune" for a falsy form, else
`form.split('').map(glyph).join('')`; a truthy value that is not a string has no `split`. -/
def ApiClient.formatForm (form : JVal) : Except JsError String :=
  if truthy form then
    match form with
    | .str s => .ok (String.mk (ApiClient.glyphs s.data))
    | _ => .error (.typeError "form.split is not a function")
  else .ok "Aucune"

/-- The number formatting of the host: `n.toLocaleString()` on an integer, on the negative
zero, and `(n / d).toFixed(1)`. -/
structure NumberFormat where
  toLocaleString : Int → String
  negativeZero : String
  toFixed1 : Int → Int → String

/-- The expression `Math.ceil(amount / 10000)` on an integer amount. -/
def ApiClient.dollarsOf (amount : Int) : Int := -((-amount) / 10000)

/-- The method `formatMoney(amount)` on an amount that is missing (`none`) or an integer. A
negative amount above -10000 rounds up to the negative zero. -/
def ApiClient.formatMoney (fmt : NumberFormat) (amount : Option Int) : String :=
  match amount with
  | none => "0$"
  | some a =>
    if a = 0 then "0$"
    else
      let dollars := ApiClient.dollarsOf a
      if dollars ≥ 1000000000 then fmt.toFixed1 dollars 1000000000 ++ "B$"
      else if dollars ≥ 1000000 then fmt.toFixed1 dollars 1000000 ++ "M$"
      else if dollars ≥ 1000 then fmt.toFixed1 dollars 1000 ++ "K$"
      else if dollars = 0 ∧ a < 0 then fmt.negativeZero ++ "$"
      else fmt.toLocaleString dollars ++ "$"

/-- A number formatting that prints an integer below 1000 with its decimal digits, as the
locales with Latin digits do. -/
def plainFormat : NumberFormat :=
  { toLocaleString := fun n => decimal n
    negativeZero := "-0"
    toFixed1 := fun n d => decimal (n / d) }

/-- An entry of the cache: `{data, timestamp}`. -/
structure CacheEntry where
  data : JVal
  timestamp : Int

/-- The cache `Map`, from the string keys of `getCacheKey` to entries, in insertion order. -/
abbrev Cache := List (String × CacheEntry)

/-- The method `Map.prototype.get` on the cache. -/
def Cache.get? : Cache → String → Option CacheEntry
  | [], _ => none
  | (k, e) :: rest, key => if k = key then some e else Cache.get? rest key

/-- The method `Map.prototype.set` on the cache. -/
def Cache.set : Cache → String → CacheEntry → Cache
  | [], key, e => [(key, e)]
  | (k, e0) :: rest, key, e =>
    if k = key then (k, e) :: rest else (k, e0) :: Cache.set rest key e

/-- The method `Map.prototype.delete` on the cache. -/
def Cache.delete : Cache → String → Cache
  | [], _ => []
  | (k, e) :: rest, key => if k = key then rest else (k, e) :: Cache.delete rest key

/-- The field `cacheTimeout`, 5 minutes in milliseconds. -/
def ApiClient.cacheTimeout : Int := 5 * 60 * 1000

/-- The method `getFromCache(key)`, with `now` the value of `Date.now()`: the value returned
and the cache left. -/
def ApiClient.getFromCache (cache : Cache) (now : Int) (key : String) : JVal × Cache :=
  match cache.get? key with
  | none => (.null, cache)
  | some cached =>
    if now - cached.timestamp > ApiClient.cacheTimeout then (.null, cache.delete key)
    else (cached.data, cache)

/-- The method `setCache(key, data)`, with `now` the value of `Date.now()`. -/
def ApiClient.setCache (cache : Cache) (now : Int) (key : String) (data : JVal) : Cache :=
  cache.set key ⟨data, now⟩

/-! ## The subscription store (`src/data/DataManager.js`) -/

/-- A `Set` of club ids (texts), in insertion order. -/
abbrev ClubSet := List String

/-- The `Map` `registrations`, from channel ids (texts) to sets of club ids. -/
abbrev Registrations := List (String × ClubSet)

/-- The method `Set.prototype.add`. -/
def ClubSet.add (s : ClubSet) (x : String) : ClubSet :=
  if x ∈ s then s else s ++ [x]

/-- The method `Set.prototype.delete`: the set left. -/
def ClubSet.delete (s : ClubSet) (x : String) : ClubSet :=
  s.filter (fun y => y ≠ x)

/-- The method `Map.prototype.get` on the registrations. -/
def Registrations.get? : Registrations → String → Option ClubSet
  | [], _ => none
  | (k, s) :: rest, ch => if k = ch then some s else Registrations.get? rest ch

/-- The method `Map.prototype.set` on the registrations; also what mutating the set of an
existing channel in place does. -/
def Registrations.put : Registrations → String → ClubSet → Registrations
  | [], ch, s => [(ch, s)]
  | (k, s0) :: rest, ch, s =>
    if k = ch then (k, s) :: rest else (k, s0) :: Registrations.put rest ch s

/-- The method `Map.prototype.delete` on the registrations. -/
def Registrations.remove : Registrations → String → Registrations
  | [], _ => []
  | (k, s) :: rest, ch => if k = ch then rest else (k, s) :: Registrations.remove rest ch

/-- The method call `v.toString()`: a `TypeError` on `null` and `undefined`, else the text of
the value. -/
def callToString (v : JVal) : Except JsError String :=
  match v with
  | .undefined => .error (.typeError "Cannot read properties of undefined (reading toString)")
  | .null => .error (.typeError "Cannot read properties of null (reading toString)")
  | other => toStr other

/-- The method `registerTeam(channelId, clubId)`: the value returned and the registrations
left. -/
def DataManager.registerTeam (regs : Registrations) (channelId : String) (clubId : JVal) :
    Except JsError (Bool × Registrations) :=
  match callToString clubId with
  | .error e => .error e
  | .ok clubIdStr =>
    let regs1 := if (regs.get? channelId).isSome then regs else regs.put channelId []
    match regs1.get? channelId with
    | none => .error (.typeError "Cannot read properties of undefined (reading add)")
    | some channelClubs => .ok (true, regs1.put channelId (channelClubs.add clubIdStr))

/-- The method `unregisterTeam(channelId, clubId)`: the value returned and the registrations
left. -/
def DataManager.unregisterTeam (regs : Registrations) (channelId : String) (clubId : JVal) :
    Except JsError (Bool × Registrations) :=
  match callToString clubId with
  | .error e => .error e
  | .ok clubIdStr =>
    match regs.get? channelId with
    | none => .ok (false, regs)
    | some channelClubs =>
      let removed := decide (clubIdStr ∈ channelClubs)
      let left := channelClubs.delete clubIdStr
      let regs1 := regs.put channelId left
      if left.length = 0 then .ok (removed, regs1.remove channelId) else .ok (removed, regs1)

/-- The method `isTeamRegistered(channelId, clubId)`. -/
def DataManager.isTeamRegistered (regs : Registrations) (channelId : String) (clubId : JVal) :
    Except JsError Bool :=
  match callToString clubId with
  | .error e => .error e
  | .ok clubIdStr =>
    match regs.get? channelId with
    | none => .ok false
    | some channelClubs => .ok (decide (clubIdStr ∈ channelClubs))

/-- The method `getChannelClubs(channelId)`. -/
def DataManager.getChannelClubs (regs : Registrations) (channelId : String) : List String :=
  match regs.get? channelId with
  | none => []
  | some channelClubs => channelClubs

/-- The field `totalChannels` of what `getStats()` of the store returns. -/
def DataManager.totalChannels (regs : Registrations) : Nat := regs.length

/-- A call of the store. -/
inductive RegOp where
  | register (channelId : String) (clubId : JVal) : RegOp
  | unregister (channelId : String) (clubId : JVal) : RegOp

/-- The registrations after a call; a call that throws (in `clubId.toString()`, its first
statement) has changed nothing. -/
def RegOp.apply (op : RegOp) (regs : Registrations) : Registrations :=
  match op with
  | .register ch id =>
    match DataManager.registerTeam regs ch id with
    | .ok r => r.2
    | .error _ => regs
  | .unregister ch id =>
    match DataManager.unregisterTeam regs ch id with
    | .ok r => r.2
    | .error _ => regs

/-- The registrations after a sequence of calls. -/
def runOps : List RegOp → Registrations → Registrations
  | [], regs => regs
  | op :: rest, regs => runOps rest (op.apply regs)

/-! ## Overlapping updates: the steps between two `await` -/

/-- Where a call of `updateMappings()` is suspended: at `await axios.get` (request number
`req`), at `await fs.writeFile` (write number `w`, of the text of `doc`), at `await
fs.readFile` in the `loadMappings()` it awaits, or settled, with the error it rejects with. A
call made by the `catch` block of `loadMappings` is in tail position and continues the same
task. -/
inductive Task where
  | fetching (req : Nat) : Task
  | writing (w : Nat) (doc : JVal) : Task
  | reading : Task
  | done (thrown : Option JsError) : Task

/-- A call of `updateMappings()` (what `forceUpdate()` awaits) runs up to `await axios.get`:
the request is sent. -/
def Task.invoke (s : Sys) : Task × Sys := (.fetching s.fetches, s.fetched)

/-- The step a suspended call takes when what it awaits settles, up to its next `await`:
after the fetch the document is built and `writeFile` is called; after the write
`loadMappings()` is called; after the read the `try` block runs on the live tables, and its
`catch` block calls `updateMappings()` again. -/
def Task.resume (env : Env) (t : Task) (s : Sys) : Task × Sys :=
  match t with
  | .fetching req =>
    match env.remote req with
    | .error e => (.done (some e), s)
    | .ok data =>
      (.writing s.writes (withMeta data (env.toISOString (env.clock s.ticks))),
        { s.ticked with writes := s.writes + 1 })
  | .writing w doc =>
    match env.writeError w with
    | some e => (.done (some e), s)
    | none => (.reading, { s with disk := some (jsonClone doc) })
  | .reading =>
    match s.disk with
    | none => Task.invoke s
    | some jsonData =>
      match (loadMappingsTry env.newDate jsonData s.mm).thrown with
      | none => (.done none, { s with mm := (loadMappingsTry env.newDate jsonData s.mm).state })
      | some _ =>
        Task.invoke { s with mm := (loadMappingsTry env.newDate jsonData s.mm).state }
  | .done r => (.done r, s)

/-- A lower bound on the `writeFile` calls a task has made since it was invoked or last
re-entered `updateMappings`. -/
def Task.credit : Task → Nat
  | .fetching _ => 0
  | .writing _ _ => 1
  | .reading => 1
  | .done none => 1
  | .done (some _) => 0

/-- One task alone: `n` steps. -/
def runSolo (env : Env) : Nat → Task × Sys → Task × Sys
  | 0, c => c
  | n + 1, c => runSolo env n (Task.resume env c.1 c.2)

/-- Two tasks on the one manager: the schedule tells which of them is resumed next (`true`
the first). -/
def runBoth (env : Env) : List Bool → Task × Task × Sys → Task × Task × Sys
  | [], c => c
  | true :: rest, c =>
    runBoth env rest ((Task.resume env c.1 c.2.2).1, c.2.1, (Task.resume env c.1 c.2.2).2)
  | false :: rest, c =>
    runBoth env rest (c.1, (Task.resume env c.2.1 c.2.2).1, (Task.resume env c.2.1 c.2.2).2)

/-- Two invocations of `forceUpdate()`: the first takes `before` steps alone, then the second
is invoked and both run under the schedule. -/
def overlap (env : Env) (before : Nat) (schedule : List Bool) (s : Sys) : Task × Task × Sys :=
  runBoth env schedule
    ((runSolo env before (Task.invoke s)).1,
      (Task.invoke (runSolo env before (Task.invoke s)).2).1,
      (Task.invoke (runSolo env before (Task.invoke s)).2).2)

/-! ## Iteration order of a table with repeated keys -/

/-- The keys of a list of entries in the order the specification gives a table: a key stands
where it first occurs, its later occurrences (under the key equality of `Map`) are dropped. -/
def firstKeys : List JVal → List JVal
  | [] => []
  | k :: rest => k :: (firstKeys rest).filter (fun k' => !sameValueZero k k')

/-! ## Concrete packs and tables used as instances -/

/-- The pack of the concrete scenario: one club, id "2180", name "FC Test". -/
def scenarioPack : JVal :=
  .obj [("PackData", .obj [("ClubData", .obj [("C", .arr [.obj [("id", .str "2180"),
    ("n", .str "FC Test")]])])])]

/-- The pack of the league scenario: one league, `CHE`, division 1, "Super League". -/
def leaguePack : JVal :=
  .obj [("PackData", .obj [("LeagueData", .obj [("L", .arr [.obj [("c", .str "CHE"),
    ("d", .num 1), ("n", .str "Super League")]])])])]

/-- A league sub-table whose only record has the division index 0. -/
def divisionZeroData : JVal :=
  .obj [("L", .arr [.obj [("c", .str "CHE"), ("d", .num 0), ("n", .str "Challenge League")]])]

/-- A manager that already holds one entry in each table. -/
def staleManager : MappingManager :=
  { clubNames := [(.num 1, .str "Old Club")]
    playerNames := [(.num 2, .str "Old Player")]
    leagueNames := [(.str "OLD_1", .str "Old League")]
    stadiumNames := [(.num 3, .str "Old Stadium")]
    cupNames := [(.str "old", .str "Old Cup")]
    lastUpdate := some (.time 0) }

/-- The concrete scenario with a well-formed league sub-table added. -/
def scenarioWithLeagues : JVal :=
  .obj [("PackData", .obj [("ClubData", .obj [("C", .arr [.obj [("id", .str "2180"),
    ("n", .str "FC Test")]])]), ("LeagueData", .obj [("L", .arr [.obj [("c", .str "CHE"),
    ("d", .num 1), ("n", .str "Super League")]])])])]

/-- A sub-table whose list holds `null` and then a well-formed record. -/
def nullRecordData (field : String) : JVal :=
  .obj [(field, .arr [.null, .obj [("id", .str "1"), ("n", .str "A"), ("f", .str "A"),
    ("c", .str "CHE"), ("d", .num 1)]])]

/-- A club sub-table whose only record has the id "abc". -/
def unparsedIdData : JVal := .obj [("C", .arr [.obj [("id", .str "abc"), ("n", .str "X")]])]

/-- A club sub-table with an empty list. -/
def emptyListData : JVal := .obj [("C", .arr [])]

/-- A pack whose club list holds a `null` record. -/
def poisonedPack : JVal :=
  .obj [("PackData", .obj [("ClubData", .obj [("C", .arr [.null])])])]

/-- A document without `PackData`. -/
def noPackBody : JVal := .obj [("status", .str "maintenance")]

/-- A transport failure. -/
def networkError : JsError := .typeError "Network Error"

/-- A failure of `writeFile`. -/
def diskError : JsError := .typeError "ENOSPC: no space left on device"

/-- Eight days after the epoch, in milliseconds. -/
def eightDays : Int := 8 * 24 * 60 * 60 * 1000

/-- An environment whose clock stands eight days after the epoch, whose writes succeed, with
the given outcomes of the fetches. -/
def envOf (remote : Nat → Except JsError JVal) : Env :=
  { remote := remote
    writeError := fun _ => none
    clock := fun _ => eightDays
    toISOString := fun _ => "1970-01-09T00:00:00.000Z"
    newDate := fun _ => .time eightDays }

/-- The remote source serves the poisoned pack once, then fails. -/
def poisonEnv : Env :=
  envOf (fun n => if n = 0 then .ok poisonedPack else .error networkError)

/-- The remote source is down. -/
def downEnv : Env := envOf (fun _ => .error networkError)

/-- The remote source serves a document without `PackData`. -/
def noPackEnv : Env := envOf (fun _ => .ok noPackBody)

/-- The remote source serves the concrete scenario, and every write fails. -/
def fullDiskEnv : Env :=
  { envOf (fun _ => .ok scenarioPack) with writeError := fun _ => some diskError }

/-- The remote source serves the concrete scenario. -/
def scenarioEnv : Env := envOf (fun _ => .ok scenarioPack)

/-- A system whose manager is the stale one (last update at the epoch) and whose snapshot
file holds the concrete scenario. -/
def staleSys : Sys :=
  { mm := staleManager, disk := some scenarioPack, fetches := 0, writes := 0, ticks := 0 }

/-- A pack whose clubs load and whose player list holds a `null` record. -/
def halfPoisonedPack : JVal :=
  .obj [("PackData", .obj [("ClubData", .obj [("C", .arr [.obj [("id", .str "2180"),
    ("n", .str "FC Test")]])]), ("PlayerData", .obj [("P", .arr [.null])])])]

/-- A system that starts cold: fresh manager, no snapshot file. -/
def coldSys : Sys :=
  { mm := MappingManager.fresh, disk := none, fetches := 0, writes := 0, ticks := 0 }

/-- The remote source serves the poisoned pack at every request. -/
def stuckEnv : Env := envOf (fun _ => .ok poisonedPack)

/-- The remote source serves the poisoned pack at its first `n` requests, then the concrete
scenario. -/
def poisonedFor (n : Nat) : Env :=
  envOf (fun k => if k < n then .ok poisonedPack else .ok scenarioPack)

/-- A sub-table whose only record is well formed but for its name, the number 5. -/
def numberNameData (field : String) : JVal :=
  .obj [(field, .arr [.obj [("id", .str "1"), ("n", .num 5), ("c", .str "CHE"),
    ("d", .num 1)]])]

/-- A club sub-table with the ids "7", "8" and "07": the first and the third parse to 7. -/
def duplicateIdData : JVal :=
  .obj [("C", .arr [.obj [("id", .str "7"), ("n", .str "Alpha")],
    .obj [("id", .str "8"), ("n", .str "Beta")],
    .obj [("id", .str "07"), ("n", .str "Gamma")]])]

/-! ## Lemmas: numbers and strings -/

theorem digitValue_digitChar (m : Nat) (h : m < 10) :
    digitValue 10 (Nat.digitChar m) = some m := by
  interval_cases m <;> rfl

theorem digitValue_ten_range (c : Char) (h : (digitValue 10 c).isSome = true) :
    48 ≤ c.toNat ∧ c.toNat ≤ 57 := by
  unfold digitValue at h
  by_cases hc : 48 ≤ c.toNat ∧ c.toNat ≤ 57
  · exact hc
  · simp [hc] at h

/-- The digits `Nat.toDigitsCore` puts in front of `ds` are decimal digits that `readDigits`
reads back to `n`. -/
theorem toDigitsCore_spec (fuel : Nat) : ∀ (n : Nat) (ds : List Char), n < fuel →
    ∃ xs : List Char, Nat.toDigitsCore 10 fuel n ds = xs ++ ds ∧ xs ≠ [] ∧
      (∀ c ∈ xs, (digitValue 10 c).isSome = true) ∧
      ∀ rest acc cnt, readDigits 10 (xs ++ rest) acc cnt =
        readDigits 10 rest (acc * 10 ^ xs.length + n) (cnt + xs.length) := by
  induction fuel with
  | zero => intro n ds h; omega
  | succ fuel ih =>
    intro n ds h
    have hd : digitValue 10 (Nat.digitChar (n % 10)) = some (n % 10) :=
      digitValue_digitChar _ (Nat.mod_lt _ (by decide))
    by_cases h0 : n / 10 = 0
    · refine ⟨[Nat.digitChar (n % 10)], ?_, by simp, ?_, ?_⟩
      · simp [Nat.toDigitsCore, h0]
      · intro c hc
        simp only [List.mem_singleton] at hc
        simp [hc, hd]
      · intro rest acc cnt
        have hn : n % 10 = n := Nat.mod_eq_of_lt (by omega)
        rw [hn] at hd
        simp [readDigits, hd, hn]
    · have hlt : n / 10 < fuel := by omega
      obtain ⟨xs, hxs, _, hdig, hread⟩ := ih (n / 10) (Nat.digitChar (n % 10) :: ds) hlt
      refine ⟨xs ++ [Nat.digitChar (n % 10)], ?_, by simp, ?_, ?_⟩
      · simp [Nat.toDigitsCore, h0, hxs]
      · intro c hc
        rcases List.mem_append.mp hc with hc | hc
        · exact hdig c hc
        · simp only [List.mem_singleton] at hc
          simp [hc, hd]
      · intro rest acc cnt
        rw [List.append_assoc, hread]
        simp only [List.singleton_append, readDigits, hd, List.length_append, List.length_singleton]
        have : (acc * 10 ^ xs.length + n / 10) * 10 + n % 10 = acc * 10 ^ (xs.length + 1) + n := by
          have := Nat.div_add_mod n 10
          rw [pow_succ]
          nlinarith
        rw [this, Nat.add_assoc]
        rfl

/-- The decimal digits of `n`: a non-empty run of digit characters read back to `n`. -/
theorem natDigits_spec (n : Nat) :
    natDigits n ≠ [] ∧ (∀ c ∈ natDigits n, (digitValue 10 c).isSome = true) ∧
      readDigits 10 (natDigits n) 0 0 = (n, (natDigits n).length) := by
  obtain ⟨xs, hxs, hne, hdig, hread⟩ := toDigitsCore_spec (n + 1) n [] (Nat.lt_succ_self n)
  have hx : natDigits n = xs := by simp [natDigits, Nat.toDigits, hxs]
  rw [hx]
  refine ⟨hne, hdig, ?_⟩
  have := hread [] 0 0
  simpa [readDigits] using this

theorem digit_not_space (c : Char) (h : 48 ≤ c.toNat ∧ c.toNat ≤ 57) :
    isJsWhiteSpace c = false := by
  simp only [isJsWhiteSpace, Bool.or_eq_false_iff, Bool.and_eq_false_iff, decide_eq_false_iff_not]
  omega

theorem digit_not_special (c : Char) (h : 48 ≤ c.toNat ∧ c.toNat ≤ 57) :
    c ≠ '-' ∧ c ≠ '+' ∧ c ≠ 'x' ∧ c ≠ 'X' := by
  refine ⟨?_, ?_, ?_, ?_⟩ <;> (intro hc; subst hc; revert h; decide)

/-- On a non-empty run of decimal digits `parseInt` has neither white space nor sign nor radix
mark to strip. -/
theorem parseMagnitude_digits (xs : List Char)
    (hdig : ∀ c ∈ xs, (digitValue 10 c).isSome = true) :
    parseMagnitude xs = readDigits 10 xs 0 0 := by
  match xs, hdig with
  | [], _ => rfl
  | [_], _ => rfl
  | c :: x :: rest, hdig =>
    have hx := digit_not_special x (digitValue_ten_range x (hdig x (by simp)))
    simp [parseMagnitude, hx.2.2.1, hx.2.2.2]

theorem parseIntChars_natDigits (n : Nat) : parseIntChars (natDigits n) = .num (n : Int) := by
  obtain ⟨hne, hdig, hread⟩ := natDigits_spec n
  obtain ⟨c, rest, hcr⟩ := List.exists_cons_of_ne_nil hne
  have hc := digitValue_ten_range c (hdig c (by simp [hcr]))
  have hsp := digit_not_space c hc
  have hsg := digit_not_special c hc
  have hlen : (natDigits n).length ≠ 0 := by simp [hcr]
  have h1 : (natDigits n).dropWhile isJsWhiteSpace = natDigits n := by
    rw [hcr]; simp [List.dropWhile, hsp]
  have h2 : stripSign (natDigits n) = (false, natDigits n) := by
    rw [hcr]; simp [stripSign, hsg.1, hsg.2.1]
  simp [parseIntChars, h1, h2, parseMagnitude_digits _ hdig, hread, hlen]

theorem parseIntChars_neg_natDigits (n : Nat) :
    parseIntChars ('-' :: natDigits n) = .num (-(n : Int)) := by
  obtain ⟨hne, hdig, hread⟩ := natDigits_spec n
  have hlen : (natDigits n).length ≠ 0 := by
    intro h; exact hne (List.length_eq_zero.mp h)
  have h1 : ('-' :: natDigits n).dropWhile isJsWhiteSpace = '-' :: natDigits n := by
    have : isJsWhiteSpace '-' = false := by decide
    simp [List.dropWhile, this]
  simp [parseIntChars, h1, stripSign, parseMagnitude_digits _ hdig, hread, hlen]

/-- Parsing the decimal text of an integer gives the integer back. -/
theorem parseIntChars_intToChars (k : Int) : parseIntChars (intToChars k) = .num k := by
  cases k with
  | ofNat m => exact parseIntChars_natDigits m
  | negSucc m =>
    have := parseIntChars_neg_natDigits (m + 1)
    simpa [intToChars, Int.negSucc_eq] using this

/-- Two values are the same `Map` key only when they are equal. -/
theorem sameValueZero_eq {a b : JVal} (h : sameValueZero a b = true) : a = b := by
  cases a <;> cases b <;> simp_all [sameValueZero]

theorem sameValueZero_self {a : JVal} (h : a.isPrimitive = true) : sameValueZero a a = true := by
  cases a <;> simp_all [sameValueZero, JVal.isPrimitive]

/-! ## Lemmas: tables -/

theorem get_set_self (m : JMap) (k v : JVal) (hk : sameValueZero k k = true) :
    (m.set k v).get k = v := by
  induction m with
  | nil => simp [JMap.set, JMap.get, hk]
  | cons e rest ih =>
    obtain ⟨k0, v0⟩ := e
    by_cases h : sameValueZero k0 k = true
    · simp [JMap.set, JMap.get, h]
    · simp [JMap.set, JMap.get, h, ih]

theorem get_set_other (m : JMap) (k k' v : JVal) (hk : sameValueZero k k' = false) :
    (m.set k v).get k' = m.get k' := by
  induction m with
  | nil => simp [JMap.set, JMap.get, hk]
  | cons e rest ih =>
    obtain ⟨k0, v0⟩ := e
    by_cases h : sameValueZero k0 k = true
    · have h0 : k0 = k := sameValueZero_eq h
      subst h0
      simp [JMap.set, JMap.get, h, hk]
    · by_cases h' : sameValueZero k0 k' = true
      · simp [JMap.set, JMap.get, h, h']
      · simp [JMap.set, JMap.get, h, h', ih]

theorem forOf_cons (body : JVal → Effect) (x : JVal) (rest : List JVal) (m : JMap) :
    forOf body (x :: rest) m =
      match (body x).thrown with
      | some e => ⟨some e, (body x).apply m⟩
      | none => forOf body rest ((body x).apply m) := by
  simp only [forOf]

theorem forOf_append (body : JVal → Effect) (xs ys : List JVal) (m : JMap) :
    forOf body (xs ++ ys) m =
      match (forOf body xs m).thrown with
      | some _ => forOf body xs m
      | none => forOf body ys (forOf body xs m).state := by
  induction xs generalizing m with
  | nil => simp [forOf]
  | cons x rest ih =>
    rw [List.cons_append, forOf_cons, forOf_cons]
    cases h : (body x).thrown with
    | some e => simp
    | none => simp [ih]

/-- A loop none of whose iterations sets the key `k` leaves the value under `k` as it was. -/
theorem forOf_get_other (body : JVal → Effect) (k : JVal) (xs : List JVal) (m : JMap)
    (h : ∀ x ∈ xs, ∀ e, (body x).entry = some e → sameValueZero e.1 k = false) :
    (forOf body xs m).state.get k = m.get k := by
  induction xs generalizing m with
  | nil => simp [forOf]
  | cons x rest ih =>
    have hx := h x (by simp)
    have hrest : ∀ y ∈ rest, ∀ e, (body y).entry = some e → sameValueZero e.1 k = false :=
      fun y hy => h y (by simp [hy])
    have happ : ((body x).apply m).get k = m.get k := by
      unfold Effect.apply
      cases he : (body x).entry with
      | none => rfl
      | some e =>
        obtain ⟨k0, v0⟩ := e
        exact get_set_other m k0 k v0 (hx _ he)
    rw [forOf_cons]
    cases ht : (body x).thrown with
    | some e => simpa using happ
    | none => simp only; rw [ih _ hrest, happ]

/-- A loop that completes holds, under a key, the value of the last iteration that set it. -/
theorem forOf_get_last (body : JVal → Effect) (k v : JVal) (pre post : List JVal) (r : JVal)
    (m : JMap) (hdone : (forOf body (pre ++ r :: post) m).thrown = none)
    (hr : (body r).entry = some (k, v)) (hk : sameValueZero k k = true)
    (hpost : ∀ x ∈ post, ∀ e, (body x).entry = some e → sameValueZero e.1 k = false) :
    (forOf body (pre ++ r :: post) m).state.get k = v := by
  rw [forOf_append] at hdone ⊢
  cases hpre : (forOf body pre m).thrown with
  | some e => rw [hpre] at hdone; simp only at hdone; rw [hpre] at hdone; cases hdone
  | none =>
    rw [hpre] at hdone
    simp only at hdone ⊢
    rw [forOf_cons] at hdone ⊢
    cases ht : (body r).thrown with
    | some e => rw [ht] at hdone; cases hdone
    | none =>
      simp only
      rw [forOf_get_other body k post _ hpost]
      simp [Effect.apply, hr, get_set_self _ _ _ hk]

/-! ## Lemmas: the rebuild -/

theorem getProp_truthy (v : JVal) (k : String) (h : truthy v = true) :
    getProp v k = .ok (propOr v k) := by
  cases v <;> simp_all [getProp, propOr, truthy]

/-- The five loaders are independent: the rebuild completes exactly when each loop does, and
then every table is what its own loop built from its own sub-table. -/
theorem loadPack_spec (packData : JVal) (mm : MappingManager) (h : truthy packData = true) :
    ((loadPack packData mm).thrown = none ↔
      ((clubTable packData).thrown = none ∧ (playerTable packData).thrown = none ∧
        (leagueTable packData).thrown = none ∧ (stadiumTable packData).thrown = none ∧
        (cupTable packData).thrown = none)) ∧
    ((loadPack packData mm).thrown = none →
      (loadPack packData mm).state =
        { clubNames := (clubTable packData).state
          playerNames := (playerTable packData).state
          leagueNames := (leagueTable packData).state
          stadiumNames := (stadiumTable packData).state
          cupNames := (cupTable packData).state
          lastUpdate := mm.lastUpdate }) := by
  simp only [loadPack, thenLoad, getProp_truthy _ _ h, loadClubs, loadPlayers, loadLeagues,
    loadStadiums, loadCups, clubTable, playerTable, leagueTable, stadiumTable, cupTable]
  generalize loadTable (fun x => Effect.ofExcept (clubRecord x)) "C"
    (propOr packData "ClubData") = r1
  generalize loadTable (fun x => Effect.ofExcept (playerRecord x)) "P"
    (propOr packData "PlayerData") = r2
  generalize loadTable leagueEffect "L" (propOr packData "LeagueData") = r3
  generalize loadTable (fun x => Effect.ofExcept (stadiumRecord x)) "S"
    (propOr packData "StadiumData") = r4
  generalize loadTable (fun x => Effect.ofExcept (cupRecord x)) "C"
    (propOr packData "CupData") = r5
  obtain ⟨t1, s1⟩ := r1
  obtain ⟨t2, s2⟩ := r2
  obtain ⟨t3, s3⟩ := r3
  obtain ⟨t4, s4⟩ := r4
  obtain ⟨t5, s5⟩ := r5
  cases t1 <;> cases t2 <;> cases t3 <;> cases t4 <;> cases t5 <;> simp

theorem setLastUpdate_tables (newDate : JVal → JDate) (jsonData : JVal) (mm : MappingManager) :
    (setLastUpdate newDate jsonData mm).state.clubNames = mm.clubNames ∧
    (setLastUpdate newDate jsonData mm).state.playerNames = mm.playerNames ∧
    (setLastUpdate newDate jsonData mm).state.leagueNames = mm.leagueNames ∧
    (setLastUpdate newDate jsonData mm).state.stadiumNames = mm.stadiumNames ∧
    (setLastUpdate newDate jsonData mm).state.cupNames = mm.cupNames := by
  unfold setLastUpdate
  cases h1 : getProp jsonData "meta" with
  | error e => simp
  | ok info =>
    simp only
    by_cases hi : truthy info = true
    · simp only [hi, if_true]
      cases h2 : getProp info "lastUpdate" with
      | error e => simp
      | ok stamp => by_cases hs : truthy stamp = true <;> simp [hs]
    · simp [hi]

/-- After a load that completed on a document with a truthy `PackData`, each loop completed
and each table is the one its loop built. -/
theorem loadMappingsTry_tables (newDate : JVal → JDate) (jsonData packData : JVal)
    (mm : MappingManager) (hPack : getProp jsonData "PackData" = .ok packData)
    (ht : truthy packData = true)
    (hdone : (loadMappingsTry newDate jsonData mm).thrown = none) :
    ((clubTable packData).thrown = none ∧ (playerTable packData).thrown = none ∧
      (leagueTable packData).thrown = none ∧ (stadiumTable packData).thrown = none ∧
      (cupTable packData).thrown = none) ∧
    (loadMappingsTry newDate jsonData mm).state.clubNames = (clubTable packData).state ∧
    (loadMappingsTry newDate jsonData mm).state.playerNames = (playerTable packData).state ∧
    (loadMappingsTry newDate jsonData mm).state.leagueNames = (leagueTable packData).state ∧
    (loadMappingsTry newDate jsonData mm).state.stadiumNames = (stadiumTable packData).state ∧
    (loadMappingsTry newDate jsonData mm).state.cupNames = (cupTable packData).state := by
  have hspec := loadPack_spec packData mm ht
  simp only [loadMappingsTry, hPack, ht, if_true] at hdone ⊢
  cases hr : (loadPack packData mm).thrown with
  | some e => rw [hr] at hdone; simp only at hdone; rw [hr] at hdone; cases hdone
  | none =>
    have hst := hspec.2 hr
    have hall := hspec.1.mp hr
    have hset := setLastUpdate_tables newDate jsonData (loadPack packData mm).state
    rw [hst] at hset
    rw [hst]
    exact ⟨hall, hset.1, hset.2.1, hset.2.2.1, hset.2.2.2.1, hset.2.2.2.2⟩

theorem truthy_str (s : String) : truthy (.str s) = true ↔ s ≠ "" := by
  have : s = "" ↔ s.data = [] := by
    constructor
    · intro h; rw [h]
    · intro h; cases s; simp_all
  simp [truthy, this]

theorem loadTable_arr (body : JVal → Effect) (field : String) (data : JVal) (xs : List JVal)
    (h : getProp data field = .ok (.arr xs)) :
    loadTable body field data = forOf body xs [] := by
  have ht : truthy data = true := by
    cases data <;> simp_all [getProp, truthy]
  simp only [loadTable, ht, h, if_true]
  simp [truthy, isArray, arrayElems]

theorem propOr_of_getProp {v w : JVal} {k : String} (h : getProp v k = .ok w) :
    propOr v k = w := by
  simp [propOr, h]

theorem truthy_of_getProp_arr {v : JVal} {k : String} {xs : List JVal}
    (h : getProp v k = .ok (.arr xs)) : truthy v = true := by
  cases v <;> simp_all [getProp, truthy]

theorem truthy_of_getProp_truthy {v w : JVal} {k : String} (h : getProp v k = .ok w)
    (hw : truthy w = true) : truthy v = true := by
  cases v with
  | obj kvs => rfl
  | arr xs => rfl
  | undefined => simp [getProp] at h
  | null => simp [getProp] at h
  | _ =>
    simp only [getProp, Except.ok.injEq] at h
    subst h
    simp [truthy] at hw

theorem parseInt_num (k : Int) : parseInt (.num k) = .ok (.num k) := by
  simp [parseInt, toChars, parseIntChars_intToChars]

theorem parseInt_decimal (k : Int) : parseInt (.str (String.mk (intToChars k))) = .ok (.num k) := by
  simp [parseInt, toChars, parseIntChars_intToChars]

theorem intToChars_ne_nil (k : Int) : intToChars k ≠ [] := by
  cases k with
  | ofNat m => exact (natDigits_spec m).1
  | negSucc m => simp [intToChars]

theorem clubRecord_stored (club id n key : JVal) (hId : getProp club "id" = .ok id)
    (hN : getProp club "n" = .ok n) (hid : truthy id = true) (hn : truthy n = true)
    (hkey : parseInt id = .ok key) : clubRecord club = .ok (some (key, n)) := by
  simp [clubRecord, hId, hN, hid, hn, hkey, bind, Except.bind, pure, Except.pure]

theorem getClubName_found (mm : MappingManager) (id key : JVal) (hkey : parseInt id = .ok key)
    (hfound : truthy (mm.clubNames.get key) = true) :
    getClubName mm id = .ok (mm.clubNames.get key) := by
  simp [getClubName, hkey, hfound, bind, Except.bind, pure, Except.pure]

/-! ## The claims -/

/-- C1. After the mappings are loaded from a document whose `PackData.ClubData.C` holds a record
with `id` the decimal text of a safe integer `k` (at most `2^53 - 1` in absolute value) and `n`
a non-empty text `name`, no later record of the list being stored under the key `k` (the
Numbers of the later records being safe integers), both `getClubName(k)` and `getClubName` on
the text of `k` return `name`. -/
theorem C1_club_name_after_load (newDate : JVal → JDate) (jsonData packData clubData club : JVal)
    (pre post : List JVal) (k : Int) (name : String) (mm : MappingManager)
    (hSafe : isSafeInteger k = true)
    (hPack : getProp jsonData "PackData" = .ok packData)
    (hClub : getProp packData "ClubData" = .ok clubData)
    (hList : getProp clubData "C" = .ok (.arr (pre ++ club :: post)))
    (hId : getProp club "id" = .ok (.str (String.mk (intToChars k))))
    (hName : getProp club "n" = .ok (.str name))
    (hNonEmpty : name ≠ "")
    (hLast : ∀ x ∈ post, ∀ v, clubRecord x ≠ .ok (some (.num k, v)))
    (hNumbers : ∀ x ∈ post, x.safeNumbers = true)
    (hLoaded : (loadMappingsTry newDate jsonData mm).thrown = none) :
    getClubName (loadMappingsTry newDate jsonData mm).state (.num k) = .ok (.str name) ∧
    getClubName (loadMappingsTry newDate jsonData mm).state (.str (String.mk (intToChars k)))
      = .ok (.str name) := by
  have htClub : truthy clubData = true := truthy_of_getProp_arr hList
  have htPack : truthy packData = true := truthy_of_getProp_truthy hClub htClub
  obtain ⟨⟨hdone, -⟩, hclubs, -⟩ :=
    loadMappingsTry_tables newDate jsonData packData mm hPack htPack hLoaded
  have htab : clubTable packData =
      forOf (fun x => Effect.ofExcept (clubRecord x)) (pre ++ club :: post) [] := by
    rw [clubTable, propOr_of_getProp hClub, loadTable_arr _ _ _ _ hList]
  have hname : truthy (.str name) = true := (truthy_str name).mpr hNonEmpty
  have hid : truthy (.str (String.mk (intToChars k))) = true := by
    simp [truthy, intToChars_ne_nil]
  have hrec : clubRecord club = .ok (some (.num k, .str name)) :=
    clubRecord_stored club _ _ _ hId hName hid hname (parseInt_decimal k)
  have hget : (loadMappingsTry newDate jsonData mm).state.clubNames.get (.num k) = .str name := by
    rw [hclubs, htab]
    rw [htab] at hdone
    refine forOf_get_last _ (.num k) (.str name) pre post club [] hdone ?_ ?_ ?_
    · simp [hrec, Effect.ofExcept]
    · simp [sameValueZero]
    · intro x hx e he
      cases hsv : sameValueZero e.1 (.num k) with
      | false => rfl
      | true =>
        exfalso
        have hk : e.1 = .num k := sameValueZero_eq hsv
        cases hx' : clubRecord x with
        | error err => simp [hx', Effect.ofExcept] at he
        | ok entry =>
          simp only [hx', Effect.ofExcept] at he
          obtain ⟨k0, v0⟩ := e
          simp only at hk
          subst hk
          exact hLast x hx v0 (by rw [hx', he])
  have hfound : truthy ((loadMappingsTry newDate jsonData mm).state.clubNames.get (.num k)) = true := by
    rw [hget]; exact hname
  constructor
  · rw [getClubName_found _ _ _ (parseInt_num k) hfound, hget]
  · rw [getClubName_found _ _ _ (parseInt_decimal k) hfound, hget]

/-- C1, the concrete scenario: from the pack with the single club "2180" / "FC Test",
`getClubName(2180)` and `getClubName("2180")` are "FC Test" and `getClubName(9999)` is
"Club #9999". -/
theorem C1_club_name_after_load_witness :
    (loadMappingsTry (fun _ => JDate.invalid) scenarioPack MappingManager.fresh).thrown = none ∧
    getClubName (loadMappingsTry (fun _ => JDate.invalid) scenarioPack MappingManager.fresh).state
      (.num 2180) = .ok (.str "FC Test") ∧
    getClubName (loadMappingsTry (fun _ => JDate.invalid) scenarioPack MappingManager.fresh).state
      (.str "2180") = .ok (.str "FC Test") ∧
    getClubName (loadMappingsTry (fun _ => JDate.invalid) scenarioPack MappingManager.fresh).state
      (.num 9999) = .ok (.str "Club #9999") :=
  have h := C1_club_name_after_load (fun _ => JDate.invalid) scenarioPack
    (.obj [("ClubData", .obj [("C", .arr [.obj [("id", .str "2180"), ("n", .str "FC Test")]])])])
    (.obj [("C", .arr [.obj [("id", .str "2180"), ("n", .str "FC Test")]])])
    (.obj [("id", .str "2180"), ("n", .str "FC Test")]) [] [] 2180 "FC Test"
    MappingManager.fresh (by decide) rfl rfl rfl rfl rfl (by decide) (by simp) (by simp) rfl
  ⟨rfl, h.1, h.2, rfl⟩

theorem toChars_primitive (id : JVal) (h : id.isPrimitive = true) :
    ∃ cs, toChars id = .ok cs := by
  cases id <;> simp_all [toChars, JVal.isPrimitive]

theorem get_of_not_has (m : JMap) (k : JVal) (h : m.has k = false) : m.get k = .undefined := by
  induction m with
  | nil => rfl
  | cons e rest ih =>
    obtain ⟨k0, v0⟩ := e
    simp only [JMap.has, Bool.or_eq_false_iff] at h
    simp [JMap.get, h.1, ih h.2]

theorem mk_append_data (a : String) (cs : List Char) :
    String.mk (a.data ++ cs) = a ++ String.mk cs := by
  cases a
  rfl

/-- The shape shared by the lookups: `found || fallback`, with a fallback that is a string. -/
theorem or_fallback_defined (found : JVal) (text : String) :
    (if truthy found = true then found else JVal.str text) ≠ .undefined := by
  by_cases h : truthy found = true
  · simp only [h, if_true]
    intro hu
    rw [hu] at h
    simp [truthy] at h
  · simp [h]

/-- C2. Fallback totality: for every state of the tables and every identifier (a primitive
value: a Number, `NaN`, a string, a boolean, `null` or `undefined`), `getClubName`,
`getPlayerName`, `getStadiumName` and `getCupName` return a value that is not `undefined`; and
when the id (parsed for clubs, players and stadiums, as it is for cups) is not a key of the
table the value is "Club #", "Joueur #", "Stade #" or "Coupe #" followed by the text of the id
as it was passed. -/
theorem C2_fallback_totality (mm : MappingManager) (id : JVal) (hid : id.isPrimitive = true) :
    ∃ key text, parseInt id = .ok key ∧ toStr id = .ok text ∧
      (∃ v, getClubName mm id = .ok v ∧ v ≠ .undefined) ∧
      (∃ v, getPlayerName mm id = .ok v ∧ v ≠ .undefined) ∧
      (∃ v, getStadiumName mm id = .ok v ∧ v ≠ .undefined) ∧
      (∃ v, getCupName mm id = .ok v ∧ v ≠ .undefined) ∧
      (mm.clubNames.has key = false → getClubName mm id = .ok (.str ("Club #" ++ text))) ∧
      (mm.playerNames.has key = false →
        getPlayerName mm id = .ok (.str ("Joueur #" ++ text))) ∧
      (mm.stadiumNames.has key = false →
        getStadiumName mm id = .ok (.str ("Stade #" ++ text))) ∧
      (mm.cupNames.has id = false → getCupName mm id = .ok (.str ("Coupe #" ++ text))) := by
  obtain ⟨cs, hcs⟩ := toChars_primitive id hid
  refine ⟨parseIntChars cs, String.mk cs, by simp [parseInt, hcs], by simp [toStr, hcs], ?_⟩
  have hclub : getClubName mm id = .ok (if truthy (mm.clubNames.get (parseIntChars cs)) = true
      then mm.clubNames.get (parseIntChars cs) else .str ("Club #" ++ String.mk cs)) := by
    rw [← mk_append_data]
    by_cases h : truthy (mm.clubNames.get (parseIntChars cs)) = true <;>
      simp [getClubName, parseInt, hcs, h, bind, Except.bind, pure, Except.pure]
  have hplayer : getPlayerName mm id = .ok (if truthy (mm.playerNames.get (parseIntChars cs)) = true
      then mm.playerNames.get (parseIntChars cs) else .str ("Joueur #" ++ String.mk cs)) := by
    rw [← mk_append_data]
    by_cases h : truthy (mm.playerNames.get (parseIntChars cs)) = true <;>
      simp [getPlayerName, parseInt, hcs, h, bind, Except.bind, pure, Except.pure]
  have hstadium : getStadiumName mm id = .ok
      (if truthy (mm.stadiumNames.get (parseIntChars cs)) = true
      then mm.stadiumNames.get (parseIntChars cs) else .str ("Stade #" ++ String.mk cs)) := by
    rw [← mk_append_data]
    by_cases h : truthy (mm.stadiumNames.get (parseIntChars cs)) = true <;>
      simp [getStadiumName, parseInt, hcs, h, bind, Except.bind, pure, Except.pure]
  have hcup : getCupName mm id = .ok (if truthy (mm.cupNames.get id) = true
      then mm.cupNames.get id else .str ("Coupe #" ++ String.mk cs)) := by
    rw [← mk_append_data]
    by_cases h : truthy (mm.cupNames.get id) = true <;>
      simp [getCupName, hcs, h, bind, Except.bind, pure, Except.pure]
  refine ⟨⟨_, hclub, or_fallback_defined _ _⟩, ⟨_, hplayer, or_fallback_defined _ _⟩,
    ⟨_, hstadium, or_fallback_defined _ _⟩, ⟨_, hcup, or_fallback_defined _ _⟩, ?_, ?_, ?_, ?_⟩
  · intro h; rw [hclub, get_of_not_has _ _ h]; simp [truthy]
  · intro h; rw [hplayer, get_of_not_has _ _ h]; simp [truthy]
  · intro h; rw [hstadium, get_of_not_has _ _ h]; simp [truthy]
  · intro h; rw [hcup, get_of_not_has _ _ h]; simp [truthy]

/-- C2 at the id `9999` on empty tables, where no table has the key. -/
theorem C2_fallback_totality_witness :
    (JVal.num 9999).isPrimitive = true ∧
    ∃ key text, parseInt (.num 9999) = .ok key ∧ toStr (.num 9999) = .ok text ∧
      (∃ v, getClubName MappingManager.fresh (.num 9999) = .ok v ∧ v ≠ .undefined) ∧
      (∃ v, getPlayerName MappingManager.fresh (.num 9999) = .ok v ∧ v ≠ .undefined) ∧
      (∃ v, getStadiumName MappingManager.fresh (.num 9999) = .ok v ∧ v ≠ .undefined) ∧
      (∃ v, getCupName MappingManager.fresh (.num 9999) = .ok v ∧ v ≠ .undefined) ∧
      (MappingManager.fresh.clubNames.has key = false →
        getClubName MappingManager.fresh (.num 9999) = .ok (.str ("Club #" ++ text))) ∧
      (MappingManager.fresh.playerNames.has key = false →
        getPlayerName MappingManager.fresh (.num 9999) = .ok (.str ("Joueur #" ++ text))) ∧
      (MappingManager.fresh.stadiumNames.has key = false →
        getStadiumName MappingManager.fresh (.num 9999) = .ok (.str ("Stade #" ++ text))) ∧
      (MappingManager.fresh.cupNames.has (.num 9999) = false →
        getCupName MappingManager.fresh (.num 9999) = .ok (.str ("Coupe #" ++ text))) :=
  ⟨rfl, C2_fallback_totality MappingManager.fresh (.num 9999) rfl⟩

theorem leagueKey_text (c : String) (ds : List Char) :
    String.mk (c.data ++ '_' :: ds) = c ++ "_" ++ String.mk ds := by
  apply String.ext
  simp [String.data_append]

theorem leagueFallback_text (c : String) (ds : List Char) :
    String.mk ("Ligue ".data ++ c.data ++ " D".data ++ ds) = "Ligue " ++ c ++ " D" ++ String.mk ds := by
  apply String.ext
  simp [String.data_append]

theorem getLeagueNameByCountryDivision_eq (mm : MappingManager) (c : String) (d : Int) :
    getLeagueNameByCountryDivision mm (.str c) (.num d) =
      .ok (if truthy (mm.leagueNames.get (.str (c ++ "_" ++ decimal (d + 1)))) = true
        then mm.leagueNames.get (.str (c ++ "_" ++ decimal (d + 1)))
        else .str ("Ligue " ++ c ++ " D" ++ decimal (d + 1))) := by
  unfold decimal
  rw [← leagueKey_text, ← leagueFallback_text]
  by_cases h : truthy (mm.leagueNames.get (.str (String.mk (c.data ++ '_' :: intToChars (d + 1)))))
      = true <;>
    simp [getLeagueNameByCountryDivision, toChars, addOne, h, bind, Except.bind, pure, Except.pure]

theorem leagueEffect_stored (league : JVal) (c name : String) (d : Int)
    (hC : getProp league "c" = .ok (.str c)) (hD : getProp league "d" = .ok (.num d))
    (hN : getProp league "n" = .ok (.str name)) (hc : c ≠ "") (hd : d ≠ 0) (hn : name ≠ "") :
    leagueEffect league = ⟨some (.str (c ++ "_" ++ decimal d), .str name), none⟩ := by
  have h1 : truthy (.str c) = true := (truthy_str c).mpr hc
  have h2 : truthy (.num d) = true := by simp [truthy, hd]
  have h3 : truthy (.str name) = true := (truthy_str name).mpr hn
  unfold decimal
  rw [← leagueKey_text]
  simp [leagueEffect, leagueRecord, hC, hD, hN, h1, h2, h3, toChars, bind, Except.bind, pure,
    Except.pure]

/-- C3. League key off by one, for a division index `d` such that `d` and `d + 1` are safe
integers: `getLeagueNameByCountryDivision(c, d)` reads the key `c_(d+1)` and returns the name
stored under it, or "Ligue c D(d+1)" when there is none; and after a load from a document whose
`LeagueData.L` holds a record with country `c`, division `d+1` and name `name` that no later
record overwrites (as `CHE`, 1, "Super League"; the Numbers of the later records being safe
integers), the lookup `(c, d)` returns `name`. For every two values, the lookup reads the key
made of the text of the first, `_` and the text of the second plus 1, and falls back to
"Ligue ", the first text, " D" and the second text. -/
theorem C3_league_key_off_by_one (mm : MappingManager) (c : String) (d : Int)
    (hSafe : isSafeInteger d = true) (hSafeNext : isSafeInteger (d + 1) = true) :
    getLeagueNameByCountryDivision mm (.str c) (.num d) =
      .ok (if truthy (mm.leagueNames.get (.str (c ++ "_" ++ decimal (d + 1)))) = true
        then mm.leagueNames.get (.str (c ++ "_" ++ decimal (d + 1)))
        else .str ("Ligue " ++ c ++ " D" ++ decimal (d + 1))) ∧
    (mm.leagueNames.has (.str (c ++ "_" ++ decimal (d + 1))) = false →
      getLeagueNameByCountryDivision mm (.str c) (.num d) =
        .ok (.str ("Ligue " ++ c ++ " D" ++ decimal (d + 1)))) ∧
    (∀ (newDate : JVal → JDate) (jsonData packData leagueData league : JVal)
      (pre post : List JVal) (name : String),
      getProp jsonData "PackData" = .ok packData →
      getProp packData "LeagueData" = .ok leagueData →
      getProp leagueData "L" = .ok (.arr (pre ++ league :: post)) →
      getProp league "c" = .ok (.str c) →
      getProp league "d" = .ok (.num (d + 1)) →
      getProp league "n" = .ok (.str name) →
      c ≠ "" → d + 1 ≠ 0 → name ≠ "" →
      (∀ x ∈ post, ∀ e, (leagueEffect x).entry = some e →
        e.1 ≠ .str (c ++ "_" ++ decimal (d + 1))) →
      (∀ x ∈ post, x.safeNumbers = true) →
      (loadMappingsTry newDate jsonData mm).thrown = none →
      getLeagueNameByCountryDivision (loadMappingsTry newDate jsonData mm).state (.str c) (.num d)
        = .ok (.str name)) ∧
    (∀ (countryCode division next : JVal) (cs ds : List Char),
      toChars countryCode = .ok cs → addOne division = .ok next → toChars next = .ok ds →
      getLeagueNameByCountryDivision mm countryCode division =
        .ok (if truthy (mm.leagueNames.get (.str (String.mk (cs ++ '_' :: ds)))) = true
          then mm.leagueNames.get (.str (String.mk (cs ++ '_' :: ds)))
          else .str (String.mk ("Ligue ".data ++ cs ++ " D".data ++ ds)))) := by
  refine ⟨getLeagueNameByCountryDivision_eq mm c d, ?_, ?_, ?_⟩
  rotate_left 2
  · intro countryCode division next cs ds hcs hnext hds
    by_cases h : truthy (mm.leagueNames.get (.str (String.mk (cs ++ '_' :: ds)))) = true <;>
      simp [getLeagueNameByCountryDivision, hcs, hnext, hds, h, bind, Except.bind, pure,
        Except.pure]
  · intro h
    rw [getLeagueNameByCountryDivision_eq, get_of_not_has _ _ h]
    simp [truthy]
  · intro newDate jsonData packData leagueData league pre post name hPack hLeague hList hC hD hN
      hc hd hn hLast _ hLoaded
    have htL : truthy leagueData = true := truthy_of_getProp_arr hList
    have htPack : truthy packData = true := truthy_of_getProp_truthy hLeague htL
    obtain ⟨⟨-, -, hdone, -⟩, -, -, hleagues, -⟩ :=
      loadMappingsTry_tables newDate jsonData packData mm hPack htPack hLoaded
    have htab : leagueTable packData = forOf leagueEffect (pre ++ league :: post) [] := by
      rw [leagueTable, propOr_of_getProp hLeague, loadTable_arr _ _ _ _ hList]
    have heff := leagueEffect_stored league c name (d + 1) hC hD hN hc hd hn
    have hget : (loadMappingsTry newDate jsonData mm).state.leagueNames.get
        (.str (c ++ "_" ++ decimal (d + 1))) = .str name := by
      rw [hleagues, htab]
      rw [htab] at hdone
      refine forOf_get_last _ _ _ pre post league [] hdone (by rw [heff]) (by simp [sameValueZero])
        ?_
      intro x hx e he
      cases hsv : sameValueZero e.1 (.str (c ++ "_" ++ decimal (d + 1))) with
      | false => rfl
      | true => exact absurd (sameValueZero_eq hsv) (hLast x hx e he)
    rw [getLeagueNameByCountryDivision_eq, hget]
    simp [(truthy_str name).mpr hn]

/-- C3 on the pack with the league `CHE`, division 1: the lookup `("CHE", 0)` reads the key
`CHE_1` and returns "Super League". -/
theorem C3_league_key_off_by_one_witness :
    (loadMappingsTry (fun _ => JDate.invalid) leaguePack MappingManager.fresh).thrown = none ∧
    getLeagueNameByCountryDivision
      (loadMappingsTry (fun _ => JDate.invalid) leaguePack MappingManager.fresh).state
      (.str "CHE") (.num 0) = .ok (.str "Super League") :=
  ⟨rfl, (C3_league_key_off_by_one MappingManager.fresh "CHE" 0 (by decide) (by decide)).2.2.1
    (fun _ => JDate.invalid)
    leaguePack
    (.obj [("LeagueData", .obj [("L", .arr [.obj [("c", .str "CHE"), ("d", .num 1),
      ("n", .str "Super League")]])])])
    (.obj [("L", .arr [.obj [("c", .str "CHE"), ("d", .num 1), ("n", .str "Super League")]])])
    (.obj [("c", .str "CHE"), ("d", .num 1), ("n", .str "Super League")]) [] [] "Super League"
    rfl rfl rfl rfl rfl rfl (by decide) (by decide) (by decide) (by simp) (by simp) rfl⟩

theorem has_set (m : JMap) (k k' v : JVal) :
    (m.set k v).has k' = (sameValueZero k k' || m.has k') := by
  induction m with
  | nil => simp [JMap.set, JMap.has]
  | cons e rest ih =>
    obtain ⟨k0, v0⟩ := e
    by_cases h : sameValueZero k0 k = true
    · have h0 : k0 = k := sameValueZero_eq h
      subst h0
      simp [JMap.set, JMap.has, h]
    · simp only [JMap.set, h, JMap.has, ih, Bool.false_eq_true, if_false]
      cases sameValueZero k0 k' <;> cases sameValueZero k k' <;> simp

theorem has_apply_mono (e : Effect) (m : JMap) (k : JVal) (h : m.has k = true) :
    (e.apply m).has k = true := by
  unfold Effect.apply
  cases he : e.entry with
  | none => exact h
  | some kv => obtain ⟨k0, v0⟩ := kv; simp [has_set, h]

theorem forOf_has_mono (body : JVal → Effect) (k : JVal) (xs : List JVal) (m : JMap)
    (h : m.has k = true) : (forOf body xs m).state.has k = true := by
  induction xs generalizing m with
  | nil => simpa [forOf] using h
  | cons x rest ih =>
    rw [forOf_cons]
    cases ht : (body x).thrown with
    | some e => simpa using has_apply_mono _ _ _ h
    | none => simpa using ih _ (has_apply_mono _ _ _ h)

/-- A loop that completes has a key for every `set` one of its iterations made. -/
theorem forOf_has_last (body : JVal → Effect) (k v : JVal) (pre post : List JVal) (r : JVal)
    (m : JMap) (hdone : (forOf body (pre ++ r :: post) m).thrown = none)
    (hr : (body r).entry = some (k, v)) (hk : sameValueZero k k = true) :
    (forOf body (pre ++ r :: post) m).state.has k = true := by
  rw [forOf_append] at hdone ⊢
  cases hpre : (forOf body pre m).thrown with
  | some e => rw [hpre] at hdone; simp only at hdone; rw [hpre] at hdone; cases hdone
  | none =>
    rw [hpre] at hdone
    simp only at hdone ⊢
    rw [forOf_cons] at hdone ⊢
    cases ht : (body r).thrown with
    | some e => rw [ht] at hdone; cases hdone
    | none =>
      simp only
      apply forOf_has_mono
      simp [Effect.apply, hr, has_set, hk]

/-- C4, as stated, fails: a record with country `CHE`, division index 0 and a name is dropped
by `loadLeagues`, which completes with an empty league table. -/
theorem C4_division_zero_dropped :
    (loadLeagues divisionZeroData MappingManager.fresh).thrown = none ∧
    (loadLeagues divisionZeroData MappingManager.fresh).state.leagueNames = [] ∧
    (loadLeagues divisionZeroData MappingManager.fresh).state.leagueNames.has (.str "CHE_0")
      = false :=
  ⟨rfl, rfl, rfl⟩

/-- A record whose `c`, `d` or `n` is missing or falsy is skipped by the loop of `loadLeagues`:
nothing is stored and nothing is thrown. -/
theorem leagueEffect_skipped (r cv dv nv : JVal) (hC : getProp r "c" = .ok cv)
    (hD : getProp r "d" = .ok dv) (hN : getProp r "n" = .ok nv)
    (h : truthy cv = false ∨ truthy dv = false ∨ truthy nv = false) :
    leagueEffect r = ⟨none, none⟩ := by
  have hrec : leagueRecord r = .ok none := by
    unfold leagueRecord
    by_cases h1 : truthy cv = true
    · by_cases h2 : truthy dv = true
      · have h3 : truthy nv = false := by
          rcases h with h | h | h
          · rw [h1] at h; cases h
          · rw [h2] at h; cases h
          · exact h
        simp [hC, hD, hN, h1, h2, h3, bind, Except.bind, pure, Except.pure]
      · simp [hC, hD, h1, h2, bind, Except.bind, pure, Except.pure]
    · simp [hC, h1, bind, Except.bind, pure, Except.pure]
  simp only [leagueEffect, hrec]

/-- C4, amended. A league record with a non-empty country code `c`, a non-empty name and a
division index `d >= 1` (a safe integer, at most `2^53 - 1`) is kept by `loadLeagues`: when the
load completes the table has the key `c_d`, and holds the record's name under it unless a later
record of the list has the same key (the Numbers of the later records being safe integers). A
record whose `c`, `d` or `n` is missing or falsy is
skipped, nothing being stored or thrown, and the division index 0 is such a `d`. -/
theorem C4_league_record_kept (leagueData league : JVal) (pre post : List JVal)
    (c name : String) (d : Int) (mm : MappingManager)
    (hList : getProp leagueData "L" = .ok (.arr (pre ++ league :: post)))
    (hC : getProp league "c" = .ok (.str c)) (hD : getProp league "d" = .ok (.num d))
    (hN : getProp league "n" = .ok (.str name))
    (hc : c ≠ "") (hd : 1 ≤ d) (hSafe : isSafeInteger d = true) (hn : name ≠ "")
    (hdone : (loadLeagues leagueData mm).thrown = none) :
    (loadLeagues leagueData mm).state.leagueNames.has (.str (c ++ "_" ++ decimal d)) = true ∧
    ((∀ x ∈ post, ∀ e, (leagueEffect x).entry = some e → e.1 ≠ .str (c ++ "_" ++ decimal d)) →
      (∀ x ∈ post, x.safeNumbers = true) →
      (loadLeagues leagueData mm).state.leagueNames.get (.str (c ++ "_" ++ decimal d))
        = .str name) ∧
    (∀ r cv dv nv : JVal, getProp r "c" = .ok cv → getProp r "d" = .ok dv →
      getProp r "n" = .ok nv →
      (truthy cv = false ∨ truthy dv = false ∨ truthy nv = false) →
      leagueEffect r = ⟨none, none⟩) ∧
    truthy (.num 0) = false ∧ truthy .undefined = false ∧ truthy (.str "") = false := by
  have heff := leagueEffect_stored league c name d hC hD hN hc (by omega) hn
  simp only [loadLeagues, loadTable_arr _ _ _ _ hList] at hdone ⊢
  refine ⟨forOf_has_last _ _ _ pre post league [] hdone (by rw [heff]) (by simp [sameValueZero]),
    ?_, leagueEffect_skipped, rfl, rfl, rfl⟩
  intro hLast _
  refine forOf_get_last _ _ _ pre post league [] hdone (by rw [heff]) (by simp [sameValueZero]) ?_
  intro x hx e he
  cases hsv : sameValueZero e.1 (.str (c ++ "_" ++ decimal d)) with
  | false => rfl
  | true => exact absurd (sameValueZero_eq hsv) (hLast x hx e he)

/-- C4, amended, on the record `CHE`, division 1, "Super League", which is kept, and on the
records `CHE`, division 0, "Challenge League" and `CHE`, division 2 without a name, which are
skipped. -/
theorem C4_league_record_kept_witness :
    (loadLeagues (.obj [("L", .arr [.obj [("c", .str "CHE"), ("d", .num 1),
      ("n", .str "Super League")]])]) MappingManager.fresh).state.leagueNames.has
        (.str "CHE_1") = true ∧
    (loadLeagues (.obj [("L", .arr [.obj [("c", .str "CHE"), ("d", .num 1),
      ("n", .str "Super League")]])]) MappingManager.fresh).state.leagueNames.get
        (.str "CHE_1") = .str "Super League" ∧
    leagueEffect (.obj [("c", .str "CHE"), ("d", .num 0), ("n", .str "Challenge League")])
      = ⟨none, none⟩ ∧
    leagueEffect (.obj [("c", .str "CHE"), ("d", .num 2)]) = ⟨none, none⟩ :=
  have h := C4_league_record_kept
    (.obj [("L", .arr [.obj [("c", .str "CHE"), ("d", .num 1), ("n", .str "Super League")]])])
    (.obj [("c", .str "CHE"), ("d", .num 1), ("n", .str "Super League")]) [] []
    "CHE" "Super League" 1 MappingManager.fresh rfl rfl rfl rfl (by decide) (by decide)
    (by decide) (by decide) rfl
  ⟨h.1, h.2.1 (by simp) (by simp),
    h.2.2.1 (.obj [("c", .str "CHE"), ("d", .num 0), ("n", .str "Challenge League")])
      (.str "CHE") (.num 0) (.str "Challenge League") rfl rfl rfl (Or.inr (Or.inl rfl)),
    h.2.2.1 (.obj [("c", .str "CHE"), ("d", .num 2)])
      (.str "CHE") (.num 2) .undefined rfl rfl rfl (Or.inr (Or.inr rfl))⟩

/-- The loop of `searchClubs`, started below the limit on a table of string names, appends the
matching entries up to the limit. -/
theorem searchLoop_eq (toLowerCase : String → String) (searchLower : String) (limit : Nat)
    (table : JMap) (hnames : ∀ e ∈ table, ∃ name, e.2 = JVal.str name) :
    ∀ results : List (JVal × String), results.length < limit →
      searchLoop toLowerCase searchLower (limit : Int) table results =
        .ok (results ++ (matchingClubs toLowerCase searchLower table).take
          (limit - results.length)) := by
  induction table with
  | nil => intro results _; simp [searchLoop, matchingClubs]
  | cons e rest ih =>
    intro results hlt
    obtain ⟨clubId, clubName⟩ := e
    obtain ⟨name, hname⟩ := hnames (clubId, clubName) (by simp)
    simp only at hname
    subst hname
    have hrest : ∀ e ∈ rest, ∃ name, e.2 = JVal.str name := fun e he => hnames e (by simp [he])
    by_cases hm : includes (toLowerCase name).data searchLower.data = true
    · have hmc : matchingClubs toLowerCase searchLower ((clubId, .str name) :: rest) =
          (clubId, name) :: matchingClubs toLowerCase searchLower rest := by
        simp [matchingClubs, hm]
      have htake : limit - results.length = (limit - results.length - 1) + 1 := by omega
      rw [hmc, htake, List.take_succ_cons]
      by_cases hfull : ((results ++ [(clubId, name)]).length : Int) ≥ (limit : Int)
      · have hz : limit - results.length - 1 = 0 := by
          simp only [List.length_append, List.length_singleton] at hfull
          omega
        simp only [searchLoop, hm, hfull, if_true, hz, List.take_zero]
      · simp only [searchLoop, hm, hfull, if_true, if_false]
        have hlt' : (results ++ [(clubId, name)]).length < limit := by
          simp only [List.length_append, List.length_singleton] at hfull ⊢
          omega
        rw [ih hrest _ hlt']
        simp only [List.length_append, List.length_singleton, List.append_assoc,
          List.singleton_append]
        rw [Nat.sub_add_eq]
    · have hmc : matchingClubs toLowerCase searchLower ((clubId, .str name) :: rest) =
          matchingClubs toLowerCase searchLower rest := by
        simp [matchingClubs, hm]
      simp only [searchLoop, hm, hmc]
      exact ih hrest results hlt

/-- C5. For every club table (of names that are strings), every search term and every limit
of at least 1, `searchClubs(term, limit)` is the first `limit` entries, in table order, of the
clubs whose lower-cased name contains the lower-cased term: the streaming search with early
exit equals the full scan followed by truncation. -/
theorem C5_search_is_scan_then_take (toLowerCase : String → String) (mm : MappingManager)
    (term : String) (limit : Nat)
    (hnames : ∀ e ∈ mm.clubNames, ∃ name, e.2 = JVal.str name) (hlimit : 1 ≤ limit) :
    searchClubs toLowerCase mm (.str term) (some (limit : Int)) =
      .ok (searchClubsFullScan toLowerCase mm term limit) := by
  have h := searchLoop_eq toLowerCase (toLowerCase term) limit mm.clubNames hnames []
    (by simpa using hlimit)
  simpa [searchClubs, searchClubsFullScan] using h

/-- C5 on a table of 50 clubs whose names all contain "united": `searchClubs("united", 10)`
returns the first 10 of them, in table order. -/
theorem C5_search_is_scan_then_take_witness :
    searchClubs asciiLower unitedManager (.str "united") (some 10) =
      .ok ((List.range 10).map (fun i => (JVal.num i, "United " ++ decimal i))) :=
  (C5_search_is_scan_then_take asciiLower unitedManager "united" 10
    (by
      intro e he
      simp only [unitedManager, unitedClubs, List.mem_map] at he
      obtain ⟨i, _, rfl⟩ := he
      exact ⟨_, rfl⟩)
    (by decide)).trans rfl

/-- C6, the failing input: with the limit 0 `searchClubs` returns one result, the first
match, because the cap is tested only after a result has been pushed. -/
theorem C6_limit_zero_returns_one :
    searchClubs asciiLower unitedManager (.str "united") (some 0) =
      .ok [(JVal.num 0, "United 0")] :=
  rfl

/-- With a limit of at least 1 the loop of `searchClubs` never returns more than `limit`
results. -/
theorem searchLoop_length_le (toLowerCase : String → String) (searchLower : String) (limit : Nat)
    (table : JMap) : ∀ results out : List (JVal × String), results.length < limit →
      searchLoop toLowerCase searchLower (limit : Int) table results = .ok out →
      out.length ≤ limit := by
  induction table with
  | nil =>
    intro results out hlt h
    simp only [searchLoop, Except.ok.injEq] at h
    subst h
    omega
  | cons e rest ih =>
    intro results out hlt h
    obtain ⟨clubId, clubName⟩ := e
    cases clubName with
    | str name =>
      by_cases hm : includes (toLowerCase name).data searchLower.data = true
      · by_cases hfull : ((results ++ [(clubId, name)]).length : Int) ≥ (limit : Int)
        · simp only [searchLoop, hm, hfull, if_true, Except.ok.injEq] at h
          subst h
          simp only [List.length_append, List.length_singleton]
          omega
        · simp only [searchLoop, hm, hfull, if_true, if_false] at h
          refine ih _ out ?_ h
          simp only [List.length_append, List.length_singleton] at hfull ⊢
          omega
      · simp only [searchLoop, hm] at h
        exact ih results out hlt h
    | _ => simp [searchLoop] at h

theorem searchClubs_length_le (toLowerCase : String → String) (mm : MappingManager)
    (searchTerm : JVal) (limit : Nat) (out : List (JVal × String)) (hlimit : 1 ≤ limit)
    (h : searchClubs toLowerCase mm searchTerm (some (limit : Int)) = .ok out) :
    out.length ≤ limit := by
  cases searchTerm with
  | str term =>
    exact searchLoop_length_le toLowerCase (toLowerCase term) limit mm.clubNames [] out
      (by simpa using hlimit) (by simpa [searchClubs] using h)
  | _ => simp [searchClubs] at h

theorem getProp_ok_truthy_obj {v w : JVal} {k : String} (h : getProp v k = .ok w)
    (hw : truthy w = true) : ∃ kvs, v = .obj kvs := by
  cases v with
  | obj kvs => exact ⟨kvs, rfl⟩
  | undefined => simp [getProp] at h
  | null => simp [getProp] at h
  | _ =>
    simp only [getProp, Except.ok.injEq] at h
    subst h
    simp [truthy] at hw

theorem setLastUpdate_thrown (newDate : JVal → JDate) (kvs : List (String × JVal))
    (mm : MappingManager) : (setLastUpdate newDate (.obj kvs) mm).thrown = none := by
  unfold setLastUpdate
  have hm : getProp (.obj kvs) "meta" = .ok ((lookupProp "meta" kvs).getD .undefined) := rfl
  rw [hm]
  simp only
  by_cases hi : truthy ((lookupProp "meta" kvs).getD .undefined) = true
  · simp only [hi, if_true]
    rw [getProp_truthy _ _ hi]
    simp only
    split <;> rfl
  · simp [hi]

theorem loop_eq_tables (packData : JVal) :
    Entity.club.loop packData = clubTable packData ∧
    Entity.player.loop packData = playerTable packData ∧
    Entity.league.loop packData = leagueTable packData ∧
    Entity.stadium.loop packData = stadiumTable packData ∧
    Entity.cup.loop packData = cupTable packData :=
  ⟨rfl, rfl, rfl, rfl, rfl⟩

/-- A load on a document with a truthy `PackData` completes exactly when the five loops do,
and then the table of every entity is the one its loop built. -/
theorem loadMappingsTry_spec (newDate : JVal → JDate) (jsonData packData : JVal)
    (mm : MappingManager) (hPack : getProp jsonData "PackData" = .ok packData)
    (ht : truthy packData = true) :
    ((loadMappingsTry newDate jsonData mm).thrown = none ↔
      ∀ e : Entity, (e.loop packData).thrown = none) ∧
    ((loadMappingsTry newDate jsonData mm).thrown = none →
      ∀ e : Entity, e.table (loadMappingsTry newDate jsonData mm).state = (e.loop packData).state)
    := by
  have htab := loadMappingsTry_tables newDate jsonData packData mm hPack ht
  refine ⟨⟨?_, ?_⟩, ?_⟩
  · intro hdone e
    obtain ⟨⟨h1, h2, h3, h4, h5⟩, -⟩ := htab hdone
    cases e <;> assumption
  · intro hall
    obtain ⟨kvs, hobj⟩ := getProp_ok_truthy_obj hPack ht
    have hspec := loadPack_spec packData mm ht
    have hr : (loadPack packData mm).thrown = none :=
      hspec.1.mpr ⟨hall .club, hall .player, hall .league, hall .stadium, hall .cup⟩
    simp only [loadMappingsTry, hPack, ht, if_true, hr]
    rw [hobj]
    exact setLastUpdate_thrown newDate kvs _
  · intro hdone e
    obtain ⟨-, h1, h2, h3, h4, h5⟩ := htab hdone
    cases e <;> assumption

/-- C7. A rebuild replaces the five tables wholesale: on a document that has `PackData`,
whether the load completes does not depend on the tables held before, and when it completes
each of the five tables is the one built from the document alone, the same from any two prior
states. -/
theorem C7_rebuild_replaces_tables (newDate : JVal → JDate) (jsonData packData : JVal)
    (mm1 mm2 : MappingManager) (hPack : getProp jsonData "PackData" = .ok packData)
    (ht : truthy packData = true) :
    ((loadMappingsTry newDate jsonData mm1).thrown = none ↔
      (loadMappingsTry newDate jsonData mm2).thrown = none) ∧
    ((loadMappingsTry newDate jsonData mm1).thrown = none →
      (loadMappingsTry newDate jsonData mm1).state.clubNames
        = (loadMappingsTry newDate jsonData mm2).state.clubNames ∧
      (loadMappingsTry newDate jsonData mm1).state.playerNames
        = (loadMappingsTry newDate jsonData mm2).state.playerNames ∧
      (loadMappingsTry newDate jsonData mm1).state.leagueNames
        = (loadMappingsTry newDate jsonData mm2).state.leagueNames ∧
      (loadMappingsTry newDate jsonData mm1).state.stadiumNames
        = (loadMappingsTry newDate jsonData mm2).state.stadiumNames ∧
      (loadMappingsTry newDate jsonData mm1).state.cupNames
        = (loadMappingsTry newDate jsonData mm2).state.cupNames ∧
      ∀ e : Entity, e.table (loadMappingsTry newDate jsonData mm1).state
        = (e.loop packData).state) := by
  have h1 := loadMappingsTry_spec newDate jsonData packData mm1 hPack ht
  have h2 := loadMappingsTry_spec newDate jsonData packData mm2 hPack ht
  refine ⟨h1.1.trans h2.1.symm, ?_⟩
  intro hdone
  have hdone2 := h2.1.mpr (h1.1.mp hdone)
  have e1 := h1.2 hdone
  have e2 := h2.2 hdone2
  refine ⟨?_, ?_, ?_, ?_, ?_, e1⟩
  · exact (e1 .club).trans (e2 .club).symm
  · exact (e1 .player).trans (e2 .player).symm
  · exact (e1 .league).trans (e2 .league).symm
  · exact (e1 .stadium).trans (e2 .stadium).symm
  · exact (e1 .cup).trans (e2 .cup).symm

/-- C7 on the concrete scenario: loaded over the stale manager or over empty tables, the pack
gives the same five tables, the club table holding "FC Test" alone and the others nothing. -/
theorem C7_rebuild_replaces_tables_witness :
    (loadMappingsTry (fun _ => JDate.invalid) scenarioPack staleManager).thrown = none ∧
    (loadMappingsTry (fun _ => JDate.invalid) scenarioPack staleManager).state.clubNames
      = [(.num 2180, .str "FC Test")] ∧
    (loadMappingsTry (fun _ => JDate.invalid) scenarioPack staleManager).state.playerNames = [] ∧
    (loadMappingsTry (fun _ => JDate.invalid) scenarioPack staleManager).state.leagueNames = [] ∧
    (loadMappingsTry (fun _ => JDate.invalid) scenarioPack staleManager).state.stadiumNames = [] ∧
    (loadMappingsTry (fun _ => JDate.invalid) scenarioPack staleManager).state.cupNames = [] :=
  have h := (C7_rebuild_replaces_tables (fun _ => JDate.invalid) scenarioPack
    (.obj [("ClubData", .obj [("C", .arr [.obj [("id", .str "2180"), ("n", .str "FC Test")]])])])
    staleManager MappingManager.fresh rfl rfl).2 rfl
  ⟨rfl, h.1.trans rfl, h.2.1.trans rfl, h.2.2.1.trans rfl, h.2.2.2.1.trans rfl,
    h.2.2.2.2.1.trans rfl⟩

theorem isArray_truthy {v : JVal} (h : isArray v = true) : truthy v = true := by
  cases v <;> simp_all [isArray, truthy]

/-- A sub-table that is absent, or whose list is missing or not an array, makes the loader loop
complete at once with an empty table. -/
theorem loadTable_degenerate (body : JVal → Effect) (field : String) (data : JVal)
    (h : truthy data = false ∨ isArray (propOr data field) = false) :
    loadTable body field data = ⟨none, []⟩ := by
  by_cases ht : truthy data = true
  · have ha : isArray (propOr data field) = false := by
      rcases h with h | h
      · rw [ht] at h; cases h
      · exact h
    simp [loadTable, ht, getProp_truthy _ _ ht, ha]
  · simp [loadTable, ht]

theorem loader_eq (e : Entity) (sub : JVal) (mm : MappingManager) :
    (e.loader sub mm).thrown = (loadTable e.body e.listField sub).thrown ∧
    e.table (e.loader sub mm).state = (loadTable e.body e.listField sub).state := by
  cases e <;> exact ⟨rfl, rfl⟩

/-- C8. Partial degradation: when the sub-table of one entity is absent (falsy), or its list
field is missing or not an array, the loader of that entity raises no error and leaves its
table empty; and the rebuild of such a pack completes whenever the rebuild of a pack that
differs from it in that sub-table only completes, with that table empty and the four other
tables the same as from the other pack. With the league table empty every league lookup
returns its fallback, "Ligue " + c + " D" + (d + 1) with the texts JavaScript gives to `c` and
to `d + 1`; for a text `c` and safe integers `d` and `d + 1` that is "Ligue c D" followed by
the digits of `d + 1`. -/
theorem C8_partial_degradation (e : Entity) (newDate : JVal → JDate)
    (jsonData jsonData' packData packData' : JVal) (mm : MappingManager)
    (hPack : getProp jsonData "PackData" = .ok packData) (ht : truthy packData = true)
    (hPack' : getProp jsonData' "PackData" = .ok packData') (ht' : truthy packData' = true)
    (hdeg : truthy (propOr packData e.subTable) = false ∨
      isArray (propOr (propOr packData e.subTable) e.listField) = false)
    (hsame : ∀ e' : Entity, e' ≠ e → propOr packData' e'.subTable = propOr packData e'.subTable)
    (hdone' : (loadMappingsTry newDate jsonData' mm).thrown = none) :
    (∀ m : MappingManager, (e.loader (propOr packData e.subTable) m).thrown = none ∧
      e.table (e.loader (propOr packData e.subTable) m).state = []) ∧
    (loadMappingsTry newDate jsonData mm).thrown = none ∧
    e.table (loadMappingsTry newDate jsonData mm).state = [] ∧
    (∀ e' : Entity, e' ≠ e →
      e'.table (loadMappingsTry newDate jsonData mm).state
        = e'.table (loadMappingsTry newDate jsonData' mm).state) ∧
    (e = .league → ∀ (c d next : JVal) (cs ds : List Char),
      toChars c = .ok cs → addOne d = .ok next → toChars next = .ok ds →
      getLeagueNameByCountryDivision (loadMappingsTry newDate jsonData mm).state c d
        = .ok (.str (String.mk ("Ligue ".data ++ cs ++ " D".data ++ ds)))) ∧
    (e = .league → ∀ (c : String) (d : Int),
      isSafeInteger d = true → isSafeInteger (d + 1) = true →
      getLeagueNameByCountryDivision (loadMappingsTry newDate jsonData mm).state (.str c) (.num d)
        = .ok (.str ("Ligue " ++ c ++ " D" ++ decimal (d + 1)))) := by
  have hloop : e.loop packData = ⟨none, []⟩ := loadTable_degenerate _ _ _ hdeg
  have hother : ∀ e' : Entity, e' ≠ e → e'.loop packData = e'.loop packData' := by
    intro e' hne
    simp only [Entity.loop, hsame e' hne]
  have h := loadMappingsTry_spec newDate jsonData packData mm hPack ht
  have h' := loadMappingsTry_spec newDate jsonData' packData' mm hPack' ht'
  have hall' := h'.1.mp hdone'
  have hdone : (loadMappingsTry newDate jsonData mm).thrown = none := by
    apply h.1.mpr
    intro e'
    by_cases hne : e' = e
    · rw [hne, hloop]
    · rw [hother e' hne]; exact hall' e'
  have hempty : e.table (loadMappingsTry newDate jsonData mm).state = [] := by
    rw [h.2 hdone e, hloop]
  refine ⟨?_, hdone, hempty, ?_, ?_, ?_⟩
  · intro m
    have hl := loader_eq e (propOr packData e.subTable) m
    rw [hl.1, hl.2, loadTable_degenerate _ _ _ hdeg]
    exact ⟨rfl, rfl⟩
  · intro e' hne
    rw [h.2 hdone e', h'.2 hdone' e', hother e' hne]
  · intro hl c d next cs ds hc hd hds
    subst hl
    simp only [Entity.table] at hempty
    simp [getLeagueNameByCountryDivision, hc, hd, hds, hempty, JMap.get, truthy, bind,
      Except.bind, pure, Except.pure]
  · intro hl c d _ _
    subst hl
    simp only [Entity.table] at hempty
    rw [getLeagueNameByCountryDivision_eq, hempty]
    simp [JMap.get, truthy]

/-- C8 on the concrete scenario, where `ClubData` has a valid record and `LeagueData` is
absent: the load completes, the club table is not empty, the league table is empty and a league
lookup returns its fallback. -/
theorem C8_partial_degradation_witness :
    (loadMappingsTry (fun _ => JDate.invalid) scenarioPack MappingManager.fresh).thrown = none ∧
    (loadMappingsTry (fun _ => JDate.invalid) scenarioPack MappingManager.fresh).state.leagueNames
      = [] ∧
    (loadMappingsTry (fun _ => JDate.invalid) scenarioPack MappingManager.fresh).state.clubNames
      = [(.num 2180, .str "FC Test")] ∧
    getLeagueNameByCountryDivision
      (loadMappingsTry (fun _ => JDate.invalid) scenarioPack MappingManager.fresh).state
      (.str "CHE") (.num 0) = .ok (.str "Ligue CHE D1") :=
  have h := C8_partial_degradation .league (fun _ => JDate.invalid) scenarioPack
    scenarioWithLeagues
    (.obj [("ClubData", .obj [("C", .arr [.obj [("id", .str "2180"), ("n", .str "FC Test")]])])])
    (.obj [("ClubData", .obj [("C", .arr [.obj [("id", .str "2180"), ("n", .str "FC Test")]])]),
      ("LeagueData", .obj [("L", .arr [.obj [("c", .str "CHE"), ("d", .num 1),
        ("n", .str "Super League")]])])])
    MappingManager.fresh rfl rfl rfl rfl (Or.inl rfl)
    (by intro e' hne; cases e' <;> first | rfl | exact absurd rfl hne) rfl
  ⟨h.2.1, h.2.2.1, (h.2.2.2.1 .club (by decide)).trans rfl,
    h.2.2.2.2.2 rfl "CHE" 0 (by decide) (by decide)⟩

/-- C9, the failing input: on a list that holds a `null` record each of the five loaders
raises a `TypeError` (reading a property of `null`) instead of skipping it, and the well-formed
record that follows is not loaded. -/
theorem C9_null_record_throws :
    ((loadClubs (nullRecordData "C") MappingManager.fresh).thrown ≠ none ∧
      (loadClubs (nullRecordData "C") MappingManager.fresh).state.clubNames = []) ∧
    ((loadPlayers (nullRecordData "P") MappingManager.fresh).thrown ≠ none ∧
      (loadPlayers (nullRecordData "P") MappingManager.fresh).state.playerNames = []) ∧
    ((loadLeagues (nullRecordData "L") MappingManager.fresh).thrown ≠ none ∧
      (loadLeagues (nullRecordData "L") MappingManager.fresh).state.leagueNames = []) ∧
    ((loadStadiums (nullRecordData "S") MappingManager.fresh).thrown ≠ none ∧
      (loadStadiums (nullRecordData "S") MappingManager.fresh).state.stadiumNames = []) ∧
    ((loadCups (nullRecordData "C") MappingManager.fresh).thrown ≠ none ∧
      (loadCups (nullRecordData "C") MappingManager.fresh).state.cupNames = []) :=
  ⟨⟨by decide, rfl⟩, ⟨by decide, rfl⟩, ⟨by decide, rfl⟩, ⟨by decide, rfl⟩, ⟨by decide, rfl⟩⟩

/-- A record that is a number, a string or a boolean has no `id` and no `c`: every loader
skips it without an error. -/
theorem body_skips_scalar (e : Entity) (r : JVal) (hr : r.isPrimitive = true)
    (hnull : r ≠ .null) (hundef : r ≠ .undefined) :
    (e.body r).entry = none ∧ (e.body r).thrown = none := by
  cases e <;> cases r <;> first
    | exact absurd rfl hnull
    | exact absurd rfl hundef
    | exact ⟨rfl, rfl⟩
    | (simp [JVal.isPrimitive] at hr)

theorem get_set (m : JMap) (k k' v : JVal) :
    (m.set k v).get k' = if sameValueZero k k' = true then v else m.get k' := by
  by_cases h : sameValueZero k k' = true
  · have hk : k = k' := sameValueZero_eq h
    subst hk
    simp [h, get_set_self m k v h]
  · simp only [h, if_false]
    exact get_set_other m k k' v (by simpa using h)

/-- Two tables that agree under every key but `NaN` still do after the same loop, and the loop
throws the same. -/
theorem forOf_agree (body : JVal → Effect) (xs : List JVal) (m1 m2 : JMap)
    (h : ∀ key, sameValueZero .nan key = false → m1.get key = m2.get key) :
    (forOf body xs m1).thrown = (forOf body xs m2).thrown ∧
    ∀ key, sameValueZero .nan key = false →
      (forOf body xs m1).state.get key = (forOf body xs m2).state.get key := by
  induction xs generalizing m1 m2 with
  | nil => exact ⟨rfl, h⟩
  | cons x rest ih =>
    have happ : ∀ key, sameValueZero .nan key = false →
        ((body x).apply m1).get key = ((body x).apply m2).get key := by
      intro key hkey
      unfold Effect.apply
      cases he : (body x).entry with
      | none => exact h key hkey
      | some kv =>
        obtain ⟨k0, v0⟩ := kv
        simp only [get_set, h key hkey]
    rw [forOf_cons, forOf_cons]
    cases ht : (body x).thrown with
    | some e => exact ⟨rfl, happ⟩
    | none => exact ih _ _ happ

/-- An iteration that completes and sets nothing, or sets the key `NaN`, changes neither
whether the loop completes nor the value under any other key. -/
theorem forOf_skip_nan (body : JVal → Effect) (pre post : List JVal) (r : JVal) (m : JMap)
    (hthrown : (body r).thrown = none)
    (hentry : (body r).entry = none ∨ ∃ v, (body r).entry = some (.nan, v)) :
    (forOf body (pre ++ r :: post) m).thrown = (forOf body (pre ++ post) m).thrown ∧
    ∀ key, sameValueZero .nan key = false →
      (forOf body (pre ++ r :: post) m).state.get key
        = (forOf body (pre ++ post) m).state.get key := by
  rw [forOf_append, forOf_append]
  cases hpre : (forOf body pre m).thrown with
  | some e => exact ⟨rfl, fun _ _ => rfl⟩
  | none =>
    simp only
    rw [forOf_cons, hthrown]
    simp only
    apply forOf_agree
    intro key hkey
    unfold Effect.apply
    rcases hentry with he | ⟨v, he⟩
    · rw [he]
    · rw [he]
      exact get_set_other _ _ _ _ hkey

theorem getProp_str_obj {r : JVal} {k s : String} (h : getProp r k = .ok (.str s)) :
    ∃ kvs, r = .obj kvs := by
  cases r <;> simp_all [getProp]

theorem parseInt_str (s : String) : parseInt (.str s) = .ok (parseIntChars s.data) := rfl

theorem jsOr_primitive (a : JVal) (ha : a.isPrimitive = true) :
    (jsOr a (.str "")).isPrimitive = true := by
  unfold jsOr
  split
  · exact ha
  · rfl

/-- A club, player or stadium record with primitive fields whose id text does not parse is
either skipped or stored under the key `NaN`, and raises no error. -/
theorem body_unparsed_id (e : Entity) (he : e = .club ∨ e = .player ∨ e = .stadium) (r : JVal)
    (s : String) (hId : getProp r "id" = .ok (.str s)) (hNaN : parseIntChars s.data = .nan)
    (hprim : ∀ k, (propOr r k).isPrimitive = true) :
    (e.body r).thrown = none ∧
    ((e.body r).entry = none ∨ ∃ v, (e.body r).entry = some (.nan, v)) := by
  obtain ⟨kvs, hobj⟩ := getProp_str_obj hId
  have hget : ∀ k, getProp r k = .ok (propOr r k) := by
    intro k; rw [hobj]; rfl
  rcases he with he | he | he
  · subst he
    simp only [Entity.body, clubRecord, hId, hget "n", parseInt_str, hNaN, bind, Except.bind,
      pure, Except.pure]
    by_cases h1 : truthy (.str s) = true <;> by_cases h2 : truthy (propOr r "n") = true <;>
      simp [h1, h2, Effect.ofExcept]
  · subst he
    obtain ⟨cf, hcf⟩ := toChars_primitive _ (jsOr_primitive _ (hprim "f"))
    obtain ⟨cl, hcl⟩ := toChars_primitive _ (jsOr_primitive _ (hprim "s"))
    simp only [Entity.body, playerRecord, hId, hget "f", hget "s", parseInt_str, hNaN, hcf, hcl,
      bind, Except.bind, pure, Except.pure]
    by_cases h1 : truthy (.str s) = true <;>
      by_cases h2 : (truthy (propOr r "f") || truthy (propOr r "s")) = true <;>
      by_cases h3 : (jsTrim (cf ++ ' ' :: cl) != []) = true <;>
      simp [h1, h2, h3, Effect.ofExcept]
  · subst he
    simp only [Entity.body, stadiumRecord, hId, hget "n", parseInt_str, hNaN, bind, Except.bind,
      pure, Except.pure]
    by_cases h1 : truthy (.str s) = true <;> by_cases h2 : truthy (propOr r "n") = true <;>
      simp [h1, h2, Effect.ofExcept]

/-- A club or stadium record whose id is a non-empty text that does not parse and whose `n` is
truthy is stored under the key `NaN` with that `n`; so is a player record of that kind with a
truthy first or last name, under its trimmed full name, when that is not empty. -/
theorem body_unparsed_id_stored (r : JVal) (s : String) (hId : getProp r "id" = .ok (.str s))
    (hNaN : parseIntChars s.data = .nan) (hs : s ≠ "") :
    (∀ n, getProp r "n" = .ok n → truthy n = true →
      (Entity.club.body r).entry = some (.nan, n) ∧
      (Entity.stadium.body r).entry = some (.nan, n)) ∧
    (∀ f l cf cl, getProp r "f" = .ok f → getProp r "s" = .ok l →
      (truthy f || truthy l) = true →
      toChars (jsOr f (.str "")) = .ok cf → toChars (jsOr l (.str "")) = .ok cl →
      jsTrim (cf ++ ' ' :: cl) ≠ [] →
      (Entity.player.body r).entry
        = some (.nan, .str (String.mk (jsTrim (cf ++ ' ' :: cl))))) := by
  have h1 : truthy (.str s) = true := (truthy_str s).mpr hs
  refine ⟨?_, ?_⟩
  · intro n hn htn
    constructor
    · simp [Entity.body, clubRecord, hId, hn, parseInt_str, hNaN, h1, htn, Effect.ofExcept, bind,
        Except.bind, pure, Except.pure]
    · simp [Entity.body, stadiumRecord, hId, hn, parseInt_str, hNaN, h1, htn, Effect.ofExcept,
        bind, Except.bind, pure, Except.pure]
  · intro f l cf cl hf hl hfl hcf hcl hne
    simp [Entity.body, playerRecord, hId, hf, hl, parseInt_str, hNaN, h1, hfl, hcf, hcl, hne,
      Effect.ofExcept, bind, Except.bind, pure, Except.pure]

/-- A club, player or stadium record whose id is a text that does not parse is skipped when
it has no name (a falsy `n`; no truthy first or last name, or an empty trimmed full name) or
when the id text is empty. -/
theorem body_unparsed_id_skipped (r : JVal) (s : String) (hId : getProp r "id" = .ok (.str s))
    (hNaN : parseIntChars s.data = .nan) :
    (∀ n, getProp r "n" = .ok n → truthy n = false →
      (Entity.club.body r).entry = none ∧ (Entity.stadium.body r).entry = none) ∧
    (∀ f l, getProp r "f" = .ok f → getProp r "s" = .ok l →
      (truthy f || truthy l) = false → (Entity.player.body r).entry = none) ∧
    (∀ f l cf cl, getProp r "f" = .ok f → getProp r "s" = .ok l →
      toChars (jsOr f (.str "")) = .ok cf → toChars (jsOr l (.str "")) = .ok cl →
      jsTrim (cf ++ ' ' :: cl) = [] → (Entity.player.body r).entry = none) ∧
    (s = "" → (Entity.club.body r).entry = none ∧ (Entity.player.body r).entry = none ∧
      (Entity.stadium.body r).entry = none) := by
  refine ⟨?_, ?_, ?_, ?_⟩
  · intro n hn htn
    constructor
    · by_cases h1 : truthy (.str s) = true <;>
        simp [Entity.body, clubRecord, hId, hn, h1, htn, Effect.ofExcept, bind, Except.bind,
          pure, Except.pure]
    · by_cases h1 : truthy (.str s) = true <;>
        simp [Entity.body, stadiumRecord, hId, hn, h1, htn, Effect.ofExcept, bind, Except.bind,
          pure, Except.pure]
  · intro f l hf hl hfl
    by_cases h1 : truthy (.str s) = true <;>
      simp [Entity.body, playerRecord, hId, hf, hl, h1, hfl, Effect.ofExcept, bind,
        Except.bind, pure, Except.pure]
  · intro f l cf cl hf hl hcf hcl hempty
    by_cases h1 : truthy (.str s) = true <;>
      by_cases hfl : (truthy f || truthy l) = true <;>
      simp [Entity.body, playerRecord, hId, hf, hl, parseInt_str, hNaN, h1, hfl, hcf, hcl,
        hempty, Effect.ofExcept, bind, Except.bind, pure, Except.pure]
  · intro hs
    subst hs
    refine ⟨?_, ?_, ?_⟩ <;>
      simp [Entity.body, clubRecord, playerRecord, stadiumRecord, hId, truthy, Effect.ofExcept,
        bind, Except.bind, pure, Except.pure]

/-- A lookup by an id reads its table only under the parsed id. -/
theorem lookup_congr (e : Entity) (he : e = .club ∨ e = .player ∨ e = .stadium)
    (mm mm' : MappingManager) (id key : JVal) (hkey : parseInt id = .ok key)
    (h : (e.table mm).get key = (e.table mm').get key) : e.lookup mm id = e.lookup mm' id := by
  rcases he with he | he | he <;> subst he <;> simp only [Entity.table] at h
  · simp only [Entity.lookup, getClubName, hkey, h, bind, Except.bind]
  · simp only [Entity.lookup, getPlayerName, hkey, h, bind, Except.bind]
  · simp only [Entity.lookup, getStadiumName, hkey, h, bind, Except.bind]

/-- C10, as stated, fails: the club record with the id "abc" and the name "X" is not skipped but
stored under the key `NaN`; the club count of `getStats` is 1 instead of 0 and
`getClubName("xyz")` returns "X" instead of "Club #xyz". -/
theorem C10_unparsed_id_is_stored :
    (loadClubs unparsedIdData MappingManager.fresh).state.clubNames = [(.nan, .str "X")] ∧
    (getStats (loadClubs unparsedIdData MappingManager.fresh).state).clubs = 1 ∧
    (getStats (loadClubs emptyListData MappingManager.fresh).state).clubs = 0 ∧
    getClubName (loadClubs unparsedIdData MappingManager.fresh).state (.str "xyz")
      = .ok (.str "X") ∧
    getClubName (loadClubs emptyListData MappingManager.fresh).state (.str "xyz")
      = .ok (.str "Club #xyz") :=
  ⟨rfl, rfl, rfl, rfl, rfl⟩

/-- C10, amended. A club, player or stadium record (of primitive fields) whose id text does not
parse to an integer raises no error and is not skipped when it has a name: with a non-empty id
text, a club or stadium record with a truthy `n` is stored under the key `NaN` with that `n`,
and a player record with a truthy first or last name under its trimmed full name when that is
not empty; without a name, or with an empty id text, the record is skipped. The load completes with the record exactly
when it completes without it, and every lookup by an id that parses to an integer returns the
same as if the record were not in the list. -/
theorem C10_unparsed_id_amended (e : Entity) (he : e = .club ∨ e = .player ∨ e = .stadium)
    (data data' r : JVal) (pre post : List JVal) (s : String) (mm : MappingManager)
    (hList : getProp data e.listField = .ok (.arr (pre ++ r :: post)))
    (hList' : getProp data' e.listField = .ok (.arr (pre ++ post)))
    (hId : getProp r "id" = .ok (.str s)) (hNaN : parseIntChars s.data = .nan)
    (hprim : ∀ k, (propOr r k).isPrimitive = true) :
    ((e.body r).thrown = none ∧
      ((e.body r).entry = none ∨ ∃ v, (e.body r).entry = some (.nan, v))) ∧
    (s ≠ "" → ∀ n, getProp r "n" = .ok n → truthy n = true →
      (Entity.club.body r).entry = some (.nan, n) ∧
      (Entity.stadium.body r).entry = some (.nan, n)) ∧
    (s ≠ "" → ∀ f l cf cl, getProp r "f" = .ok f → getProp r "s" = .ok l →
      (truthy f || truthy l) = true →
      toChars (jsOr f (.str "")) = .ok cf → toChars (jsOr l (.str "")) = .ok cl →
      jsTrim (cf ++ ' ' :: cl) ≠ [] →
      (Entity.player.body r).entry
        = some (.nan, .str (String.mk (jsTrim (cf ++ ' ' :: cl))))) ∧
    ((∀ n, getProp r "n" = .ok n → truthy n = false →
        (Entity.club.body r).entry = none ∧ (Entity.stadium.body r).entry = none) ∧
      (∀ f l, getProp r "f" = .ok f → getProp r "s" = .ok l →
        (truthy f || truthy l) = false → (Entity.player.body r).entry = none) ∧
      (∀ f l cf cl, getProp r "f" = .ok f → getProp r "s" = .ok l →
        toChars (jsOr f (.str "")) = .ok cf → toChars (jsOr l (.str "")) = .ok cl →
        jsTrim (cf ++ ' ' :: cl) = [] → (Entity.player.body r).entry = none) ∧
      (s = "" → (Entity.club.body r).entry = none ∧ (Entity.player.body r).entry = none ∧
        (Entity.stadium.body r).entry = none)) ∧
    (e.loader data mm).thrown = (e.loader data' mm).thrown ∧
    ∀ (id : JVal) (k : Int), parseInt id = .ok (.num k) →
      e.lookup (e.loader data mm).state id = e.lookup (e.loader data' mm).state id := by
  have hbody := body_unparsed_id e he r s hId hNaN hprim
  have hskip := forOf_skip_nan e.body pre post r [] hbody.1 hbody.2
  have hl := loader_eq e data mm
  have hl' := loader_eq e data' mm
  rw [loadTable_arr _ _ _ _ hList] at hl
  rw [loadTable_arr _ _ _ _ hList'] at hl'
  refine ⟨hbody, fun hs => (body_unparsed_id_stored r s hId hNaN hs).1,
    fun hs => (body_unparsed_id_stored r s hId hNaN hs).2,
    body_unparsed_id_skipped r s hId hNaN, ?_, ?_⟩
  · rw [hl.1, hl'.1]; exact hskip.1
  · intro id k hk
    apply lookup_congr e he _ _ id (.num k) hk
    rw [hl.2, hl'.2]
    exact hskip.2 (.num k) rfl

/-- C10, amended, on the list that holds the club "abc" / "X" and then the club "7" / "Seven":
the first record is stored under `NaN`, the load completes as without it and `getClubName(7)`
is the same, "Seven". -/
theorem C10_unparsed_id_amended_witness :
    (Entity.club.body (.obj [("id", .str "abc"), ("n", .str "X")])).entry
      = some (.nan, .str "X") ∧
    (loadClubs (.obj [("C", .arr [.obj [("id", .str "abc"), ("n", .str "X")],
      .obj [("id", .str "7"), ("n", .str "Seven")]])]) MappingManager.fresh).thrown
      = (loadClubs (.obj [("C", .arr [.obj [("id", .str "7"), ("n", .str "Seven")]])])
        MappingManager.fresh).thrown ∧
    getClubName (loadClubs (.obj [("C", .arr [.obj [("id", .str "abc"), ("n", .str "X")],
      .obj [("id", .str "7"), ("n", .str "Seven")]])]) MappingManager.fresh).state (.num 7)
      = getClubName (loadClubs (.obj [("C", .arr [.obj [("id", .str "7"),
        ("n", .str "Seven")]])]) MappingManager.fresh).state (.num 7) ∧
    getClubName (loadClubs (.obj [("C", .arr [.obj [("id", .str "7"),
        ("n", .str "Seven")]])]) MappingManager.fresh).state (.num 7) = .ok (.str "Seven") :=
  have h := C10_unparsed_id_amended .club (Or.inl rfl)
    (.obj [("C", .arr [.obj [("id", .str "abc"), ("n", .str "X")],
      .obj [("id", .str "7"), ("n", .str "Seven")]])])
    (.obj [("C", .arr [.obj [("id", .str "7"), ("n", .str "Seven")]])])
    (.obj [("id", .str "abc"), ("n", .str "X")]) []
    [.obj [("id", .str "7"), ("n", .str "Seven")]] "abc" MappingManager.fresh rfl rfl rfl rfl
    (by
      intro k
      simp only [propOr, getProp, lookupProp]
      split_ifs <;> rfl)
  ⟨(h.2.1 (by decide) (.str "X") rfl rfl).1, h.2.2.2.2.1, h.2.2.2.2.2 (.num 7) 7 rfl, rfl⟩

/-! ## Player names -/

theorem jsTrim_eq_rdropWhile (cs : List Char) :
    jsTrim cs = List.rdropWhile isJsWhiteSpace (cs.dropWhile isJsWhiteSpace) := rfl

/-- A trimmed text neither begins nor ends with white space. -/
theorem jsTrim_no_outer_space (cs : List Char) :
    (∀ c, (jsTrim cs).head? = some c → isJsWhiteSpace c = false) ∧
    (∀ c, (jsTrim cs).getLast? = some c → isJsWhiteSpace c = false) := by
  constructor
  · intro c hc
    have hpre : jsTrim cs <+: cs.dropWhile isJsWhiteSpace := by
      rw [jsTrim_eq_rdropWhile]; exact List.rdropWhile_prefix _ _
    obtain ⟨t, ht⟩ := hpre
    have hhead := List.head?_dropWhile_not isJsWhiteSpace cs
    rw [← ht] at hhead
    cases hj : jsTrim cs with
    | nil => rw [hj] at hc; cases hc
    | cons x xs =>
      rw [hj] at hc hhead
      simp only [List.head?_cons, Option.some.injEq] at hc
      subst hc
      simpa using hhead
  · intro c hc
    by_cases hne : jsTrim cs = []
    · rw [hne] at hc; cases hc
    · have hlast := List.rdropWhile_last_not isJsWhiteSpace (cs.dropWhile isJsWhiteSpace)
        (by rw [← jsTrim_eq_rdropWhile]; exact hne)
      rw [List.getLast?_eq_getLast _ hne, Option.some.injEq] at hc
      subst hc
      simpa [jsTrim_eq_rdropWhile] using hlast

/-- A text that neither begins nor ends with white space is its own trimming. -/
theorem jsTrim_id (c : Char) (cs : List Char) (hhead : isJsWhiteSpace c = false)
    (hlast : ∀ d, (c :: cs).getLast? = some d → isJsWhiteSpace d = false) :
    jsTrim (c :: cs) = c :: cs := by
  have h1 : (c :: cs).dropWhile isJsWhiteSpace = c :: cs := by
    simp [List.dropWhile, hhead]
  rw [jsTrim_eq_rdropWhile, h1, List.rdropWhile_eq_self_iff]
  intro hl
  have := hlast _ (List.getLast?_eq_getLast _ hl)
  simp [this]

theorem jsTrim_leading_space (cs : List Char) : jsTrim (' ' :: cs) = jsTrim cs := by
  have h : isJsWhiteSpace ' ' = true := by decide
  simp [jsTrim, List.dropWhile, h]

theorem jsTrim_trailing_space (cs : List Char) : jsTrim (cs ++ [' ']) = jsTrim cs := by
  have h : isJsWhiteSpace ' ' = true := by decide
  rw [jsTrim_eq_rdropWhile, jsTrim_eq_rdropWhile, List.dropWhile_append]
  by_cases he : (cs.dropWhile isJsWhiteSpace).isEmpty = true
  · have hnil : cs.dropWhile isJsWhiteSpace = [] := List.isEmpty_iff.mp he
    simp [he, hnil, List.dropWhile, h, List.rdropWhile]
  · simp only [he, Bool.false_eq_true, if_false]
    exact List.rdropWhile_concat_pos _ _ _ h

theorem toChars_name (o : Option String) :
    toChars (jsOr (nameField o) (.str "")) = .ok (nameText o) := by
  cases o with
  | none => rfl
  | some t =>
    by_cases ht : truthy (.str t) = true
    · simp [nameField, nameText, jsOr, ht, toChars]
    · have hd : t.data = [] := by simpa [truthy] using ht
      simp [nameField, nameText, jsOr, ht, toChars, hd]

theorem truthy_name (o : Option String) :
    truthy (nameField o) = true ↔ nameText o ≠ [] := by
  cases o with
  | none => simp [nameField, nameText, truthy]
  | some t => simp [nameField, nameText, truthy]

/-- C11. For every player record with a valid id (truthy and parsed to `key`) whose `f` and
`s` are texts or missing, the name stored under `key` is the first and the last name joined by
one space and then trimmed, a missing name counting as empty, and nothing is stored when that
text is empty (neither name, or a blank combination). Both names present, without outer white
space, give "f s"; one name alone gives that name trimmed; the stored text never begins or ends
with white space. -/
theorem C11_player_display_name (player id key : JVal) (first last : Option String)
    (hId : getProp player "id" = .ok id) (hid : truthy id = true)
    (hkey : parseInt id = .ok key)
    (hF : getProp player "f" = .ok (nameField first))
    (hS : getProp player "s" = .ok (nameField last)) :
    playerRecord player =
      .ok (if displayName first last = [] then none
        else some (key, .str (String.mk (displayName first last)))) ∧
    (∀ (c d : Char) (a b : List Char), first = some (String.mk (c :: a)) →
      last = some (String.mk (b ++ [d])) → isJsWhiteSpace c = false →
      isJsWhiteSpace d = false →
      displayName first last = (c :: a) ++ ' ' :: (b ++ [d])) ∧
    (∀ a : String, first = some a → last = none → displayName first last = jsTrim a.data) ∧
    (∀ b : String, first = none → last = some b → displayName first last = jsTrim b.data) ∧
    (first = none → last = none → displayName first last = []) ∧
    (∀ c, (displayName first last).head? = some c → isJsWhiteSpace c = false) ∧
    (∀ c, (displayName first last).getLast? = some c → isJsWhiteSpace c = false) := by
  refine ⟨?_, ?_, ?_, ?_, ?_, (jsTrim_no_outer_space _).1, (jsTrim_no_outer_space _).2⟩
  · by_cases hguard : (truthy (nameField first) || truthy (nameField last)) = true
    · by_cases hname : displayName first last = []
      · have hn : (jsTrim (nameText first ++ ' ' :: nameText last) != []) = false := by
          simpa [displayName] using hname
        simp [playerRecord, hId, hid, hkey, hF, hS, hguard, toChars_name, hn, hname, bind,
          Except.bind, pure, Except.pure]
      · have hn : (jsTrim (nameText first ++ ' ' :: nameText last) != []) = true := by
          simpa [displayName] using hname
        simp only [playerRecord, hId, hid, hkey, hF, hS, hguard, toChars_name, hn, hname, bind,
          Except.bind, pure, Except.pure, if_true, if_false]
        rfl
    · have hf : nameText first = [] := by
        by_contra h
        exact hguard (by simp [(truthy_name first).mpr h])
      have hl : nameText last = [] := by
        by_contra h
        exact hguard (by simp [(truthy_name last).mpr h])
      have hname : displayName first last = [] := by
        simp only [displayName, hf, hl]
        rfl
      simp [playerRecord, hId, hid, hF, hS, hguard, hname, bind, Except.bind, pure, Except.pure]
  · intro c d a b hfirst hlast hc hd
    subst hfirst hlast
    simp only [displayName, nameText, List.cons_append]
    apply jsTrim_id c _ hc
    intro e he
    have hsplit : c :: (a ++ ' ' :: (b ++ [d])) = (c :: (a ++ ' ' :: b)) ++ [d] := by simp
    have : (c :: (a ++ ' ' :: (b ++ [d]))).getLast? = some d := by
      rw [hsplit, List.getLast?_append]
      rfl
    rw [this, Option.some.injEq] at he
    subst he
    exact hd
  · intro a hfirst hlast
    subst hfirst hlast
    simp only [displayName, nameText]
    exact jsTrim_trailing_space _
  · intro b hfirst hlast
    subst hfirst hlast
    simp only [displayName, nameText, List.nil_append]
    exact jsTrim_leading_space _
  · intro hfirst hlast
    subst hfirst hlast
    rfl

/-- C11 on the player record with id "7", first name "Lionel" and last name "Messi": the name
stored under 7 is "Lionel Messi". -/
theorem C11_player_display_name_witness :
    playerRecord (.obj [("id", .str "7"), ("f", .str "Lionel"), ("s", .str "Messi")]) =
      .ok (some (.num 7, .str "Lionel Messi")) :=
  (C11_player_display_name (.obj [("id", .str "7"), ("f", .str "Lionel"), ("s", .str "Messi")])
    (.str "7") (.num 7) (some "Lionel") (some "Messi") rfl rfl rfl rfl rfl).1.trans rfl

/-! ## The refresh -/

theorem updateMappings_fetch_error (env : Env) (fuel : Nat) (s : Sys) (e : JsError)
    (h : env.remote s.fetches = .error e) :
    updateMappings env (fuel + 1) s = some ⟨some e, s.fetched⟩ := by
  simp [updateMappings, h]

theorem updateMappings_write_error (env : Env) (fuel : Nat) (s : Sys) (data : JVal)
    (e : JsError) (h : env.remote s.fetches = .ok data) (hw : env.writeError s.writes = some e) :
    updateMappings env (fuel + 1) s = some ⟨some e, s.fetched.ticked.writeFailed⟩ := by
  simp [updateMappings, h, hw]

theorem updateMappings_reload (env : Env) (fuel : Nat) (s : Sys) (data : JVal)
    (h : env.remote s.fetches = .ok data) (hw : env.writeError s.writes = none) :
    updateMappings env (fuel + 1) s =
      loadMappingsWith env (fun s' => updateMappings env fuel s')
        (s.fetched.ticked.written (withMeta data (env.toISOString (env.clock s.ticks)))) := by
  simp [updateMappings, h, hw]

/-- Every run of `updateMappings` that ends has made at least one fetch. -/
theorem updateMappings_fetches (env : Env) (fuel : Nat) :
    ∀ (s : Sys) (r : Run Sys), updateMappings env fuel s = some r →
      s.fetches + 1 ≤ r.state.fetches := by
  induction fuel with
  | zero => intro s r h; simp [updateMappings] at h
  | succ fuel ih =>
    intro s r h
    cases hf : env.remote s.fetches with
    | error e =>
      rw [updateMappings_fetch_error env fuel s e hf, Option.some.injEq] at h
      subst h
      simp [Sys.fetched]
    | ok data =>
      cases hw : env.writeError s.writes with
      | some e =>
        rw [updateMappings_write_error env fuel s data e hf hw, Option.some.injEq] at h
        subst h
        simp [Sys.fetched, Sys.ticked, Sys.writeFailed]
      | none =>
        rw [updateMappings_reload env fuel s data hf hw] at h
        simp only [loadMappingsWith, Sys.written, Sys.ticked, Sys.fetched] at h
        split at h
        · simp only [Option.some.injEq] at h
          subst h
          simp
        · have := ih _ r h
          simp only at this
          omega

/-- C13. A failed refresh leaves everything as it was: when the fetch of `updateMappings`
fails, the call ends with that error and the manager (the five tables and `lastUpdate`) and the
snapshot file are what they were, so every lookup returns what it returned before. -/
theorem C13_failed_fetch_changes_nothing (env : Env) (fuel : Nat) (s : Sys) (e : JsError)
    (h : env.remote s.fetches = .error e) :
    ∃ r, updateMappings env (fuel + 1) s = some r ∧ r.thrown = some e ∧
      r.state.mm = s.mm ∧ r.state.disk = s.disk ∧ r.state.writes = s.writes ∧
      (∀ id, getClubName r.state.mm id = getClubName s.mm id) ∧
      (∀ id, getPlayerName r.state.mm id = getPlayerName s.mm id) ∧
      (∀ c d, getLeagueNameByCountryDivision r.state.mm c d
        = getLeagueNameByCountryDivision s.mm c d) ∧
      (∀ id, getStadiumName r.state.mm id = getStadiumName s.mm id) ∧
      (∀ id, getCupName r.state.mm id = getCupName s.mm id) :=
  ⟨_, updateMappings_fetch_error env fuel s e h, rfl, rfl, rfl, rfl, fun _ => rfl, fun _ => rfl,
    fun _ _ => rfl, fun _ => rfl, fun _ => rfl⟩

/-- C13 with the remote source down and the stale manager: the refresh ends with the network
error and "Old Club" still resolves. -/
theorem C13_failed_fetch_changes_nothing_witness :
    ∃ r, updateMappings downEnv 1 staleSys = some r ∧ r.thrown = some networkError ∧
      r.state.mm = staleSys.mm ∧ r.state.disk = staleSys.disk ∧
      getClubName r.state.mm (.num 1) = .ok (.str "Old Club") :=
  have ⟨r, h1, h2, h3, h4, _, h6, _⟩ :=
    C13_failed_fetch_changes_nothing downEnv 0 staleSys networkError rfl
  ⟨r, h1, h2, h3, h4, (h6 (.num 1)).trans rfl⟩

/-- C16, as stated, fails: when the fetch succeeds and the write fails, `forceUpdate` ends
with the write error and the club table is still the old one, "FC Test" of the fetched pack
does not resolve. -/
theorem C16_write_failure_keeps_old_tables :
    (forceUpdate fullDiskEnv 1 staleSys).map (fun r => r.thrown) = some (some diskError) ∧
    (forceUpdate fullDiskEnv 1 staleSys).map (fun r => r.state.mm.clubNames)
      = some [(.num 1, .str "Old Club")] ∧
    (forceUpdate fullDiskEnv 1 staleSys).map (fun r => getClubName r.state.mm (.num 2180))
      = some (.ok (.str "Club #2180")) :=
  ⟨rfl, rfl, rfl⟩

/-- C16, amended. When the fetch succeeds and the write of the snapshot fails, `forceUpdate`
ends with the write error for its caller and the reload is not reached: the five tables and
`lastUpdate` are what they were before the call. -/
theorem C16_write_failure_amended (env : Env) (fuel : Nat) (s : Sys) (data : JVal)
    (e : JsError) (h : env.remote s.fetches = .ok data) (hw : env.writeError s.writes = some e) :
    ∃ r, forceUpdate env (fuel + 1) s = some r ∧ r.thrown = some e ∧ r.state.mm = s.mm :=
  ⟨_, updateMappings_write_error env fuel s data e h hw, rfl, rfl⟩

/-- C16, amended, on the remote source that serves the concrete scenario while the disk is
full. -/
theorem C16_write_failure_amended_witness :
    ∃ r, forceUpdate fullDiskEnv 1 staleSys = some r ∧ r.thrown = some diskError ∧
      r.state.mm = staleSys.mm :=
  C16_write_failure_amended fullDiskEnv 0 staleSys scenarioPack diskError rfl rfl

/-- C17. `forceUpdate` always performs the fetch, whatever `lastUpdate` is: every run that
ends has made at least one fetch attempt, and when the fetch fails the run ends, for every
`lastUpdate`, with that error for its caller. -/
theorem C17_force_update_always_fetches (env : Env) (fuel : Nat) (s : Sys) :
    (∀ r, forceUpdate env fuel s = some r → s.fetches + 1 ≤ r.state.fetches) ∧
    (∀ (e : JsError) (lastUpdate : Option JDate), env.remote s.fetches = .error e →
      ∃ r, forceUpdate env (fuel + 1) { s with mm := { s.mm with lastUpdate := lastUpdate } }
          = some r ∧
        r.thrown = some e ∧ r.state.fetches = s.fetches + 1) := by
  refine ⟨fun r h => updateMappings_fetches env fuel s r h, ?_⟩
  intro e lastUpdate he
  exact ⟨_, updateMappings_fetch_error env fuel _ e he, rfl, rfl⟩

/-- C17 with the remote source down and a manager updated at the very moment of the call:
the fetch is attempted and its error reaches the caller. -/
theorem C17_force_update_always_fetches_witness :
    ∃ r, forceUpdate downEnv 1
        { staleSys with mm := { staleSys.mm with lastUpdate := some (.time eightDays) } }
        = some r ∧
      r.thrown = some networkError ∧ r.state.fetches = 1 :=
  (C17_force_update_always_fetches downEnv 0 staleSys).2 networkError
    (some (.time eightDays)) rfl

/-- C18. `checkForUpdates` never fails for its caller: no run of it ends with an error; a
manager that is not stale makes it return at once; and whenever the refresh it triggers ends,
with an error or without, `checkForUpdates` completes normally, in particular when the fetch
fails. -/
theorem C18_check_never_fails (env : Env) (fuel : Nat) (s : Sys) :
    (∀ r, checkForUpdates env fuel s = some r → r.thrown = none) ∧
    (isStale s.mm.lastUpdate (env.clock s.ticks) = false →
      checkForUpdates env fuel s = some ⟨none, s.ticked⟩) ∧
    (∀ r, isStale s.mm.lastUpdate (env.clock s.ticks) = true →
      updateMappings env fuel s.ticked = some r →
      checkForUpdates env fuel s = some ⟨none, r.state⟩) ∧
    (∀ e, isStale s.mm.lastUpdate (env.clock s.ticks) = true →
      env.remote s.fetches = .error e →
      checkForUpdates env (fuel + 1) s = some ⟨none, s.ticked.fetched⟩) := by
  refine ⟨?_, ?_, ?_, ?_⟩
  · intro r h
    unfold checkForUpdates at h
    simp only at h
    split at h
    · split at h
      · cases h
      · simp only [Option.some.injEq] at h
        subst h
        rfl
    · simp only [Option.some.injEq] at h
      subst h
      rfl
  · intro hs
    simp [checkForUpdates, hs]
  · intro r hs hr
    simp [checkForUpdates, hs, hr]
  · intro e hs he
    have hu := updateMappings_fetch_error env fuel s.ticked e he
    simp [checkForUpdates, hs, hu]

/-- C18 with the remote source down and the stale manager: the refresh fails with the network
error and `checkForUpdates` completes normally. -/
theorem C18_check_never_fails_witness :
    checkForUpdates downEnv 1 staleSys = some ⟨none, staleSys.ticked.fetched⟩ :=
  (C18_check_never_fails downEnv 0 staleSys).2.2.2 networkError rfl rfl

/-- C12, the failing input: the manager is stale (last update 8 days ago) and the remote
source serves a pack with a `null` club record, then fails. The reload of that pack throws, the
`catch` block of `loadMappings` starts a second download, and `checkForUpdates` has made two
fetch attempts, not one. -/
theorem C12_poisoned_pack_two_fetches :
    isStale staleSys.mm.lastUpdate (poisonEnv.clock staleSys.ticks) = true ∧
    (checkForUpdates poisonEnv 2 staleSys).map (fun r => r.thrown) = some none ∧
    (checkForUpdates poisonEnv 2 staleSys).map (fun r => r.state.fetches) = some 2 ∧
    (checkForUpdates poisonEnv 2 staleSys).map (fun r => r.state.writes) = some 1 :=
  ⟨rfl, rfl, rfl, rfl⟩

/-- The staleness test: no `lastUpdate`, or one strictly more than 7 days (604 800 000 ms)
before now. -/
theorem isStale_iff (lastUpdate : Option JDate) (now : Int) :
    isStale lastUpdate now = true ↔
      lastUpdate = none ∨ ∃ t, lastUpdate = some (.time t) ∧ now - t > 604800000 := by
  cases lastUpdate with
  | none => simp [isStale]
  | some d =>
    cases d with
    | invalid => simp [isStale]
    | time t => simp [isStale]

theorem checkForUpdates_stale (env : Env) (fuel : Nat) (s : Sys) (r : Run Sys)
    (hs : isStale s.mm.lastUpdate (env.clock s.ticks) = true)
    (hr : updateMappings env fuel s.ticked = some r) :
    checkForUpdates env fuel s = some ⟨none, r.state⟩ := by
  simp [checkForUpdates, hs, hr]

/-- The staleness policy where the refresh does not start another one: a manager that is not
stale makes no fetch attempt, and a stale one makes exactly one when the fetch fails, the write
fails or the reload of the fetched document completes. -/
theorem checkForUpdates_fetches (env : Env) (fuel : Nat) (s : Sys) :
    (isStale s.mm.lastUpdate (env.clock s.ticks) = false →
      ∃ r, checkForUpdates env fuel s = some r ∧ r.state.fetches = s.fetches) ∧
    (isStale s.mm.lastUpdate (env.clock s.ticks) = true →
      ∀ r, checkForUpdates env fuel s = some r → s.fetches + 1 ≤ r.state.fetches) ∧
    (isStale s.mm.lastUpdate (env.clock s.ticks) = true →
      ∀ e, env.remote s.fetches = .error e →
      ∃ r, checkForUpdates env (fuel + 1) s = some r ∧ r.state.fetches = s.fetches + 1) ∧
    (isStale s.mm.lastUpdate (env.clock s.ticks) = true →
      ∀ data e, env.remote s.fetches = .ok data → env.writeError s.writes = some e →
      ∃ r, checkForUpdates env (fuel + 1) s = some r ∧ r.state.fetches = s.fetches + 1) ∧
    (isStale s.mm.lastUpdate (env.clock s.ticks) = true →
      ∀ data, env.remote s.fetches = .ok data → env.writeError s.writes = none →
      (loadMappingsTry env.newDate
        (jsonClone (withMeta data (env.toISOString (env.clock (s.ticks + 1))))) s.mm).thrown
          = none →
      ∃ r, checkForUpdates env (fuel + 1) s = some r ∧ r.state.fetches = s.fetches + 1) := by
  refine ⟨?_, ?_, ?_, ?_, ?_⟩
  · intro hs
    exact ⟨⟨none, s.ticked⟩, by simp [checkForUpdates, hs], rfl⟩
  · intro hs r h
    simp only [checkForUpdates, hs, if_true] at h
    cases hu : updateMappings env fuel s.ticked with
    | none => rw [hu] at h; cases h
    | some r' =>
      rw [hu] at h
      simp only [Option.some.injEq] at h
      subst h
      exact updateMappings_fetches env fuel s.ticked r' hu
  · intro hs e he
    exact ⟨_, checkForUpdates_stale env _ s _ hs
      (updateMappings_fetch_error env fuel s.ticked e he), rfl⟩
  · intro hs data e hd hw
    exact ⟨_, checkForUpdates_stale env _ s _ hs
      (updateMappings_write_error env fuel s.ticked data e hd hw), rfl⟩
  · intro hs data hd hw hload
    have hu := updateMappings_reload env fuel s.ticked data hd hw
    simp only [loadMappingsWith, Sys.written, Sys.ticked, Sys.fetched] at hu
    simp only [hload] at hu
    exact ⟨_, checkForUpdates_stale env _ s _ hs hu, rfl⟩

theorem cloneProps_length_le (kvs : List (String × JVal)) :
    (cloneProps kvs).length ≤ kvs.length := by
  induction kvs with
  | nil => simp [cloneProps]
  | cons kv rest ih =>
    obtain ⟨k, v⟩ := kv
    cases v <;> simp [cloneProps] <;> omega

/-- An object that `JSON.stringify` and `JSON.parse` give back has no `undefined` property and
its properties are given back too. -/
theorem cloneProps_fixed_cons (k : String) (v : JVal) (rest : List (String × JVal))
    (h : cloneProps ((k, v) :: rest) = (k, v) :: rest) :
    v ≠ .undefined ∧ jsonClone v = v ∧ cloneProps rest = rest := by
  cases v with
  | undefined =>
    exfalso
    simp only [cloneProps] at h
    have hl := cloneProps_length_le rest
    rw [h] at hl
    simp at hl
  | _ => simp_all [cloneProps]

theorem cloneProps_setProp (kvs : List (String × JVal)) (k : String) (v : JVal)
    (h : cloneProps kvs = kvs) (hv : jsonClone v = v) (hu : v ≠ .undefined) :
    cloneProps (setProp kvs k v) = setProp kvs k v := by
  induction kvs with
  | nil => cases v <;> simp_all [setProp, cloneProps]
  | cons kv rest ih =>
    obtain ⟨k0, v0⟩ := kv
    obtain ⟨h0, h1, h2⟩ := cloneProps_fixed_cons k0 v0 rest h
    by_cases hk : k0 = k
    · simp only [setProp, hk, if_true]
      cases v <;> simp_all [cloneProps]
    · simp only [setProp, hk, if_false]
      cases v0 <;> simp_all [cloneProps]

theorem cloneProps_indexProps (xs : List JVal) (h : cloneElems xs = xs) :
    ∀ i, cloneProps (indexProps i xs) = indexProps i xs := by
  induction xs with
  | nil => intro i; simp [indexProps, cloneProps]
  | cons x rest ih =>
    intro i
    cases x <;> simp_all [cloneElems, indexProps, cloneProps]

theorem cloneProps_chars (cs : List Char) :
    ∀ i, cloneProps (indexProps i (cs.map (fun c => JVal.str (String.mk [c]))))
      = indexProps i (cs.map (fun c => JVal.str (String.mk [c]))) := by
  induction cs with
  | nil => intro i; simp [indexProps, cloneProps]
  | cons c rest ih => intro i; simp [indexProps, cloneProps, jsonClone, ih]

theorem cloneProps_spreadProps (data : JVal) (h : jsonClone data = data) :
    cloneProps (spreadProps data) = spreadProps data := by
  cases data with
  | obj kvs => simpa [jsonClone, spreadProps] using h
  | arr xs =>
    have hx : cloneElems xs = xs := by simpa [jsonClone] using h
    exact cloneProps_indexProps xs hx 0
  | str t => exact cloneProps_chars t.data 0
  | _ => simp [spreadProps, cloneProps]

/-- The document `updateMappings` builds from a JSON document is a JSON document: the
snapshot file reads back as it was written. -/
theorem jsonClone_withMeta (data : JVal) (stamp : String) (h : jsonClone data = data) :
    jsonClone (withMeta data stamp) = withMeta data stamp := by
  simp only [withMeta, jsonClone]
  rw [cloneProps_setProp _ _ _ (cloneProps_spreadProps data h)]
  · simp [jsonClone, cloneProps]
  · simp

theorem lookupProp_setProp_ne (kvs : List (String × JVal)) (k k' : String) (v : JVal)
    (hne : k' ≠ k) : lookupProp k (setProp kvs k' v) = lookupProp k kvs := by
  induction kvs with
  | nil => simp [setProp, lookupProp, hne]
  | cons kv rest ih =>
    obtain ⟨k0, v0⟩ := kv
    by_cases hk : k0 = k'
    · subst hk
      simp [setProp, lookupProp, hne]
    · by_cases hk0 : k0 = k
      · subst hk0
        simp [setProp, lookupProp, hk]
      · simp [setProp, lookupProp, hk, hk0, ih]

theorem lookupProp_indexProps (k : String) (hk : ∃ c ∈ k.data, (digitValue 10 c).isSome = false)
    (xs : List JVal) : ∀ i, lookupProp k (indexProps i xs) = none := by
  induction xs with
  | nil => intro i; rfl
  | cons x rest ih =>
    intro i
    have hne : String.mk (natDigits i) ≠ k := by
      intro h
      obtain ⟨c, hc, hd⟩ := hk
      rw [← h] at hc
      have := (natDigits_spec i).2.1 c hc
      rw [this] at hd
      cases hd
    simp [indexProps, lookupProp, hne, ih]

/-- Adding `meta` to a document does not change its `PackData`. -/
theorem propOr_withMeta (data : JVal) (stamp : String) :
    propOr (withMeta data stamp) "PackData" = propOr data "PackData" := by
  have hk : ∃ c ∈ "PackData".data, (digitValue 10 c).isSome = false := ⟨'P', by decide, by decide⟩
  have h : lookupProp "PackData" (setProp (spreadProps data) "meta"
      (.obj [("lastUpdate", .str stamp), ("source", .str dataPackUrl), ("version", .str "3.0")]))
      = lookupProp "PackData" (spreadProps data) :=
    lookupProp_setProp_ne _ _ _ _ (by decide)
  simp only [withMeta, propOr, getProp, h]
  cases data with
  | obj kvs => rfl
  | arr xs => simp [spreadProps, lookupProp_indexProps _ hk]
  | str t => simp [spreadProps, lookupProp_indexProps _ hk]
  | _ => rfl

theorem getProp_withMeta (data : JVal) (stamp : String) :
    getProp (withMeta data stamp) "PackData" = .ok (propOr data "PackData") := by
  rw [← propOr_withMeta data stamp]
  rfl

/-- C14, as stated, fails: the remote source serves a document without `PackData`;
`forceUpdate` completes without an error and the snapshot file, which held a pack, now holds
the fetched document, without `PackData`. -/
theorem C14_missing_pack_is_no_failure :
    truthy (propOr (staleSys.disk.getD .undefined) "PackData") = true ∧
    (forceUpdate noPackEnv 1 staleSys).map (fun r => r.thrown) = some none ∧
    (forceUpdate noPackEnv 1 staleSys).map
      (fun r => truthy (propOr (r.state.disk.getD .undefined) "PackData")) = some false ∧
    (forceUpdate noPackEnv 1 staleSys).map
      (fun r => truthy (propOr (r.state.disk.getD .undefined) "status")) = some true :=
  ⟨rfl, rfl, rfl, rfl⟩

/-- C14, amended. A fetched JSON document without a (truthy) top-level `PackData` is not a
failure: when the write succeeds `forceUpdate` completes without an error, the five tables and
`lastUpdate` stay as they were, and the snapshot file is replaced by the fetched document with
its `meta`. -/
theorem C14_missing_pack_amended (env : Env) (fuel : Nat) (s : Sys) (data : JVal)
    (h : env.remote s.fetches = .ok data) (hw : env.writeError s.writes = none)
    (hjson : jsonClone data = data) (hno : truthy (propOr data "PackData") = false) :
    ∃ r, forceUpdate env (fuel + 1) s = some r ∧ r.thrown = none ∧ r.state.mm = s.mm ∧
      r.state.disk = some (withMeta data (env.toISOString (env.clock s.ticks))) := by
  have hu := updateMappings_reload env fuel s data h hw
  have htry : loadMappingsTry env.newDate
      (withMeta data (env.toISOString (env.clock s.ticks))) s.mm = ⟨none, s.mm⟩ := by
    simp [loadMappingsTry, getProp_withMeta, hno]
  simp only [loadMappingsWith, Sys.written, Sys.ticked, Sys.fetched,
    jsonClone_withMeta _ _ hjson, htry] at hu
  exact ⟨_, hu, rfl, rfl, rfl⟩

/-- C14, amended, on the remote source that serves the document without `PackData`: the
refresh completes and "Old Club" still resolves. -/
theorem C14_missing_pack_amended_witness :
    ∃ r, forceUpdate noPackEnv 1 staleSys = some r ∧ r.thrown = none ∧
      r.state.mm = staleSys.mm ∧
      r.state.disk = some (withMeta noPackBody "1970-01-09T00:00:00.000Z") :=
  C14_missing_pack_amended noPackEnv 0 staleSys noPackBody rfl rfl rfl rfl

/-! ## Partial rebuild -/

/-- The rebuild, loader by loader: the first loop that throws ends it, the tables of the loops
before it and its own table being already written. -/
theorem loadPack_cascade (packData : JVal) (mm : MappingManager) (h : truthy packData = true) :
    loadPack packData mm =
      match (clubTable packData).thrown with
      | some e => ⟨some e, { mm with clubNames := (clubTable packData).state }⟩
      | none =>
        match (playerTable packData).thrown with
        | some e => ⟨some e, { mm with clubNames := (clubTable packData).state, playerNames := (playerTable packData).state }⟩
        | none =>
          match (leagueTable packData).thrown with
          | some e => ⟨some e, { mm with clubNames := (clubTable packData).state, playerNames := (playerTable packData).state, leagueNames := (leagueTable packData).state }⟩
          | none =>
            match (stadiumTable packData).thrown with
            | some e => ⟨some e, { mm with clubNames := (clubTable packData).state, playerNames := (playerTable packData).state, leagueNames := (leagueTable packData).state, stadiumNames := (stadiumTable packData).state }⟩
            | none =>
              match (cupTable packData).thrown with
              | some e => ⟨some e, { mm with clubNames := (clubTable packData).state, playerNames := (playerTable packData).state, leagueNames := (leagueTable packData).state, stadiumNames := (stadiumTable packData).state, cupNames := (cupTable packData).state }⟩
              | none => ⟨none, { mm with clubNames := (clubTable packData).state, playerNames := (playerTable packData).state, leagueNames := (leagueTable packData).state, stadiumNames := (stadiumTable packData).state, cupNames := (cupTable packData).state }⟩ := by
  simp only [loadPack, thenLoad, getProp_truthy _ _ h, loadClubs, loadPlayers, loadLeagues,
    loadStadiums, loadCups, clubTable, playerTable, leagueTable, stadiumTable, cupTable]
  generalize loadTable (fun x => Effect.ofExcept (clubRecord x)) "C"
    (propOr packData "ClubData") = r1
  generalize loadTable (fun x => Effect.ofExcept (playerRecord x)) "P"
    (propOr packData "PlayerData") = r2
  generalize loadTable leagueEffect "L" (propOr packData "LeagueData") = r3
  generalize loadTable (fun x => Effect.ofExcept (stadiumRecord x)) "S"
    (propOr packData "StadiumData") = r4
  generalize loadTable (fun x => Effect.ofExcept (cupRecord x)) "C"
    (propOr packData "CupData") = r5
  obtain ⟨t1, s1⟩ := r1
  obtain ⟨t2, s2⟩ := r2
  obtain ⟨t3, s3⟩ := r3
  obtain ⟨t4, s4⟩ := r4
  obtain ⟨t5, s5⟩ := r5
  cases t1 <;> cases t2 <;> cases t3 <;> cases t4 <;> cases t5 <;> rfl

/-- A `try` block of `loadMappings` that throws on a document with `PackData` stops in the
middle of the five loader calls. -/
theorem loadMappingsTry_thrown (newDate : JVal → JDate) (jsonData packData : JVal)
    (mm : MappingManager) (hPack : getProp jsonData "PackData" = .ok packData)
    (ht : truthy packData = true)
    (hthrown : (loadMappingsTry newDate jsonData mm).thrown ≠ none) :
    loadMappingsTry newDate jsonData mm = loadPack packData mm := by
  obtain ⟨kvs, hobj⟩ := getProp_ok_truthy_obj hPack ht
  simp only [loadMappingsTry, hPack, ht, if_true] at hthrown ⊢
  cases hr : (loadPack packData mm).thrown with
  | some e => simp only [hr]
  | none =>
    exfalso
    simp only [hr] at hthrown
    rw [hobj] at hthrown
    exact hthrown (setLastUpdate_thrown newDate kvs _)

/-- C15, as stated, fails: loading a pack whose clubs are well formed and whose player list
holds a `null` record over the stale manager raises an error and leaves a mix, the club table
of the new document, an empty player table and the league, stadium and cup tables of before. -/
theorem C15_rebuild_leaves_a_mix :
    (loadMappingsTry (fun _ => JDate.invalid) halfPoisonedPack staleManager).thrown ≠ none ∧
    (loadMappingsTry (fun _ => JDate.invalid) halfPoisonedPack staleManager).state.clubNames
      = [(.num 2180, .str "FC Test")] ∧
    (loadMappingsTry (fun _ => JDate.invalid) halfPoisonedPack staleManager).state.playerNames
      = [] ∧
    (loadMappingsTry (fun _ => JDate.invalid) halfPoisonedPack staleManager).state.leagueNames
      = [(.str "OLD_1", .str "Old League")] ∧
    (loadMappingsTry (fun _ => JDate.invalid) halfPoisonedPack staleManager).state.stadiumNames
      = [(.num 3, .str "Old Stadium")] ∧
    (loadMappingsTry (fun _ => JDate.invalid) halfPoisonedPack staleManager).state.cupNames
      = [(.str "old", .str "Old Cup")] :=
  ⟨by decide, rfl, rfl, rfl, rfl, rfl⟩

/-- C15, amended. The rebuild is done in place, loader by loader, in the order clubs, players,
leagues, stadiums, cups: when an error is raised while a document with `PackData` is
processed, it is raised by the loop of one entity; the tables of the entities before it hold
what their loops built from the new document, its own table holds what its loop had stored
before the error, and the tables of the entities after it and `lastUpdate` are unchanged. -/
theorem C15_partial_rebuild (newDate : JVal → JDate) (jsonData packData : JVal)
    (mm : MappingManager) (hPack : getProp jsonData "PackData" = .ok packData)
    (ht : truthy packData = true)
    (hthrown : (loadMappingsTry newDate jsonData mm).thrown ≠ none) :
    ∃ e : Entity,
      (e.loop packData).thrown = (loadMappingsTry newDate jsonData mm).thrown ∧
      (∀ e' : Entity, e'.index < e.index → (e'.loop packData).thrown = none ∧
        e'.table (loadMappingsTry newDate jsonData mm).state = (e'.loop packData).state) ∧
      e.table (loadMappingsTry newDate jsonData mm).state = (e.loop packData).state ∧
      (∀ e' : Entity, e.index < e'.index →
        e'.table (loadMappingsTry newDate jsonData mm).state = e'.table mm) ∧
      (loadMappingsTry newDate jsonData mm).state.lastUpdate = mm.lastUpdate := by
  obtain ⟨hl1, hl2, hl3, hl4, hl5⟩ := loop_eq_tables packData
  have heq := loadMappingsTry_thrown newDate jsonData packData mm hPack ht hthrown
  rw [heq] at hthrown ⊢
  rw [loadPack_cascade packData mm ht] at hthrown ⊢
  cases h1 : (clubTable packData).thrown with
  | some e1 =>
    simp only [h1] at hthrown ⊢
    refine ⟨.club, ?_, ?_, ?_, ?_, ?_⟩
    · simp [hl1, hl2, hl3, hl4, hl5, *]
    · intro e' he'
      cases e' <;> simp_all [Entity.index, Entity.table]
    · simp [Entity.table, hl1, hl2, hl3, hl4, hl5]
    · intro e' he'
      cases e' <;> simp_all [Entity.index, Entity.table]
    · first | rfl | trivial
  | none =>
    simp only [h1] at hthrown ⊢
    cases h2 : (playerTable packData).thrown with
    | some e2 =>
      simp only [h2] at hthrown ⊢
      refine ⟨.player, ?_, ?_, ?_, ?_, ?_⟩
      · simp [hl1, hl2, hl3, hl4, hl5, *]
      · intro e' he'
        cases e' <;> simp_all [Entity.index, Entity.table]
      · simp [Entity.table, hl1, hl2, hl3, hl4, hl5]
      · intro e' he'
        cases e' <;> simp_all [Entity.index, Entity.table]
      · first | rfl | trivial
    | none =>
      simp only [h2] at hthrown ⊢
      cases h3 : (leagueTable packData).thrown with
      | some e3 =>
        simp only [h3] at hthrown ⊢
        refine ⟨.league, ?_, ?_, ?_, ?_, ?_⟩
        · simp [hl1, hl2, hl3, hl4, hl5, *]
        · intro e' he'
          cases e' <;> simp_all [Entity.index, Entity.table]
        · simp [Entity.table, hl1, hl2, hl3, hl4, hl5]
        · intro e' he'
          cases e' <;> simp_all [Entity.index, Entity.table]
        · first | rfl | trivial
      | none =>
        simp only [h3] at hthrown ⊢
        cases h4 : (stadiumTable packData).thrown with
        | some e4 =>
          simp only [h4] at hthrown ⊢
          refine ⟨.stadium, ?_, ?_, ?_, ?_, ?_⟩
          · simp [hl1, hl2, hl3, hl4, hl5, *]
          · intro e' he'
            cases e' <;> simp_all [Entity.index, Entity.table]
          · simp [Entity.table, hl1, hl2, hl3, hl4, hl5]
          · intro e' he'
            cases e' <;> simp_all [Entity.index, Entity.table]
          · first | rfl | trivial
        | none =>
          simp only [h4] at hthrown ⊢
          cases h5 : (cupTable packData).thrown with
          | some e5 =>
            simp only [h5] at hthrown ⊢
            refine ⟨.cup, ?_, ?_, ?_, ?_, ?_⟩
            · simp [hl1, hl2, hl3, hl4, hl5, *]
            · intro e' he'
              cases e' <;> simp_all [Entity.index, Entity.table]
            · simp [Entity.table, hl1, hl2, hl3, hl4, hl5]
            · intro e' he'
              cases e' <;> simp_all [Entity.index, Entity.table]
            · first | rfl | trivial
          | none =>
            simp only [h5] at hthrown ⊢
            exact absurd rfl hthrown

/-- C15, amended, on the pack whose player list holds a `null` record, loaded over the stale
manager: the error comes from the player loop, the club table is the new one and the league
table the old one. -/
theorem C15_partial_rebuild_witness :
    ∃ e : Entity,
      (e.loop (propOr halfPoisonedPack "PackData")).thrown
        = (loadMappingsTry (fun _ => JDate.invalid) halfPoisonedPack staleManager).thrown ∧
      (∀ e' : Entity, e'.index < e.index →
        (e'.loop (propOr halfPoisonedPack "PackData")).thrown = none ∧
        e'.table (loadMappingsTry (fun _ => JDate.invalid) halfPoisonedPack staleManager).state
          = (e'.loop (propOr halfPoisonedPack "PackData")).state) ∧
      e.table (loadMappingsTry (fun _ => JDate.invalid) halfPoisonedPack staleManager).state
        = (e.loop (propOr halfPoisonedPack "PackData")).state ∧
      (∀ e' : Entity, e.index < e'.index →
        e'.table (loadMappingsTry (fun _ => JDate.invalid) halfPoisonedPack staleManager).state
          = e'.table staleManager) ∧
      (loadMappingsTry (fun _ => JDate.invalid) halfPoisonedPack staleManager).state.lastUpdate
        = staleManager.lastUpdate :=
  C15_partial_rebuild (fun _ => JDate.invalid) halfPoisonedPack
    (propOr halfPoisonedPack "PackData") staleManager rfl rfl (by decide)

/-! ## Reload round trip -/

/-- On a document that is an object, the `lastUpdate` statement either sets one fixed date or
changes nothing, and does not throw. -/
theorem setLastUpdate_cases (newDate : JVal → JDate) (kvs : List (String × JVal)) :
    (∃ d, ∀ m : MappingManager,
      setLastUpdate newDate (.obj kvs) m = ⟨none, { m with lastUpdate := some d }⟩) ∨
    (∀ m : MappingManager, setLastUpdate newDate (.obj kvs) m = ⟨none, m⟩) := by
  have hm : getProp (.obj kvs) "meta" = .ok ((lookupProp "meta" kvs).getD .undefined) := rfl
  by_cases hi : truthy ((lookupProp "meta" kvs).getD .undefined) = true
  · have hl := getProp_truthy _ "lastUpdate" hi
    by_cases hs : truthy (propOr ((lookupProp "meta" kvs).getD .undefined) "lastUpdate") = true
    · left
      refine ⟨newDate (propOr ((lookupProp "meta" kvs).getD .undefined) "lastUpdate"), ?_⟩
      intro m
      simp [setLastUpdate, hm, hi, hl, hs]
    · right
      intro m
      simp [setLastUpdate, hm, hi, hl, hs]
  · right
    intro m
    simp [setLastUpdate, hm, hi]

/-- Loading a document a second time changes nothing: a load that completes leaves a manager
on which the same load completes and gives the same manager back. -/
theorem loadMappingsTry_idem (newDate : JVal → JDate) (jsonData packData : JVal)
    (mm : MappingManager) (hPack : getProp jsonData "PackData" = .ok packData)
    (ht : truthy packData = true)
    (hdone : (loadMappingsTry newDate jsonData mm).thrown = none) :
    loadMappingsTry newDate jsonData (loadMappingsTry newDate jsonData mm).state =
      ⟨none, (loadMappingsTry newDate jsonData mm).state⟩ := by
  obtain ⟨kvs, hobj⟩ := getProp_ok_truthy_obj hPack ht
  have hloops := (loadMappingsTry_tables newDate jsonData packData mm hPack ht hdone).1
  have hpack : ∀ m, (loadPack packData m).thrown = none :=
    fun m => (loadPack_spec packData m ht).1.mpr hloops
  have hstate : ∀ m, (loadPack packData m).state = _ :=
    fun m => (loadPack_spec packData m ht).2 (hpack m)
  have htry : ∀ m, loadMappingsTry newDate jsonData m =
      setLastUpdate newDate jsonData (loadPack packData m).state := by
    intro m
    simp [loadMappingsTry, hPack, ht, hpack m]
  rw [htry, htry, hstate, hstate, hobj]
  rcases setLastUpdate_cases newDate kvs with ⟨d, hd⟩ | hn
  · simp only [hd]
  · simp only [hn]

theorem lookups_congr (mm mm' : MappingManager) (h : ∀ e : Entity, e.table mm = e.table mm') :
    (∀ id, getClubName mm id = getClubName mm' id) ∧
    (∀ id, getPlayerName mm id = getPlayerName mm' id) ∧
    (∀ c d, getLeagueNameByCountryDivision mm c d = getLeagueNameByCountryDivision mm' c d) ∧
    (∀ id, getStadiumName mm id = getStadiumName mm' id) ∧
    (∀ id, getCupName mm id = getCupName mm' id) := by
  have h1 : mm.clubNames = mm'.clubNames := h .club
  have h2 : mm.playerNames = mm'.playerNames := h .player
  have h3 : mm.leagueNames = mm'.leagueNames := h .league
  have h4 : mm.stadiumNames = mm'.stadiumNames := h .stadium
  have h5 : mm.cupNames = mm'.cupNames := h .cup
  refine ⟨?_, ?_, ?_, ?_, ?_⟩
  · intro id; simp only [getClubName, h1]
  · intro id; simp only [getPlayerName, h2]
  · intro c d; simp only [getLeagueNameByCountryDivision, h3]
  · intro id; simp only [getStadiumName, h4]
  · intro id; simp only [getCupName, h5]

/-- The snapshot of a body with `PackData` loads as the body does: the same error if any, the
same five tables. -/
theorem loadMappingsTry_withMeta (newDate : JVal → JDate) (body : JVal) (stamp : String)
    (mm : MappingManager) (hpack : truthy (propOr body "PackData") = true) :
    (loadMappingsTry newDate (withMeta body stamp) mm).thrown
      = (loadPack (propOr body "PackData") mm).thrown ∧
    ∀ e : Entity, e.table (loadMappingsTry newDate (withMeta body stamp) mm).state
      = e.table (loadPack (propOr body "PackData") mm).state := by
  have hget := getProp_withMeta body stamp
  cases hr : (loadPack (propOr body "PackData") mm).thrown with
  | some err =>
    have : loadMappingsTry newDate (withMeta body stamp) mm
        = loadPack (propOr body "PackData") mm := by
      simp [loadMappingsTry, hget, hpack, hr]
    rw [this]
    exact ⟨hr, fun _ => rfl⟩
  | none =>
    have : loadMappingsTry newDate (withMeta body stamp) mm
        = setLastUpdate newDate (withMeta body stamp) (loadPack (propOr body "PackData") mm).state
        := by
      simp [loadMappingsTry, hget, hpack, hr]
    rw [this]
    have ht := setLastUpdate_tables newDate (withMeta body stamp)
      (loadPack (propOr body "PackData") mm).state
    refine ⟨setLastUpdate_thrown newDate _ _, ?_⟩
    intro e
    cases e
    · exact ht.1
    · exact ht.2.1
    · exact ht.2.2.1
    · exact ht.2.2.2.1
    · exact ht.2.2.2.2

/-- C19. Reload round trip: for every fetched JSON body with `PackData`, the snapshot (the
body with the injected `meta`) reads back from the file as it was written; loading it raises
the same error, if any, and builds the same five tables as the loaders run on the body, so the
five lookups return the same for every id; loading the snapshot a second time changes nothing;
and after the refresh that wrote it, `loadMappings` leaves the system as it is, without a
download. -/
theorem C19_reload_round_trip (env : Env) (fuel : Nat) (s : Sys) (body : JVal)
    (hfetch : env.remote s.fetches = .ok body) (hwrite : env.writeError s.writes = none)
    (hjson : jsonClone body = body) (hpack : truthy (propOr body "PackData") = true) :
    jsonClone (withMeta body (env.toISOString (env.clock s.ticks)))
      = withMeta body (env.toISOString (env.clock s.ticks)) ∧
    (∀ mm : MappingManager,
      (loadMappingsTry env.newDate (withMeta body (env.toISOString (env.clock s.ticks))) mm).thrown
        = (loadPack (propOr body "PackData") mm).thrown ∧
      (∀ e : Entity,
        e.table (loadMappingsTry env.newDate
          (withMeta body (env.toISOString (env.clock s.ticks))) mm).state
          = e.table (loadPack (propOr body "PackData") mm).state) ∧
      (∀ id, getClubName (loadMappingsTry env.newDate
          (withMeta body (env.toISOString (env.clock s.ticks))) mm).state id
        = getClubName (loadPack (propOr body "PackData") mm).state id) ∧
      (∀ id, getPlayerName (loadMappingsTry env.newDate
          (withMeta body (env.toISOString (env.clock s.ticks))) mm).state id
        = getPlayerName (loadPack (propOr body "PackData") mm).state id) ∧
      (∀ c d, getLeagueNameByCountryDivision (loadMappingsTry env.newDate
          (withMeta body (env.toISOString (env.clock s.ticks))) mm).state c d
        = getLeagueNameByCountryDivision (loadPack (propOr body "PackData") mm).state c d) ∧
      (∀ id, getStadiumName (loadMappingsTry env.newDate
          (withMeta body (env.toISOString (env.clock s.ticks))) mm).state id
        = getStadiumName (loadPack (propOr body "PackData") mm).state id) ∧
      (∀ id, getCupName (loadMappingsTry env.newDate
          (withMeta body (env.toISOString (env.clock s.ticks))) mm).state id
        = getCupName (loadPack (propOr body "PackData") mm).state id)) ∧
    (∀ mm : MappingManager,
      (loadMappingsTry env.newDate
        (withMeta body (env.toISOString (env.clock s.ticks))) mm).thrown = none →
      loadMappingsTry env.newDate (withMeta body (env.toISOString (env.clock s.ticks)))
        (loadMappingsTry env.newDate
          (withMeta body (env.toISOString (env.clock s.ticks))) mm).state
        = ⟨none, (loadMappingsTry env.newDate
          (withMeta body (env.toISOString (env.clock s.ticks))) mm).state⟩) ∧
    ((loadMappingsTry env.newDate
        (withMeta body (env.toISOString (env.clock s.ticks))) s.mm).thrown = none →
      ∃ r, updateMappings env (fuel + 1) s = some r ∧ r.thrown = none ∧
        r.state.disk = some (withMeta body (env.toISOString (env.clock s.ticks))) ∧
        r.state.mm = (loadMappingsTry env.newDate
          (withMeta body (env.toISOString (env.clock s.ticks))) s.mm).state ∧
        r.state.fetches = s.fetches + 1 ∧
        ∀ fuel', loadMappings env fuel' r.state = some ⟨none, r.state⟩) := by
  have hclone := jsonClone_withMeta body (env.toISOString (env.clock s.ticks)) hjson
  have hget := getProp_withMeta body (env.toISOString (env.clock s.ticks))
  refine ⟨hclone, ?_, ?_, ?_⟩
  · intro mm
    have h := loadMappingsTry_withMeta env.newDate body (env.toISOString (env.clock s.ticks)) mm
      hpack
    have hl := lookups_congr _ _ h.2
    exact ⟨h.1, h.2, hl.1, hl.2.1, hl.2.2.1, hl.2.2.2.1, hl.2.2.2.2⟩
  · intro mm hdone
    exact loadMappingsTry_idem env.newDate _ _ mm hget hpack hdone
  · intro hdone
    have hu := updateMappings_reload env fuel s body hfetch hwrite
    simp only [loadMappingsWith, Sys.written, Sys.ticked, Sys.fetched, hclone, hdone] at hu
    refine ⟨_, hu, rfl, rfl, rfl, rfl, ?_⟩
    intro fuel'
    have hidem := loadMappingsTry_idem env.newDate _ _ s.mm hget hpack hdone
    simp only [loadMappings, loadMappingsWith, hidem]

/-- C19 on the concrete scenario served to the stale system: the refresh writes the snapshot,
the tables are those of the pack, "FC Test" resolves and a reload changes nothing. -/
theorem C19_reload_round_trip_witness :
    ∃ r, updateMappings scenarioEnv 1 staleSys = some r ∧ r.thrown = none ∧
      r.state.disk = some (withMeta scenarioPack "1970-01-09T00:00:00.000Z") ∧
      getClubName r.state.mm (.num 2180) = .ok (.str "FC Test") ∧
      r.state.fetches = 1 ∧
      loadMappings scenarioEnv 0 r.state = some ⟨none, r.state⟩ :=
  have ⟨r, h1, h2, h3, h4, h5, h6⟩ :=
    (C19_reload_round_trip scenarioEnv 0 staleSys scenarioPack rfl rfl rfl rfl).2.2.2 rfl
  ⟨r, h1, h2, h3, (congrArg (fun m => getClubName m (.num 2180)) h4).trans rfl, h5, h6 0⟩

/-! ## Statistics -/

/-- C20. `getStats` returns the number of entries of each of the five tables and the current
`lastUpdate`; `nextUpdate` is `null` when `lastUpdate` is, and the date 604 800 000 ms (7 days)
after `lastUpdate` when `lastUpdate` is a date (that sum being within the range of `Date`, else
the invalid date `new Date` makes of it). The method is a function of the manager alone and
returns no new state. -/
theorem C20_get_stats (mm : MappingManager) :
    (getStats mm).clubs = mm.clubNames.length ∧
    (getStats mm).players = mm.playerNames.length ∧
    (getStats mm).leagues = mm.leagueNames.length ∧
    (getStats mm).stadiums = mm.stadiumNames.length ∧
    (getStats mm).cups = mm.cupNames.length ∧
    (getStats mm).lastUpdate = mm.lastUpdate ∧
    (mm.lastUpdate = none → (getStats mm).nextUpdate = none) ∧
    (∀ t : Int, mm.lastUpdate = some (.time t) →
      (getStats mm).nextUpdate = some (timeClip (t + 604800000))) ∧
    (∀ t : Int, mm.lastUpdate = some (.time t) →
      (t + 604800000).natAbs ≤ 8640000000000000 →
      (getStats mm).nextUpdate = some (.time (t + 604800000))) := by
  refine ⟨rfl, rfl, rfl, rfl, rfl, rfl, ?_, ?_, ?_⟩
  · intro h
    simp [getStats, h]
  · intro t h
    simp [getStats, h]
  · intro t h hr
    simp [getStats, h, timeClip, hr]

/-- C20 on the stale manager, last updated at the epoch: one entry in each table and the next
update 604 800 000 ms after the epoch. -/
theorem C20_get_stats_witness :
    (getStats staleManager).clubs = 1 ∧ (getStats staleManager).cups = 1 ∧
    (getStats staleManager).lastUpdate = some (.time 0) ∧
    (getStats staleManager).nextUpdate = some (.time 604800000) :=
  have h := C20_get_stats staleManager
  ⟨h.1, h.2.2.2.2.1, h.2.2.2.2.2.1, h.2.2.2.2.2.2.2.2 0 rfl (by decide)⟩

/-! ## The bare league id -/

/-- C21. `getLeagueName(id)` returns the placeholder "Ligue #id" for every id that has a text
and every content of the tables, the text being the one JavaScript gives to the id (for a safe
integer `k`, its decimal digits); the league table is not read, so no stored name is ever
resolved. -/
theorem C21_league_name_placeholder (mm : MappingManager) (k : Int) :
    (isSafeInteger k = true →
      getLeagueName mm (.num k) = .ok (.str ("Ligue #" ++ decimal k))) ∧
    (∀ (id : JVal) (text : String), toStr id = .ok text →
      getLeagueName mm id = .ok (.str ("Ligue #" ++ text))) ∧
    (∀ (mm' : MappingManager) (id : JVal), getLeagueName mm id = getLeagueName mm' id) := by
  refine ⟨?_, ?_, fun _ _ => rfl⟩
  · intro _
    simp only [getLeagueName, toChars, bind, Except.bind, pure, Except.pure, decimal]
    rw [mk_append_data]
  · intro id text h
    unfold toStr at h
    cases hc : toChars id with
    | error e => rw [hc] at h; cases h
    | ok cs =>
      rw [hc] at h
      simp only [Except.ok.injEq] at h
      subst h
      simp only [getLeagueName, hc, bind, Except.bind, pure, Except.pure]
      rw [mk_append_data]

/-- C21 on a league table that holds "Super League": the bare id 1 still gives "Ligue #1". -/
theorem C21_league_name_placeholder_witness :
    getLeagueName { MappingManager.fresh with leagueNames := [(.str "CHE_1", .str "Super League"),
      (.num 1, .str "Super League")] } (.num 1) = .ok (.str "Ligue #1") :=
  ((C21_league_name_placeholder _ 1).1 (by decide)).trans rfl

/-! ## Formatting helpers of the API client -/

/-- The glyphs of a text of the basic plane come in the order of the text, one per
character. -/
theorem glyphs_in_order (cs : List Char) (h : ∀ c ∈ cs, c.toNat < 0x10000) :
    ApiClient.glyphs cs = cs.map ApiClient.glyph := by
  induction cs with
  | nil => rfl
  | cons c rest ih =>
    have hc := h c (by simp)
    have hr : ∀ d ∈ rest, d.toNat < 0x10000 := fun d hd => h d (by simp [hd])
    simp [ApiClient.glyphs, ApiClient.unitGlyphs, hc, ih hr]

/-- C23, the failing input: `formatForm("WL")` is the green glyph of `W` followed by the red
glyph of `L`, the order of the input, not its reverse. -/
theorem C23_form_is_not_reversed :
    ApiClient.formatForm (.str "WL") = .ok (String.mk [ApiClient.green, ApiClient.red]) ∧
    ApiClient.formatForm (.str "WL") ≠ .ok (String.mk [ApiClient.red, ApiClient.green]) := by
  refine ⟨rfl, ?_⟩
  intro h
  have h1 : ApiClient.formatForm (.str "WL") = .ok (String.mk [ApiClient.green, ApiClient.red]) :=
    rfl
  rw [h1] at h
  have h2 := Except.ok.inj h
  revert h2
  decide

/-- The ceiling of `amount / 10000`. -/
theorem dollarsOf_ceil (a : Int) :
    (ApiClient.dollarsOf a - 1) * 10000 < a ∧ a ≤ ApiClient.dollarsOf a * 10000 := by
  unfold ApiClient.dollarsOf
  omega

/-- C24. `formatMoney` divides by 10 000 and rounds up: for every positive integer amount
whose ceiling `ceil(amount / 10000)` is below 1000 it returns the decimal text of that ceiling
followed by "$" (with a host that prints an integer below 1000 by its digits), so 1 to 10000
give "1$" and 10001 gives "2$"; an amount that is 0 or missing gives "0$". -/
theorem C24_format_money (fmt : NumberFormat)
    (hfmt : ∀ n : Int, 0 ≤ n → n < 1000 → fmt.toLocaleString n = decimal n) (a : Int)
    (ha : 0 < a) (hsmall : ApiClient.dollarsOf a < 1000) :
    ApiClient.formatMoney fmt (some a) = decimal (ApiClient.dollarsOf a) ++ "$" ∧
    ((ApiClient.dollarsOf a - 1) * 10000 < a ∧ a ≤ ApiClient.dollarsOf a * 10000) ∧
    (a ≤ 10000 → ApiClient.formatMoney fmt (some a) = "1$") ∧
    (a = 10001 → ApiClient.formatMoney fmt (some a) = "2$") ∧
    ApiClient.formatMoney fmt (some 0) = "0$" ∧
    ApiClient.formatMoney fmt none = "0$" := by
  have hc := dollarsOf_ceil a
  have hpos : 0 < ApiClient.dollarsOf a := by omega
  have hmain : ApiClient.formatMoney fmt (some a) = decimal (ApiClient.dollarsOf a) ++ "$" := by
    have h0 : a ≠ 0 := by omega
    have h1 : ¬ ApiClient.dollarsOf a ≥ 1000000000 := by omega
    have h2 : ¬ ApiClient.dollarsOf a ≥ 1000000 := by omega
    have h3 : ¬ ApiClient.dollarsOf a ≥ 1000 := by omega
    have h4 : ¬ (ApiClient.dollarsOf a = 0 ∧ a < 0) := by omega
    simp only [ApiClient.formatMoney, h0, h1, h2, h3, h4, if_false]
    rw [hfmt _ (by omega) hsmall]
  refine ⟨hmain, hc, ?_, ?_, rfl, rfl⟩
  · intro hle
    have : ApiClient.dollarsOf a = 1 := by omega
    rw [hmain, this]
    rfl
  · intro h
    have : ApiClient.dollarsOf a = 2 := by omega
    rw [hmain, this]
    rfl

/-- C24 on the amount 10001, which rounds up to 2 dollars. -/
theorem C24_format_money_witness :
    ApiClient.formatMoney plainFormat (some 10001) = "2$" ∧
    ApiClient.formatMoney plainFormat (some 10000) = "1$" ∧
    ApiClient.formatMoney plainFormat none = "0$" :=
  have h := C24_format_money plainFormat (fun _ _ _ => rfl) 10001 (by decide) (by decide)
  ⟨h.2.2.2.1 rfl, rfl, h.2.2.2.2.2⟩

/-! ## The cache of the API client -/

theorem Cache.get?_set_self (c : Cache) (key : String) (e : CacheEntry) :
    (c.set key e).get? key = some e := by
  induction c with
  | nil => simp [Cache.set, Cache.get?]
  | cons kv rest ih =>
    obtain ⟨k, e0⟩ := kv
    by_cases h : k = key <;> simp [Cache.set, Cache.get?, h, ih]

theorem Cache.get?_set_other (c : Cache) (key key' : String) (e : CacheEntry)
    (hne : key' ≠ key) : (c.set key e).get? key' = c.get? key' := by
  induction c with
  | nil => simp [Cache.set, Cache.get?, Ne.symm hne]
  | cons kv rest ih =>
    obtain ⟨k, e0⟩ := kv
    by_cases h : k = key
    · subst h
      simp [Cache.set, Cache.get?, Ne.symm hne]
    · by_cases h' : k = key'
      · subst h'
        simp [Cache.set, Cache.get?, h]
      · simp [Cache.set, Cache.get?, h, h', ih]

theorem Cache.get?_delete_other (c : Cache) (key key' : String) (hne : key' ≠ key) :
    (c.delete key).get? key' = c.get? key' := by
  induction c with
  | nil => rfl
  | cons kv rest ih =>
    obtain ⟨k, e0⟩ := kv
    by_cases h : k = key
    · subst h
      simp [Cache.delete, Cache.get?, Ne.symm hne]
    · by_cases h' : k = key'
      · subst h'
        simp [Cache.delete, Cache.get?, h]
      · simp [Cache.delete, Cache.get?, h, h', ih]

/-- Deleting the key `set` has just written leaves no entry under it. -/
theorem Cache.get?_delete_set (c : Cache) (key : String) (e : CacheEntry) :
    ((c.set key e).delete key).get? key = (c.delete key).get? key := by
  induction c with
  | nil => simp [Cache.set, Cache.delete, Cache.get?]
  | cons kv rest ih =>
    obtain ⟨k, e0⟩ := kv
    by_cases h : k = key <;> simp [Cache.set, Cache.delete, Cache.get?, h, ih]

theorem Cache.get?_of_not_mem (c : Cache) (key : String) (h : key ∉ c.map Prod.fst) :
    c.get? key = none := by
  induction c with
  | nil => rfl
  | cons kv rest ih =>
    obtain ⟨k, e0⟩ := kv
    simp only [List.map_cons, List.mem_cons, not_or] at h
    simp [Cache.get?, Ne.symm h.1, ih h.2]

/-- In a cache without a repeated key, `delete` leaves no entry under the key. -/
theorem Cache.get?_delete_self (c : Cache) (key : String) (h : (c.map Prod.fst).Nodup) :
    (c.delete key).get? key = none := by
  induction c with
  | nil => rfl
  | cons kv rest ih =>
    obtain ⟨k, e0⟩ := kv
    simp only [List.map_cons, List.nodup_cons] at h
    by_cases hk : k = key
    · subst hk
      simp only [Cache.delete, if_true]
      exact Cache.get?_of_not_mem rest k h.1
    · simp [Cache.delete, Cache.get?, hk, ih h.2]

/-- C25. The cache is time-boxed to 5 minutes (300 000 ms): after `setCache(key, data)` at
time `t`, `getFromCache(key)` at time `t'` returns `data` and leaves the cache as it is when
`t' - t <= 300000`; when `t' - t > 300000` it returns `null` and deletes the entry, the entries
under other keys staying; a key without an entry gives `null`; and `setCache` leaves the entries
under other keys as they are. -/
theorem C25_cache_time_box (cache : Cache) (key : String) (data : JVal) (t t' : Int) :
    (t' - t ≤ 300000 →
      ApiClient.getFromCache (ApiClient.setCache cache t key data) t' key
        = (data, ApiClient.setCache cache t key data)) ∧
    (t' - t > 300000 →
      (ApiClient.getFromCache (ApiClient.setCache cache t key data) t' key).1 = .null ∧
      (ApiClient.getFromCache (ApiClient.setCache cache t key data) t' key).2
        = (ApiClient.setCache cache t key data).delete key ∧
      (∀ key', key' ≠ key →
        (ApiClient.getFromCache (ApiClient.setCache cache t key data) t' key).2.get? key'
          = cache.get? key') ∧
      ((cache.map Prod.fst).Nodup →
        (ApiClient.getFromCache (ApiClient.setCache cache t key data) t' key).2.get? key
          = none)) ∧
    (cache.get? key = none → ApiClient.getFromCache cache t' key = (.null, cache)) ∧
    (∀ key', key' ≠ key → (ApiClient.setCache cache t key data).get? key' = cache.get? key') := by
  have hget : (ApiClient.setCache cache t key data).get? key = some ⟨data, t⟩ :=
    Cache.get?_set_self cache key ⟨data, t⟩
  refine ⟨?_, ?_, ?_, ?_⟩
  · intro h
    have hn : ¬ t' - t > ApiClient.cacheTimeout := by
      simp only [ApiClient.cacheTimeout]; omega
    simp only [ApiClient.getFromCache, hget, hn, if_false]
  · intro h
    have hn : t' - t > ApiClient.cacheTimeout := by
      simp only [ApiClient.cacheTimeout]; omega
    simp only [ApiClient.getFromCache, hget, hn, if_true]
    refine ⟨trivial, trivial, ?_, ?_⟩
    · intro key' hne
      rw [Cache.get?_delete_other _ _ _ hne]
      exact Cache.get?_set_other cache key key' _ hne
    · intro hnd
      unfold ApiClient.setCache
      rw [Cache.get?_delete_set]
      exact Cache.get?_delete_self cache key hnd
  · intro h
    simp only [ApiClient.getFromCache, h]
  · intro key' hne
    exact Cache.get?_set_other cache key key' _ hne

/-- C25 on an empty cache: an entry set at time 0 is returned at 300 000 ms and gone at
300 001 ms. -/
theorem C25_cache_time_box_witness :
    ApiClient.getFromCache (ApiClient.setCache [] 0 "club_1" (.str "data")) 300000 "club_1"
      = (.str "data", ApiClient.setCache [] 0 "club_1" (.str "data")) ∧
    (ApiClient.getFromCache (ApiClient.setCache [] 0 "club_1" (.str "data")) 300001
      "club_1").1 = .null ∧
    (ApiClient.getFromCache (ApiClient.setCache [] 0 "club_1" (.str "data")) 300001
      "club_1").2.get? "club_1" = none :=
  have h := C25_cache_time_box [] "club_1" (.str "data") 0
  ⟨(h 300000).1 (by decide), ((h 300001).2.1 (by decide)).1,
    ((h 300001).2.1 (by decide)).2.2.2 (by simp)⟩

/-! ## The subscription store -/

theorem Registrations.get?_put_self (r : Registrations) (ch : String) (v : ClubSet) :
    (r.put ch v).get? ch = some v := by
  induction r with
  | nil => simp [Registrations.put, Registrations.get?]
  | cons kv rest ih =>
    obtain ⟨k, s0⟩ := kv
    by_cases h : k = ch <;> simp [Registrations.put, Registrations.get?, h, ih]

theorem Registrations.put_put (r : Registrations) (ch : String) (v w : ClubSet) :
    (r.put ch v).put ch w = r.put ch w := by
  induction r with
  | nil => simp [Registrations.put]
  | cons kv rest ih =>
    obtain ⟨k, s0⟩ := kv
    by_cases h : k = ch <;> simp [Registrations.put, h, ih]

theorem Registrations.put_get (r : Registrations) (ch : String) (v : ClubSet)
    (h : r.get? ch = some v) : r.put ch v = r := by
  induction r with
  | nil => simp [Registrations.get?] at h
  | cons kv rest ih =>
    obtain ⟨k, s0⟩ := kv
    by_cases hk : k = ch
    · simp only [Registrations.get?, hk, if_true, Option.some.injEq] at h
      simp [Registrations.put, hk, h]
    · simp only [Registrations.get?, hk, if_false] at h
      simp [Registrations.put, hk, ih h]

theorem Registrations.remove_put_absent (r : Registrations) (ch : String) (v : ClubSet)
    (h : r.get? ch = none) : (r.put ch v).remove ch = r := by
  induction r with
  | nil => simp [Registrations.put, Registrations.remove]
  | cons kv rest ih =>
    obtain ⟨k, s0⟩ := kv
    by_cases hk : k = ch
    · simp [Registrations.get?, hk] at h
    · simp only [Registrations.get?, hk, if_false] at h
      simp [Registrations.put, Registrations.remove, hk, ih h]

theorem Registrations.remove_put_present (r : Registrations) (ch : String) (v w : ClubSet)
    (h : r.get? ch = some w) : (r.put ch v).remove ch = r.remove ch := by
  induction r with
  | nil => simp [Registrations.get?] at h
  | cons kv rest ih =>
    obtain ⟨k, s0⟩ := kv
    by_cases hk : k = ch
    · simp [Registrations.put, Registrations.remove, hk]
    · simp only [Registrations.get?, hk, if_false] at h
      simp [Registrations.put, Registrations.remove, hk, ih h]

theorem Registrations.mem_of_get? (r : Registrations) (ch : String) (v : ClubSet)
    (h : r.get? ch = some v) : (ch, v) ∈ r := by
  induction r with
  | nil => simp [Registrations.get?] at h
  | cons kv rest ih =>
    obtain ⟨k, s0⟩ := kv
    by_cases hk : k = ch
    · simp only [Registrations.get?, hk, if_true, Option.some.injEq] at h
      simp [hk, h]
    · simp only [Registrations.get?, hk, if_false] at h
      simp [ih h]

theorem Registrations.mem_put (r : Registrations) (ch : String) (v : ClubSet)
    (e : String × ClubSet) (h : e ∈ r.put ch v) : e ∈ r ∨ e = (ch, v) := by
  induction r with
  | nil => simp [Registrations.put] at h; exact Or.inr h
  | cons kv rest ih =>
    obtain ⟨k, s0⟩ := kv
    by_cases hk : k = ch
    · simp only [Registrations.put, hk, if_true, List.mem_cons] at h
      rcases h with h | h
      · exact Or.inr h
      · exact Or.inl (by simp [h])
    · simp only [Registrations.put, hk, if_false, List.mem_cons] at h
      rcases h with h | h
      · exact Or.inl (by simp [h])
      · rcases ih h with h' | h'
        · exact Or.inl (by simp [h'])
        · exact Or.inr h'

theorem Registrations.mem_remove (r : Registrations) (ch : String) (e : String × ClubSet)
    (h : e ∈ r.remove ch) : e ∈ r := by
  induction r with
  | nil => simp [Registrations.remove] at h
  | cons kv rest ih =>
    obtain ⟨k, s0⟩ := kv
    by_cases hk : k = ch
    · simp only [Registrations.remove, hk, if_true] at h
      simp [h]
    · simp only [Registrations.remove, hk, if_false, List.mem_cons] at h
      rcases h with h | h
      · simp [h]
      · simp [ih h]

theorem Registrations.keys_put (r : Registrations) (ch : String) (v : ClubSet) :
    (r.put ch v).map Prod.fst =
      if (r.get? ch).isSome then r.map Prod.fst else r.map Prod.fst ++ [ch] := by
  induction r with
  | nil => simp [Registrations.put, Registrations.get?]
  | cons kv rest ih =>
    obtain ⟨k, s0⟩ := kv
    by_cases hk : k = ch
    · simp [Registrations.put, Registrations.get?, hk]
    · simp only [Registrations.put, Registrations.get?, hk, if_false, List.map_cons, ih]
      split <;> simp

theorem Registrations.get?_none_of_not_key (r : Registrations) (ch : String)
    (h : ch ∉ r.map Prod.fst) : r.get? ch = none := by
  induction r with
  | nil => rfl
  | cons kv rest ih =>
    obtain ⟨k, s0⟩ := kv
    simp only [List.map_cons, List.mem_cons, not_or] at h
    simp [Registrations.get?, Ne.symm h.1, ih h.2]

theorem Registrations.not_mem_of_get? (r : Registrations) (ch : String)
    (h : r.get? ch = none) : ch ∉ r.map Prod.fst := by
  induction r with
  | nil => simp
  | cons kv rest ih =>
    obtain ⟨k, s0⟩ := kv
    by_cases hk : k = ch
    · simp [Registrations.get?, hk] at h
    · simp only [Registrations.get?, hk, if_false] at h
      simp only [List.map_cons, List.mem_cons, not_or]
      exact ⟨Ne.symm hk, ih h⟩

theorem Registrations.nodup_put (r : Registrations) (ch : String) (v : ClubSet)
    (h : (r.map Prod.fst).Nodup) : ((r.put ch v).map Prod.fst).Nodup := by
  rw [Registrations.keys_put]
  cases hg : r.get? ch with
  | some w => simpa using h
  | none =>
    have hn := Registrations.not_mem_of_get? r ch hg
    simp only [Option.isSome_none, Bool.false_eq_true, if_false]
    rw [List.nodup_append]
    refine ⟨h, by simp, ?_⟩
    intro a ha hb
    simp only [List.mem_singleton] at hb
    subst hb
    exact hn ha

theorem Registrations.keys_remove_sub (r : Registrations) (ch k : String)
    (h : k ∈ (r.remove ch).map Prod.fst) : k ∈ r.map Prod.fst := by
  obtain ⟨e, he, hk⟩ := List.mem_map.mp h
  exact List.mem_map.mpr ⟨e, Registrations.mem_remove r ch e he, hk⟩

theorem Registrations.nodup_remove (r : Registrations) (ch : String)
    (h : (r.map Prod.fst).Nodup) :
    ((r.remove ch).map Prod.fst).Nodup ∧ (r.remove ch).get? ch = none := by
  induction r with
  | nil => exact ⟨by simp [Registrations.remove], rfl⟩
  | cons kv rest ih =>
    obtain ⟨k, s0⟩ := kv
    simp only [List.map_cons, List.nodup_cons] at h
    by_cases hk : k = ch
    · subst hk
      simp only [Registrations.remove, if_true]
      exact ⟨h.2, Registrations.get?_none_of_not_key rest k h.1⟩
    · obtain ⟨h1, h2⟩ := ih h.2
      simp only [Registrations.remove, hk, if_false, List.map_cons, List.nodup_cons,
        Registrations.get?]
      exact ⟨⟨fun hm => h.1 (Registrations.keys_remove_sub rest ch k hm), h1⟩, h2⟩

theorem Registrations.length_remove (r : Registrations) (ch : String) (v : ClubSet)
    (h : r.get? ch = some v) : (r.remove ch).length + 1 = r.length := by
  induction r with
  | nil => simp [Registrations.get?] at h
  | cons kv rest ih =>
    obtain ⟨k, s0⟩ := kv
    by_cases hk : k = ch
    · simp [Registrations.remove, hk]
    · simp only [Registrations.get?, hk, if_false] at h
      simp [Registrations.remove, hk, ih h]

/-- `registerTeam` adds the text of the id to the set of the channel, a new channel starting
from the empty set, and returns `true`. -/
theorem registerTeam_eq (regs : Registrations) (ch : String) (id : JVal) (text : String)
    (ht : callToString id = .ok text) :
    DataManager.registerTeam regs ch id =
      .ok (true, regs.put ch (((regs.get? ch).getD []).add text)) := by
  cases hg : regs.get? ch with
  | some w =>
    simp [DataManager.registerTeam, ht, hg]
  | none =>
    simp [DataManager.registerTeam, ht, hg, Registrations.get?_put_self,
      Registrations.put_put]

/-- `unregisterTeam` on a channel that has a set: the text of the id is taken out of the set,
and the channel is deleted when its set is left empty. -/
theorem unregisterTeam_eq (regs : Registrations) (ch : String) (id : JVal) (text : String)
    (w : ClubSet) (ht : callToString id = .ok text) (hg : regs.get? ch = some w) :
    DataManager.unregisterTeam regs ch id =
      .ok (decide (text ∈ w),
        if w.delete text = [] then regs.remove ch else regs.put ch (w.delete text)) := by
  by_cases hl : w.delete text = []
  · simp [DataManager.unregisterTeam, ht, hg, hl, Registrations.remove_put_present _ _ _ _ hg]
  · have hlen : ¬ (w.delete text).length = 0 := by
      simpa [List.length_eq_zero] using hl
    simp [DataManager.unregisterTeam, ht, hg, hl, hlen]

theorem ClubSet.add_ne_nil (s : ClubSet) (x : String) : s.add x ≠ [] := by
  unfold ClubSet.add
  split
  · rename_i h
    intro hs
    rw [hs] at h
    simp at h
  · simp

/-- The store invariant: no channel has an empty set and no channel is there twice. -/
theorem apply_invariant (op : RegOp) (regs : Registrations)
    (h : (∀ e ∈ regs, e.2 ≠ []) ∧ (regs.map Prod.fst).Nodup) :
    (∀ e ∈ op.apply regs, e.2 ≠ []) ∧ ((op.apply regs).map Prod.fst).Nodup := by
  cases op with
  | register ch id =>
    cases ht : callToString id with
    | error err => simpa [RegOp.apply, DataManager.registerTeam, ht] using h
    | ok text =>
      simp only [RegOp.apply, registerTeam_eq regs ch id text ht]
      refine ⟨?_, Registrations.nodup_put _ _ _ h.2⟩
      intro e he
      rcases Registrations.mem_put _ _ _ e he with h1 | h1
      · exact h.1 e h1
      · rw [h1]; exact ClubSet.add_ne_nil _ _
  | unregister ch id =>
    cases ht : callToString id with
    | error err => simpa [RegOp.apply, DataManager.unregisterTeam, ht] using h
    | ok text =>
      cases hg : regs.get? ch with
      | none => simpa [RegOp.apply, DataManager.unregisterTeam, ht, hg] using h
      | some w =>
        simp only [RegOp.apply, unregisterTeam_eq regs ch id text w ht hg]
        by_cases hl : w.delete text = []
        · simp only [hl, if_true]
          exact ⟨fun e he => h.1 e (Registrations.mem_remove _ _ e he),
            (Registrations.nodup_remove _ _ h.2).1⟩
        · simp only [hl, if_false]
          refine ⟨?_, Registrations.nodup_put _ _ _ h.2⟩
          intro e he
          rcases Registrations.mem_put _ _ _ e he with h1 | h1
          · exact h.1 e h1
          · rw [h1]; exact hl

theorem runOps_invariant (ops : List RegOp) : ∀ regs : Registrations,
    ((∀ e ∈ regs, e.2 ≠ []) ∧ (regs.map Prod.fst).Nodup) →
    (∀ e ∈ runOps ops regs, e.2 ≠ []) ∧ ((runOps ops regs).map Prod.fst).Nodup := by
  induction ops with
  | nil => intro regs h; exact h
  | cons op rest ih => intro regs h; exact ih _ (apply_invariant op regs h)

/-- C26. Starting from empty registrations, after any sequence of `registerTeam` and
`unregisterTeam` calls no channel is mapped to an empty set; and when `unregisterTeam` takes
the last club out of a channel it returns `true` and deletes the channel, so that
`getChannelClubs` returns the empty list and `totalChannels` counts one channel less. -/
theorem C26_no_empty_channel (ops : List RegOp) :
    (∀ e ∈ runOps ops [], e.2 ≠ []) ∧
    (∀ (ch : String) (id : JVal) (text : String), callToString id = .ok text →
      (runOps ops []).get? ch = some [text] →
      DataManager.unregisterTeam (runOps ops []) ch id = .ok (true, (runOps ops []).remove ch) ∧
      DataManager.getChannelClubs ((runOps ops []).remove ch) ch = [] ∧
      DataManager.totalChannels ((runOps ops []).remove ch) + 1
        = DataManager.totalChannels (runOps ops [])) := by
  have hinv := runOps_invariant ops [] ⟨by simp, by simp⟩
  refine ⟨hinv.1, ?_⟩
  intro ch id text ht hg
  have hd : ClubSet.delete [text] text = [] := by simp [ClubSet.delete]
  refine ⟨?_, ?_, ?_⟩
  · rw [unregisterTeam_eq _ ch id text [text] ht hg, hd]
    simp
  · simp [DataManager.getChannelClubs, (Registrations.nodup_remove _ ch hinv.2).2]
  · exact Registrations.length_remove _ ch _ hg

/-- C26 on the calls register("c1", 5), register("c1", "7"), unregister("c1", 5),
unregister("c1", 7): the store is empty again, no channel is left with an empty set. -/
theorem C26_no_empty_channel_witness :
    runOps [.register "c1" (.num 5), .register "c1" (.str "7"), .unregister "c1" (.num 5)] []
      = [("c1", ["7"])] ∧
    DataManager.unregisterTeam [("c1", ["7"])] "c1" (.num 7) = .ok (true, []) ∧
    ∀ e ∈ runOps [.register "c1" (.num 5), .register "c1" (.str "7"),
      .unregister "c1" (.num 5), .unregister "c1" (.num 7)] [], e.2 ≠ [] :=
  ⟨rfl, rfl, (C26_no_empty_channel [.register "c1" (.num 5), .register "c1" (.str "7"),
      .unregister "c1" (.num 5), .unregister "c1" (.num 7)]).1⟩

theorem ClubSet.delete_not_mem (s : ClubSet) (x : String) (h : x ∉ s) : s.delete x = s := by
  unfold ClubSet.delete
  rw [List.filter_eq_self]
  intro a ha
  have : a ≠ x := fun hax => h (hax ▸ ha)
  simpa using this

/-- C30. Register/unregister round trip: in a store where no channel has an empty set, for a
channel and a club id (any value with a text, ids being compared by their text) that is not
registered there, `registerTeam` returns `true` and `unregisterTeam` after it, with any id of
the same text, returns `true` and restores the registrations exactly; and registering a club
that is already registered changes nothing. -/
theorem C30_register_unregister_round_trip (regs : Registrations) (ch : String) (id : JVal)
    (text : String) (hne : ∀ e ∈ regs, e.2 ≠ []) (ht : callToString id = .ok text)
    (hnot : DataManager.isTeamRegistered regs ch id = .ok false) :
    ∃ regs1, DataManager.registerTeam regs ch id = .ok (true, regs1) ∧
      DataManager.isTeamRegistered regs1 ch id = .ok true ∧
      (∀ id' : JVal, callToString id' = .ok text →
        DataManager.unregisterTeam regs1 ch id' = .ok (true, regs)) ∧
      (∀ id' : JVal, callToString id' = .ok text →
        DataManager.registerTeam regs1 ch id' = .ok (true, regs1)) := by
  refine ⟨_, registerTeam_eq regs ch id text ht, ?_, ?_, ?_⟩
  · simp [DataManager.isTeamRegistered, ht, Registrations.get?_put_self, ClubSet.add]
    split <;> simp_all
  · intro id' ht'
    cases hg : regs.get? ch with
    | none =>
      have hd : ClubSet.delete (ClubSet.add [] text) text = [] := by
        simp [ClubSet.add, ClubSet.delete]
      rw [unregisterTeam_eq _ ch id' text _ ht' (Registrations.get?_put_self _ _ _)]
      simp only [Option.getD_none, hd, if_true]
      rw [Registrations.remove_put_absent regs ch _ hg]
      simp [ClubSet.add]
    | some w =>
      have hmem : text ∉ w := by
        simpa [DataManager.isTeamRegistered, ht, hg] using hnot
      have hw : w ≠ [] := hne (ch, w) (Registrations.mem_of_get? regs ch w hg)
      have hadd : ClubSet.add w text = w ++ [text] := by simp [ClubSet.add, hmem]
      have hd : ClubSet.delete (w ++ [text]) text = w := by
        simp only [ClubSet.delete, List.filter_append]
        have h1 : ∀ a ∈ w, ¬ a = text := fun a ha hax => hmem (hax ▸ ha)
        simpa using h1
      rw [unregisterTeam_eq _ ch id' text _ ht' (Registrations.get?_put_self _ _ _)]
      simp only [Option.getD_some, hadd, hd, hw, if_false, Registrations.put_put]
      rw [Registrations.put_get regs ch w hg]
      simp
  · intro id' ht'
    rw [registerTeam_eq _ ch id' text ht', Registrations.get?_put_self]
    simp only [Option.getD_some, Registrations.put_put]
    have : ClubSet.add (ClubSet.add ((regs.get? ch).getD []) text) text
        = ClubSet.add ((regs.get? ch).getD []) text := by
      simp only [ClubSet.add]
      split <;> simp_all
    rw [this]

/-- C30 on the store with channel "c1" following club "5": registering club 7 there and
unregistering "7" restores the store, and so does a new channel "c2". -/
theorem C30_register_unregister_round_trip_witness :
    DataManager.isTeamRegistered [("c1", ["5"])] "c1" (.num 7) = .ok false ∧
    (∃ regs1, DataManager.registerTeam [("c1", ["5"])] "c1" (.num 7) = .ok (true, regs1) ∧
      DataManager.isTeamRegistered regs1 "c1" (.num 7) = .ok true ∧
      (∀ id' : JVal, callToString id' = .ok "7" →
        DataManager.unregisterTeam regs1 "c1" id' = .ok (true, [("c1", ["5"])])) ∧
      (∀ id' : JVal, callToString id' = .ok "7" →
        DataManager.registerTeam regs1 "c1" id' = .ok (true, regs1))) ∧
    DataManager.registerTeam [("c1", ["5"])] "c2" (.str "7")
      = .ok (true, [("c1", ["5"]), ("c2", ["7"])]) ∧
    DataManager.unregisterTeam [("c1", ["5"]), ("c2", ["7"])] "c2" (.num 7)
      = .ok (true, [("c1", ["5"])]) :=
  ⟨rfl, C30_register_unregister_round_trip [("c1", ["5"])] "c1" (.num 7) "7" (by simp) rfl rfl,
    rfl, rfl⟩

/-! ## Loading and downloading call each other -/

theorem loadMappingsWith_caught (env : Env) (onCatch : Sys → Option (Run Sys)) (s : Sys)
    (doc : JVal) (hd : s.disk = some doc)
    (h : (loadMappingsTry env.newDate doc s.mm).thrown ≠ none) :
    loadMappingsWith env onCatch s =
      onCatch { s with mm := (loadMappingsTry env.newDate doc s.mm).state } := by
  cases ht : (loadMappingsTry env.newDate doc s.mm).thrown with
  | none => exact absurd ht h
  | some e => simp [loadMappingsWith, hd, ht]

theorem loadMappingsWith_done (env : Env) (onCatch : Sys → Option (Run Sys)) (s : Sys)
    (doc : JVal) (hd : s.disk = some doc)
    (h : (loadMappingsTry env.newDate doc s.mm).thrown = none) :
    loadMappingsWith env onCatch s =
      some ⟨none, { s with mm := (loadMappingsTry env.newDate doc s.mm).state }⟩ := by
  simp [loadMappingsWith, hd, h]

/-- The reload of the downloaded poisoned pack throws, whatever the manager held. -/
theorem poisoned_reload_throws (newDate : JVal → JDate) (stamp : String) (mm : MappingManager) :
    (loadMappingsTry newDate (jsonClone (withMeta poisonedPack stamp)) mm).thrown ≠ none := by
  rw [jsonClone_withMeta poisonedPack stamp rfl,
    (loadMappingsTry_withMeta newDate poisonedPack stamp mm rfl).1]
  exact fun h => nomatch h

/-- The reload of the downloaded concrete scenario completes, whatever the manager held. -/
theorem scenario_reload_completes (newDate : JVal → JDate) (stamp : String)
    (mm : MappingManager) :
    (loadMappingsTry newDate (jsonClone (withMeta scenarioPack stamp)) mm).thrown = none := by
  rw [jsonClone_withMeta scenarioPack stamp rfl,
    (loadMappingsTry_withMeta newDate scenarioPack stamp mm rfl).1]
  rfl

/-- One download of the poisoned pack: the snapshot is written, its reload throws, and the
`catch` block of `loadMappings` calls `updateMappings` again. -/
theorem updateMappings_poisoned_step (f : Nat → Except JsError JVal) (fuel : Nat) (s : Sys)
    (h : f s.fetches = .ok poisonedPack) :
    ∃ s' : Sys, s'.fetches = s.fetches + 1 ∧ s'.writes = s.writes + 1 ∧
      updateMappings (envOf f) (fuel + 1) s = updateMappings (envOf f) fuel s' := by
  have hstep := loadMappingsWith_caught (envOf f) (fun s' => updateMappings (envOf f) fuel s')
    (s.fetched.ticked.written
      (withMeta poisonedPack ((envOf f).toISOString ((envOf f).clock s.ticks)))) _ rfl
    (poisoned_reload_throws _ _ _)
  exact ⟨_, rfl, rfl, (updateMappings_reload (envOf f) fuel s poisonedPack h rfl).trans hstep⟩

/-- One download of the concrete scenario: the snapshot is written and its reload
completes. -/
theorem updateMappings_scenario_step (f : Nat → Except JsError JVal) (fuel : Nat) (s : Sys)
    (h : f s.fetches = .ok scenarioPack) :
    ∃ s' : Sys, s'.fetches = s.fetches + 1 ∧ s'.writes = s.writes + 1 ∧
      updateMappings (envOf f) (fuel + 1) s = some ⟨none, s'⟩ := by
  have hstep := loadMappingsWith_done (envOf f) (fun s' => updateMappings (envOf f) fuel s')
    (s.fetched.ticked.written
      (withMeta scenarioPack ((envOf f).toISOString ((envOf f).clock s.ticks)))) _ rfl
    (scenario_reload_completes _ _ _)
  exact ⟨_, rfl, rfl, (updateMappings_reload (envOf f) fuel s scenarioPack h rfl).trans hstep⟩

theorem updateMappings_stuck (fuel : Nat) : ∀ s : Sys, updateMappings stuckEnv fuel s = none := by
  induction fuel with
  | zero => intro s; rfl
  | succ fuel ih =>
    intro s
    obtain ⟨s', -, -, h⟩ := updateMappings_poisoned_step (fun _ => .ok poisonedPack) fuel s rfl
    exact h.trans (ih s')

theorem updateMappings_poisonedFor (n : Nat) : ∀ (k : Nat) (s : Sys), s.fetches + k = n →
    ∃ s' : Sys, s'.fetches = n + 1 ∧ s'.writes = s.writes + k + 1 ∧
      updateMappings (poisonedFor n) (k + 1) s = some ⟨none, s'⟩ := by
  intro k
  induction k with
  | zero =>
    intro s hs
    obtain ⟨s', h1, h2, h3⟩ := updateMappings_scenario_step
      (fun k => if k < n then .ok poisonedPack else .ok scenarioPack) 0 s
      (by simp only [Nat.add_zero] at hs; simp [hs])
    exact ⟨s', by omega, by omega, h3⟩
  | succ k ih =>
    intro s hs
    obtain ⟨s', h1, h2, h3⟩ := updateMappings_poisoned_step
      (fun k => if k < n then .ok poisonedPack else .ok scenarioPack) (k + 1) s
      (by have : s.fetches < n := by omega
          simp [this])
    obtain ⟨s'', g1, g2, g3⟩ := ih s' (by omega)
    exact ⟨s'', g1, by omega, h3.trans g3⟩

/-- C27, the failing inputs. With no snapshot file and a remote source that serves a pack
with a `null` club record at every request, `loadMappings` does not finish: the reload inside
each update throws and the `catch` block starts the next download, at every depth of calls,
and so does `forceUpdate` from any state. With a remote source that serves that pack `n`
times and then a good one, `loadMappings` finishes without an error after `n + 1` downloads
and `n + 1` snapshot writes. -/
theorem C27_reload_restarts_download :
    (∀ (fuel : Nat) (s : Sys), s.disk = none → loadMappings stuckEnv fuel s = none) ∧
    (∀ (fuel : Nat) (s : Sys), forceUpdate stuckEnv fuel s = none) ∧
    (∀ n : Nat, ∃ s' : Sys, loadMappings (poisonedFor n) (n + 1) coldSys = some ⟨none, s'⟩ ∧
      s'.fetches = n + 1 ∧ s'.writes = n + 1) ∧
    (loadMappings (poisonedFor 2) 3 coldSys).map (fun r => (r.state.fetches, r.state.writes))
      = some (3, 3) := by
  refine ⟨?_, ?_, ?_, rfl⟩
  · intro fuel s hd
    simp only [loadMappings, loadMappingsWith, hd]
    exact updateMappings_stuck fuel s
  · intro fuel s
    exact updateMappings_stuck fuel s
  · intro n
    obtain ⟨s', h1, h2, h3⟩ := updateMappings_poisonedFor n n coldSys (by simp [coldSys])
    refine ⟨s', ?_, h1, by simpa [coldSys] using h2⟩
    simpa [loadMappings, loadMappingsWith, coldSys] using h3

/-- C27 on the cold system: no depth of calls is enough for `loadMappings` to finish. -/
theorem C27_reload_restarts_download_witness : loadMappings stuckEnv 100 coldSys = none :=
  C27_reload_restarts_download.1 100 coldSys rfl

/-! ## What the tables hold -/

theorem mem_set (m : JMap) (k v : JVal) (kv : JVal × JVal) (h : kv ∈ m.set k v) :
    kv ∈ m ∨ kv.2 = v := by
  induction m with
  | nil =>
    simp only [JMap.set, List.mem_singleton] at h
    exact Or.inr (by rw [h])
  | cons e rest ih =>
    obtain ⟨k0, v0⟩ := e
    cases hk : sameValueZero k0 k with
    | true =>
      simp only [JMap.set, hk, if_true, List.mem_cons] at h
      rcases h with h1 | h1
      · exact Or.inr (by rw [h1])
      · exact Or.inl (List.mem_cons_of_mem _ h1)
    | false =>
      have hset : JMap.set ((k0, v0) :: rest) k v = (k0, v0) :: JMap.set rest k v := by
        simp [JMap.set, hk]
      rw [hset, List.mem_cons] at h
      rcases h with h1 | h1
      · exact Or.inl (by rw [h1]; exact List.mem_cons_self _ _)
      · rcases ih h1 with h2 | h2
        · exact Or.inl (List.mem_cons_of_mem _ h2)
        · exact Or.inr h2

/-- A property of every value the loop body stores holds of every value in the table after
the loop, whether the loop completes or throws. -/
theorem forOf_values (P : JVal → Prop) (body : JVal → Effect) (xs : List JVal)
    (hbody : ∀ x ∈ xs, ∀ k v, (body x).entry = some (k, v) → P v) :
    ∀ m : JMap, (∀ kv ∈ m, P kv.2) → ∀ kv ∈ (forOf body xs m).state, P kv.2 := by
  induction xs with
  | nil => intro m hm; simpa [forOf] using hm
  | cons x rest ih =>
    intro m hm
    have happ : ∀ kv ∈ (body x).apply m, P kv.2 := by
      intro kv hkv
      unfold Effect.apply at hkv
      cases he : (body x).entry with
      | none => rw [he] at hkv; exact hm kv hkv
      | some e =>
        obtain ⟨k, v⟩ := e
        rw [he] at hkv
        rcases mem_set m k v kv hkv with h | h
        · exact hm kv h
        · rw [h]; exact hbody x (by simp) k v he
    rw [forOf_cons]
    cases ht : (body x).thrown with
    | some e => exact happ
    | none => exact ih (fun y hy => hbody y (by simp [hy])) _ happ

theorem loadTable_values (P : JVal → Prop) (body : JVal → Effect) (field : String) (data : JVal)
    (hbody : ∀ x ∈ arrayElems (propOr data field), ∀ k v, (body x).entry = some (k, v) → P v) :
    ∀ kv ∈ (loadTable body field data).state, P kv.2 := by
  unfold loadTable
  split
  · cases hg : getProp data field with
    | error e => simp
    | ok list =>
      have hp : propOr data field = list := propOr_of_getProp hg
      rw [hp] at hbody
      simp only
      split
      · exact forOf_values P body _ hbody [] (by simp)
      · simp
  · simp

theorem has_get_truthy (m : JMap) (k : JVal) (hm : ∀ kv ∈ m, truthy kv.2 = true)
    (h : m.has k = true) : truthy (m.get k) = true := by
  induction m with
  | nil => simp [JMap.has] at h
  | cons e rest ih =>
    obtain ⟨k0, v0⟩ := e
    by_cases hk : sameValueZero k0 k = true
    · simp only [JMap.get, hk, if_true]
      exact hm (k0, v0) (by simp)
    · simp only [JMap.has, hk, Bool.false_or] at h
      simp only [JMap.get, hk]
      exact ih (fun kv hkv => hm kv (by simp [hkv])) h

theorem clubRecord_entry (x k v : JVal) (h : clubRecord x = .ok (some (k, v))) :
    truthy v = true ∧ getProp x "n" = .ok v := by
  unfold clubRecord at h
  cases h1 : getProp x "id" with
  | error e => simp [h1, bind, Except.bind] at h
  | ok id =>
    cases h2 : getProp x "n" with
    | error e => by_cases hid : truthy id = true <;>
        simp [h1, h2, hid, bind, Except.bind, pure, Except.pure] at h
    | ok n =>
      cases h3 : parseInt id with
      | error e => by_cases hid : truthy id = true <;> by_cases hn : truthy n = true <;>
          simp [h1, h2, h3, hid, hn, bind, Except.bind, pure, Except.pure] at h
      | ok key =>
        by_cases hid : truthy id = true <;> by_cases hn : truthy n = true <;>
          simp [h1, h2, h3, hid, hn, bind, Except.bind, pure, Except.pure] at h
        rw [← h.2]; exact ⟨hn, rfl⟩

theorem stadiumRecord_entry (x k v : JVal) (h : stadiumRecord x = .ok (some (k, v))) :
    truthy v = true := by
  unfold stadiumRecord at h
  cases h1 : getProp x "id" with
  | error e => simp [h1, bind, Except.bind] at h
  | ok id =>
    cases h2 : getProp x "n" with
    | error e => by_cases hid : truthy id = true <;>
        simp [h1, h2, hid, bind, Except.bind, pure, Except.pure] at h
    | ok n =>
      cases h3 : parseInt id with
      | error e => by_cases hid : truthy id = true <;> by_cases hn : truthy n = true <;>
          simp [h1, h2, h3, hid, hn, bind, Except.bind, pure, Except.pure] at h
      | ok key =>
        by_cases hid : truthy id = true <;> by_cases hn : truthy n = true <;>
          simp [h1, h2, h3, hid, hn, bind, Except.bind, pure, Except.pure] at h
        rw [← h.2]; exact hn

theorem cupRecord_entry (x k v : JVal) (h : cupRecord x = .ok (some (k, v))) :
    truthy v = true := by
  unfold cupRecord at h
  cases h1 : getProp x "id" with
  | error e => simp [h1, bind, Except.bind] at h
  | ok id =>
    cases h2 : getProp x "n" with
    | error e => by_cases hid : truthy id = true <;>
        simp [h1, h2, hid, bind, Except.bind, pure, Except.pure] at h
    | ok n =>
      by_cases hid : truthy id = true <;> by_cases hn : truthy n = true <;>
        simp [h1, h2, hid, hn, bind, Except.bind, pure, Except.pure] at h
      rw [← h.2]; exact hn

theorem leagueRecord_entry (x k v : JVal) (h : leagueRecord x = .ok (some (k, v))) :
    truthy v = true := by
  unfold leagueRecord at h
  cases h1 : getProp x "c" with
  | error e => simp [h1, bind, Except.bind] at h
  | ok c =>
    by_cases hc : truthy c = true
    · cases h2 : getProp x "d" with
      | error e => simp [h1, h2, hc, bind, Except.bind] at h
      | ok d =>
        by_cases hd : truthy d = true
        · cases h3 : getProp x "n" with
          | error e => simp [h1, h2, h3, hc, hd, bind, Except.bind] at h
          | ok n =>
            by_cases hn : truthy n = true
            · cases h4 : toChars c with
              | error e => simp [h1, h2, h3, h4, hc, hd, hn, bind, Except.bind] at h
              | ok cs =>
                cases h5 : toChars d with
                | error e => simp [h1, h2, h3, h4, h5, hc, hd, hn, bind, Except.bind] at h
                | ok ds =>
                  simp [h1, h2, h3, h4, h5, hc, hd, hn, bind, Except.bind, pure,
                    Except.pure] at h
                  rw [← h.2]; exact hn
            · simp [h1, h2, h3, hc, hd, hn, bind, Except.bind, pure, Except.pure] at h
        · simp [h1, h2, hc, hd, bind, Except.bind, pure, Except.pure] at h
    · simp [h1, hc, bind, Except.bind, pure, Except.pure] at h

theorem playerRecord_entry (x k v : JVal) (h : playerRecord x = .ok (some (k, v))) :
    ∃ t : String, v = .str t ∧ t ≠ "" := by
  unfold playerRecord at h
  cases h1 : getProp x "id" with
  | error e => simp [h1, bind, Except.bind] at h
  | ok id =>
    by_cases hid : truthy id = true
    · cases h2 : getProp x "f" with
      | error e => simp [h1, h2, hid, bind, Except.bind] at h
      | ok f =>
        cases h3 : getProp x "s" with
        | error e => simp [h1, h2, h3, hid, bind, Except.bind] at h
        | ok l =>
          by_cases hfs : (truthy f || truthy l) = true
          · cases h4 : parseInt id with
            | error e => simp [h1, h2, h3, h4, hid, hfs, bind, Except.bind] at h
            | ok key =>
              cases h5 : toChars (jsOr f (.str "")) with
              | error e => simp [h1, h2, h3, h4, h5, hid, hfs, bind, Except.bind] at h
              | ok first =>
                cases h6 : toChars (jsOr l (.str "")) with
                | error e => simp [h1, h2, h3, h4, h5, h6, hid, hfs, bind, Except.bind] at h
                | ok last =>
                  by_cases hne : jsTrim (first ++ ' ' :: last) = []
                  · simp [h1, h2, h3, h4, h5, h6, hid, hfs, hne, bind, Except.bind, pure,
                      Except.pure] at h
                  · simp [h1, h2, h3, h4, h5, h6, hid, hfs, hne, bind, Except.bind, pure,
                      Except.pure] at h
                    refine ⟨_, h.2.symm, ?_⟩
                    intro hs
                    exact hne (congrArg String.data hs)
          · simp [h1, h2, h3, hid, hfs, bind, Except.bind, pure, Except.pure] at h
    · simp [h1, hid, bind, Except.bind, pure, Except.pure] at h

theorem ofExcept_entry (r : Except JsError (Option (JVal × JVal))) (e : JVal × JVal)
    (h : (Effect.ofExcept r).entry = some e) : r = .ok (some e) := by
  cases r with
  | error err => simp [Effect.ofExcept] at h
  | ok o => simp only [Effect.ofExcept] at h; rw [h]

/-- Every loop body stores a truthy value only. -/
theorem body_entry_truthy (e : Entity) (x k v : JVal) (h : (e.body x).entry = some (k, v)) :
    truthy v = true := by
  cases e with
  | club => exact (clubRecord_entry x k v (ofExcept_entry _ _ h)).1
  | player =>
    obtain ⟨t, ht, hne⟩ := playerRecord_entry x k v (ofExcept_entry _ _ h)
    rw [ht]; exact (truthy_str t).mpr hne
  | league =>
    simp only [Entity.body, leagueEffect] at h
    cases hr : leagueRecord x with
    | error err => rw [hr] at h; simp at h
    | ok o =>
      cases o with
      | none => rw [hr] at h; simp at h
      | some kn =>
        obtain ⟨k0, n⟩ := kn
        rw [hr] at h
        have hn := leagueRecord_entry x k0 n hr
        cases hc : toChars n with
        | error err => simp [hc] at h; rw [← h.2]; exact hn
        | ok cs => simp [hc] at h; rw [← h.2]; exact hn
  | stadium => exact stadiumRecord_entry x k v (ofExcept_entry _ _ h)
  | cup => exact cupRecord_entry x k v (ofExcept_entry _ _ h)

theorem searchLoop_ok (toLowerCase : String → String) (searchLower : String) (limit : Int)
    (table : JMap) (hnames : ∀ e ∈ table, ∃ name, e.2 = JVal.str name) :
    ∀ results : List (JVal × String),
      ∃ rs, searchLoop toLowerCase searchLower limit table results = .ok rs := by
  induction table with
  | nil => intro results; exact ⟨results, rfl⟩
  | cons e rest ih =>
    intro results
    obtain ⟨k, v⟩ := e
    obtain ⟨name, hname⟩ := hnames (k, v) (by simp)
    simp only at hname
    subst hname
    have ih' := ih (fun e he => hnames e (by simp [he]))
    simp only [searchLoop]
    split
    · split
      · exact ⟨_, rfl⟩
      · exact ih' _
    · exact ih' _

/-- C28, as stated, fails: a club record with the id "1" and the number 5 as its name is
stored as it is, the club table holds the number 5, and `searchClubs` throws on it; the league,
stadium and cup loaders store the number as well. -/
theorem C28_number_name_is_stored :
    (loadClubs (numberNameData "C") MappingManager.fresh).thrown = none ∧
    (loadClubs (numberNameData "C") MappingManager.fresh).state.clubNames
      = [(.num 1, .num 5)] ∧
    searchClubs asciiLower (loadClubs (numberNameData "C") MappingManager.fresh).state
      (.str "a") none = .error (.typeError "clubName.toLowerCase is not a function") ∧
    (loadLeagues (numberNameData "L") MappingManager.fresh).state.leagueNames
      = [(.str "CHE_1", .num 5)] ∧
    (loadStadiums (numberNameData "S") MappingManager.fresh).state.stadiumNames
      = [(.num 1, .num 5)] ∧
    (loadCups (numberNameData "C") MappingManager.fresh).state.cupNames
      = [(.str "1", .num 5)] :=
  ⟨rfl, rfl, rfl, rfl, rfl, rfl⟩

/-- C28, amended. For every sub-table and every loader, every value the loader leaves in its
table is truthy, so a stored text is never empty, and in the player table every value is a
non-empty text; a club name is the `n` of a record of the list, as it is. Hence a lookup under
a key the table has returns the stored value, never the fallback; and `searchClubs` on a text
returns without an error when every truthy `n` of the club list is a text. -/
theorem C28_stored_values_truthy (e : Entity) (sub : JVal) (mm : MappingManager) :
    (∀ kv ∈ e.table (e.loader sub mm).state,
      truthy kv.2 = true ∧ ∀ t : String, kv.2 = .str t → t ≠ "") ∧
    (∀ kv ∈ (loadPlayers sub mm).state.playerNames, ∃ t : String, kv.2 = .str t ∧ t ≠ "") ∧
    (∀ kv ∈ (loadClubs sub mm).state.clubNames,
      ∃ x ∈ arrayElems (propOr sub "C"), getProp x "n" = .ok kv.2) ∧
    (∀ id key, parseInt id = .ok key → (loadClubs sub mm).state.clubNames.has key = true →
      getClubName (loadClubs sub mm).state id
        = .ok ((loadClubs sub mm).state.clubNames.get key)) ∧
    (∀ id key, parseInt id = .ok key → (loadPlayers sub mm).state.playerNames.has key = true →
      getPlayerName (loadPlayers sub mm).state id
        = .ok ((loadPlayers sub mm).state.playerNames.get key)) ∧
    (∀ c d next cs ds, toChars c = .ok cs → addOne d = .ok next → toChars next = .ok ds →
      (loadLeagues sub mm).state.leagueNames.has (.str (String.mk (cs ++ '_' :: ds))) = true →
      getLeagueNameByCountryDivision (loadLeagues sub mm).state c d
        = .ok ((loadLeagues sub mm).state.leagueNames.get
            (.str (String.mk (cs ++ '_' :: ds))))) ∧
    (∀ id key, parseInt id = .ok key → (loadStadiums sub mm).state.stadiumNames.has key = true →
      getStadiumName (loadStadiums sub mm).state id
        = .ok ((loadStadiums sub mm).state.stadiumNames.get key)) ∧
    (∀ id, (loadCups sub mm).state.cupNames.has id = true →
      getCupName (loadCups sub mm).state id = .ok ((loadCups sub mm).state.cupNames.get id)) ∧
    ((∀ x ∈ arrayElems (propOr sub "C"), ∀ v, getProp x "n" = .ok v → truthy v = true →
        ∃ t : String, v = .str t) →
      ∀ (toLowerCase : String → String) (term : String) (limit : Option Int),
        ∃ rs, searchClubs toLowerCase (loadClubs sub mm).state (.str term) limit = .ok rs) := by
  have htruthy : ∀ e : Entity, ∀ kv ∈ e.table (e.loader sub mm).state, truthy kv.2 = true := by
    intro e
    rw [(loader_eq e sub mm).2]
    exact loadTable_values (fun v => truthy v = true) e.body e.listField sub
      (fun x _ k v h => body_entry_truthy e x k v h)
  have hfrom : ∀ kv ∈ (loadClubs sub mm).state.clubNames,
      ∃ x ∈ arrayElems (propOr sub "C"), getProp x "n" = .ok kv.2 :=
    loadTable_values (fun v => ∃ x ∈ arrayElems (propOr sub "C"), getProp x "n" = .ok v)
      (fun x => Effect.ofExcept (clubRecord x)) "C" sub
      (fun x hx k v h => ⟨x, hx, (clubRecord_entry x k v (ofExcept_entry _ _ h)).2⟩)
  refine ⟨?_, ?_, hfrom, ?_, ?_, ?_, ?_, ?_, ?_⟩
  · intro kv hkv
    refine ⟨htruthy e kv hkv, ?_⟩
    intro t ht
    have h := htruthy e kv hkv
    rw [ht] at h
    exact (truthy_str t).mp h
  · exact loadTable_values (fun v => ∃ t : String, v = .str t ∧ t ≠ "")
      (fun x => Effect.ofExcept (playerRecord x)) "P" sub
      (fun x _ k v h => playerRecord_entry x k v (ofExcept_entry _ _ h))
  · intro id key hkey hhas
    exact getClubName_found _ id key hkey (has_get_truthy _ key (htruthy .club) hhas)
  · intro id key hkey hhas
    have hf : truthy ((loadPlayers sub mm).state.playerNames.get key) = true :=
      has_get_truthy _ key (htruthy .player) hhas
    simp [getPlayerName, hkey, hf, bind, Except.bind, pure, Except.pure]
  · intro c d next cs ds hc hd hds hhas
    have hf : truthy ((loadLeagues sub mm).state.leagueNames.get
        (.str (String.mk (cs ++ '_' :: ds)))) = true :=
      has_get_truthy _ _ (htruthy .league) hhas
    simp [getLeagueNameByCountryDivision, hc, hd, hds, hf, bind, Except.bind, pure,
      Except.pure]
  · intro id key hkey hhas
    have hf : truthy ((loadStadiums sub mm).state.stadiumNames.get key) = true :=
      has_get_truthy _ key (htruthy .stadium) hhas
    simp [getStadiumName, hkey, hf, bind, Except.bind, pure, Except.pure]
  · intro id hhas
    have hf : truthy ((loadCups sub mm).state.cupNames.get id) = true :=
      has_get_truthy _ id (htruthy .cup) hhas
    simp [getCupName, hf, bind, Except.bind, pure, Except.pure]
  · intro htext toLowerCase term limit
    have hnames : ∀ kv ∈ (loadClubs sub mm).state.clubNames, ∃ name, kv.2 = JVal.str name := by
      intro kv hkv
      obtain ⟨x, hx, hn⟩ := hfrom kv hkv
      exact htext x hx kv.2 hn (htruthy .club kv hkv)
    exact searchLoop_ok toLowerCase _ _ _ hnames []

/-- C28 (amended) on the club sub-table of the concrete scenario: the lookup of club 2180
returns the stored name and a search for "test" returns. -/
theorem C28_stored_values_truthy_witness :
    getClubName (loadClubs (propOr (propOr scenarioPack "PackData") "ClubData")
      MappingManager.fresh).state (.num 2180) = .ok (.str "FC Test") ∧
    ∃ rs, searchClubs asciiLower (loadClubs (propOr (propOr scenarioPack "PackData") "ClubData")
      MappingManager.fresh).state (.str "test") none = .ok rs :=
  have h := C28_stored_values_truthy .club (propOr (propOr scenarioPack "PackData") "ClubData")
    MappingManager.fresh
  ⟨h.2.2.2.1 (.num 2180) (.num 2180) rfl rfl,
    h.2.2.2.2.2.2.2.2 (by
      intro x hx v hv _
      have hx' : x = .obj [("id", .str "2180"), ("n", .str "FC Test")] := by
        simpa [arrayElems, propOr, getProp, scenarioPack, lookupProp] using hx
      subst hx'
      exact ⟨"FC Test", (Except.ok.inj hv).symm⟩) asciiLower "test" none⟩

/-! ## Overlapping updates -/

theorem runSolo_add (env : Env) (a b : Nat) : ∀ c : Task × Sys,
    runSolo env (a + b) c = runSolo env b (runSolo env a c) := by
  induction a with
  | zero => intro c; simp [runSolo]
  | succ a ih =>
    intro c
    rw [Nat.succ_add]
    simp only [runSolo]
    exact ih _

/-- The steps of one task alone are the method `updateMappings`: a run of the method that ends
is reached by the task in finitely many steps, with the same error and the same state. -/
theorem runSolo_updateMappings (env : Env) (fuel : Nat) : ∀ (s : Sys) (r : Run Sys),
    updateMappings env fuel s = some r →
    ∃ n, runSolo env n (Task.invoke s) = (.done r.thrown, r.state) := by
  induction fuel with
  | zero => intro s r h; simp [updateMappings] at h
  | succ fuel ih =>
    intro s r h
    cases hf : env.remote s.fetches with
    | error e =>
      rw [updateMappings_fetch_error env fuel s e hf, Option.some.injEq] at h
      subst h
      exact ⟨1, by simp [runSolo, Task.invoke, Task.resume, hf]⟩
    | ok data =>
      cases hw : env.writeError s.writes with
      | some e =>
        rw [updateMappings_write_error env fuel s data e hf hw, Option.some.injEq] at h
        subst h
        refine ⟨2, ?_⟩
        simp [runSolo, Task.invoke, Task.resume, hf, hw, Sys.fetched, Sys.ticked,
          Sys.writeFailed]
      | none =>
        rw [updateMappings_reload env fuel s data hf hw] at h
        have h3 : runSolo env 3 (Task.invoke s) =
            Task.resume env .reading (s.fetched.ticked.written
              (withMeta data (env.toISOString (env.clock s.ticks)))) := by
          simp [runSolo, Task.invoke, Task.resume, hf, hw, Sys.fetched, Sys.ticked,
            Sys.written]
        cases ht : (loadMappingsTry env.newDate
            (jsonClone (withMeta data (env.toISOString (env.clock s.ticks))))
            s.fetched.ticked.mm).thrown with
        | none =>
          have hdone := loadMappingsWith_done env (fun s' => updateMappings env fuel s')
            (s.fetched.ticked.written (withMeta data (env.toISOString (env.clock s.ticks))))
            (jsonClone (withMeta data (env.toISOString (env.clock s.ticks)))) rfl ht
          rw [hdone, Option.some.injEq] at h
          subst h
          refine ⟨3, ?_⟩
          rw [h3]
          simp only [Task.resume, Sys.written, ht]
        | some e =>
          have hcaught := loadMappingsWith_caught env (fun s' => updateMappings env fuel s')
            (s.fetched.ticked.written (withMeta data (env.toISOString (env.clock s.ticks))))
            (jsonClone (withMeta data (env.toISOString (env.clock s.ticks)))) rfl
            (fun hnone => Option.some_ne_none e (ht.symm.trans hnone))
          rw [hcaught] at h
          obtain ⟨n, hn⟩ := ih _ r h
          refine ⟨3 + n, ?_⟩
          rw [runSolo_add, h3, ← hn]
          simp only [Task.resume, Sys.written, ht]

theorem resume_fetches (env : Env) (t : Task) (s : Sys) :
    s.fetches ≤ (Task.resume env t s).2.fetches := by
  cases t with
  | fetching req =>
    simp only [Task.resume]
    split
    · exact Nat.le_refl _
    · exact Nat.le_refl _
  | writing w doc =>
    simp only [Task.resume]
    split
    · exact Nat.le_refl _
    · exact Nat.le_refl _
  | reading =>
    simp only [Task.resume]
    split
    · exact Nat.le_succ _
    · split
      · exact Nat.le_refl _
      · exact Nat.le_succ _
  | done r => exact Nat.le_refl _

theorem resume_credit (env : Env) (t : Task) (s : Sys) :
    (Task.resume env t s).1.credit + s.writes ≤ (Task.resume env t s).2.writes + t.credit := by
  cases t with
  | fetching req =>
    simp only [Task.resume]
    split
    · simp [Task.credit]
    · simp only [Task.credit, Sys.ticked]
      omega
  | writing w doc =>
    simp only [Task.resume]
    split
    · simp [Task.credit]
    · simp only [Task.credit]
      omega
  | reading =>
    simp only [Task.resume]
    split
    · simp [Task.invoke, Sys.fetched, Task.credit]
    · split
      · simp only [Task.credit]
        omega
      · simp [Task.invoke, Sys.fetched, Task.credit]
  | done r =>
    simp only [Task.resume]
    omega

theorem runSolo_bounds (env : Env) (n : Nat) : ∀ (c : Task × Sys) (f w : Nat),
    f ≤ c.2.fetches → w + c.1.credit ≤ c.2.writes →
    f ≤ (runSolo env n c).2.fetches ∧ w + (runSolo env n c).1.credit ≤ (runSolo env n c).2.writes
    := by
  induction n with
  | zero => intro c f w hf hw; exact ⟨hf, hw⟩
  | succ n ih =>
    intro c f w hf hw
    simp only [runSolo]
    have h1 := resume_fetches env c.1 c.2
    have h2 := resume_credit env c.1 c.2
    exact ih _ f w (by omega) (by omega)

theorem runBoth_bounds (env : Env) (schedule : List Bool) : ∀ (c : Task × Task × Sys)
    (f w : Nat), f ≤ c.2.2.fetches → w + c.1.credit + c.2.1.credit ≤ c.2.2.writes →
    f ≤ (runBoth env schedule c).2.2.fetches ∧
    w + (runBoth env schedule c).1.credit + (runBoth env schedule c).2.1.credit
      ≤ (runBoth env schedule c).2.2.writes := by
  induction schedule with
  | nil => intro c f w hf hw; exact ⟨hf, hw⟩
  | cons b rest ih =>
    intro c f w hf hw
    cases b with
    | true =>
      simp only [runBoth]
      have h1 := resume_fetches env c.1 c.2.2
      have h2 := resume_credit env c.1 c.2.2
      exact ih _ f w (by dsimp only; omega) (by dsimp only; omega)
    | false =>
      simp only [runBoth]
      have h1 := resume_fetches env c.2.1 c.2.2
      have h2 := resume_credit env c.2.1 c.2.2
      exact ih _ f w (by dsimp only; omega) (by dsimp only; omega)

/-- C22, as stated, fails: the manager is the stale one, the remote source serves the concrete
scenario; a second `forceUpdate()` is invoked while the first awaits its fetch, and the two run
in turn. Both complete without an error, after two remote fetches and two snapshot writes. -/
theorem C22_two_fetches_two_writes :
    (runSolo scenarioEnv 0 (Task.invoke staleSys)).1 = .fetching 0 ∧
    (overlap scenarioEnv 0 [true, false, true, false, true, false] staleSys).1 = .done none ∧
    (overlap scenarioEnv 0 [true, false, true, false, true, false] staleSys).2.1
      = .done none ∧
    (overlap scenarioEnv 0 [true, false, true, false, true, false] staleSys).2.2.fetches = 2 ∧
    (overlap scenarioEnv 0 [true, false, true, false, true, false] staleSys).2.2.writes = 2 :=
  ⟨rfl, rfl, rfl, rfl, rfl⟩

/-- C22, amended. Nothing coalesces or queues a second update: each invocation of
`forceUpdate()` sends its own request at once, so two invocations, the second made after any
number of steps of the first and the two resumed in any order, make at least two remote
fetches; and when both complete without an error, at least two snapshot writes. -/
theorem C22_overlapping_updates_each_fetch (env : Env) (before : Nat) (schedule : List Bool)
    (s : Sys) :
    (Task.invoke s).1 = .fetching s.fetches ∧ (Task.invoke s).2.fetches = s.fetches + 1 ∧
    s.fetches + 2 ≤ (overlap env before schedule s).2.2.fetches ∧
    ((overlap env before schedule s).1 = .done none →
      (overlap env before schedule s).2.1 = .done none →
      s.writes + 2 ≤ (overlap env before schedule s).2.2.writes) := by
  have hsolo := runSolo_bounds env before (Task.invoke s) (s.fetches + 1) s.writes
    (Nat.le_refl _) (Nat.le_refl _)
  refine ⟨rfl, rfl, ?_⟩
  unfold overlap
  generalize runSolo env before (Task.invoke s) = c at hsolo ⊢
  have hboth := runBoth_bounds env schedule
    (c.1, (Task.invoke c.2).1, (Task.invoke c.2).2) (s.fetches + 2) s.writes
    (by show s.fetches + 2 ≤ c.2.fetches + 1; omega)
    (by show s.writes + c.1.credit + 0 ≤ c.2.writes; omega)
  refine ⟨hboth.1, ?_⟩
  intro h1 h2
  have hw := hboth.2
  rw [h1, h2] at hw
  simpa [Task.credit] using hw

/-- C22 (amended) on the stale manager and the concrete scenario, the second invocation made
while the first awaits its write. -/
theorem C22_overlapping_updates_each_fetch_witness :
    (overlap scenarioEnv 1 [false, true, false, true, false] staleSys).1 = .done none ∧
    (overlap scenarioEnv 1 [false, true, false, true, false] staleSys).2.1 = .done none ∧
    2 ≤ (overlap scenarioEnv 1 [false, true, false, true, false] staleSys).2.2.fetches ∧
    2 ≤ (overlap scenarioEnv 1 [false, true, false, true, false] staleSys).2.2.writes :=
  have h := C22_overlapping_updates_each_fetch scenarioEnv 1 [false, true, false, true, false]
    staleSys
  ⟨rfl, rfl, h.2.2.1, h.2.2.2 rfl rfl⟩

/-! ## Repeated ids -/

theorem keys_set (m : JMap) (k v : JVal) :
    (m.set k v).map Prod.fst = if m.has k = true then m.map Prod.fst else m.map Prod.fst ++ [k]
    := by
  induction m with
  | nil => simp [JMap.set, JMap.has]
  | cons e rest ih =>
    obtain ⟨k0, v0⟩ := e
    cases hk : sameValueZero k0 k with
    | true => simp [JMap.set, JMap.has, hk]
    | false =>
      have hset : JMap.set ((k0, v0) :: rest) k v = (k0, v0) :: JMap.set rest k v := by
        simp [JMap.set, hk]
      rw [hset, List.map_cons, ih]
      simp only [JMap.has, hk, Bool.false_or, List.map_cons]
      split <;> simp

/-- A loop that completes leaves the table that setting, in order, the entries of its
iterations gives. -/
theorem forOf_done_eq (body : JVal → Effect) (xs : List JVal) : ∀ m : JMap,
    (forOf body xs m).thrown = none →
    (forOf body xs m).state =
      (xs.filterMap (fun x => (body x).entry)).foldl (fun t e => t.set e.1 e.2) m := by
  induction xs with
  | nil => intro m _; rfl
  | cons x rest ih =>
    intro m h
    rw [forOf_cons] at h ⊢
    cases ht : (body x).thrown with
    | some e => rw [ht] at h; simp at h
    | none =>
      rw [ht] at h
      simp only at h ⊢
      rw [ih _ h]
      unfold Effect.apply
      cases he : (body x).entry with
      | none => simp [List.filterMap_cons, he]
      | some kv => simp [List.filterMap_cons, he]

theorem keys_foldl_set (es : List (JVal × JVal)) : ∀ m : JMap,
    (es.foldl (fun t e => t.set e.1 e.2) m).map Prod.fst =
      m.map Prod.fst ++ (firstKeys (es.map Prod.fst)).filter (fun k => !m.has k) := by
  induction es with
  | nil => intro m; simp [firstKeys]
  | cons e rest ih =>
    intro m
    simp only [List.foldl_cons, List.map_cons, firstKeys]
    rw [ih, keys_set]
    have hpred : (fun k => !(m.set e.1 e.2).has k)
        = (fun k => (!m.has k) && !sameValueZero e.1 k) := by
      funext k
      rw [has_set]
      cases sameValueZero e.1 k <;> cases m.has k <;> rfl
    rw [hpred]
    cases hm : m.has e.1 with
    | true => simp [List.filter_cons, hm, List.filter_filter]
    | false => simp [List.filter_cons, hm, List.filter_filter]

theorem firstKeys_pairwise (ks : List JVal) :
    (firstKeys ks).Pairwise (fun a b => sameValueZero a b = false) := by
  induction ks with
  | nil => simp [firstKeys]
  | cons k rest ih =>
    simp only [firstKeys, List.pairwise_cons]
    refine ⟨?_, ih.sublist (List.filter_sublist _)⟩
    intro a ha
    have := (List.mem_filter.mp ha).2
    simpa using this

theorem parseInt_isPrimitive (v key : JVal) (h : parseInt v = .ok key) :
    key.isPrimitive = true := by
  unfold parseInt at h
  cases hc : toChars v with
  | error e => rw [hc] at h; simp at h
  | ok cs =>
    rw [hc] at h
    simp only [Except.ok.injEq] at h
    rw [← h]
    unfold parseIntChars
    simp only
    split
    · rfl
    · split <;> rfl

theorem clubRecord_key (x k v : JVal) (h : clubRecord x = .ok (some (k, v))) :
    sameValueZero k k = true := by
  unfold clubRecord at h
  cases h1 : getProp x "id" with
  | error e => simp [h1, bind, Except.bind] at h
  | ok id =>
    cases h2 : getProp x "n" with
    | error e => by_cases hid : truthy id = true <;>
        simp [h1, h2, hid, bind, Except.bind, pure, Except.pure] at h
    | ok n =>
      cases h3 : parseInt id with
      | error e => by_cases hid : truthy id = true <;> by_cases hn : truthy n = true <;>
          simp [h1, h2, h3, hid, hn, bind, Except.bind, pure, Except.pure] at h
      | ok key =>
        by_cases hid : truthy id = true <;> by_cases hn : truthy n = true <;>
          simp [h1, h2, h3, hid, hn, bind, Except.bind, pure, Except.pure] at h
        rw [← h.1]
        exact sameValueZero_self (parseInt_isPrimitive id key h3)

/-- The ids of the results of the search loop follow the order of the table. -/
theorem searchLoop_sublist (toLowerCase : String → String) (searchLower : String) (limit : Int)
    (table : JMap) : ∀ results rs : List (JVal × String),
    searchLoop toLowerCase searchLower limit table results = .ok rs →
    ∃ found, rs = results ++ found ∧ (found.map Prod.fst).Sublist (table.map Prod.fst) := by
  induction table with
  | nil =>
    intro results rs h
    simp only [searchLoop, Except.ok.injEq] at h
    exact ⟨[], by simp [h], by simp⟩
  | cons e rest ih =>
    intro results rs h
    obtain ⟨k, v⟩ := e
    cases v with
    | str name =>
      simp only [searchLoop] at h
      split at h
      · split at h
        · simp only [Except.ok.injEq] at h
          exact ⟨[(k, name)], h.symm, by simp⟩
        · obtain ⟨found, hrs, hsub⟩ := ih _ rs h
          refine ⟨(k, name) :: found, by simp [hrs], ?_⟩
          simpa using hsub
      · obtain ⟨found, hrs, hsub⟩ := ih _ rs h
        exact ⟨found, hrs, by simpa using hsub.cons k⟩
    | _ => simp [searchLoop] at h

/-- C29. Duplicate ids in the club list: when `loadClubs` completes on a list, the keys of the
club table, in iteration order, are the keys of the stored records in the order of their
first occurrence, no key is there twice, the name under a key is the name of the last record
stored under it, and the results of `searchClubs` follow the order of the table. -/
theorem C29_duplicate_ids (clubData : JVal) (xs : List JVal) (mm : MappingManager)
    (hC : getProp clubData "C" = .ok (.arr xs))
    (hdone : (loadClubs clubData mm).thrown = none) :
    (loadClubs clubData mm).state.clubNames.map Prod.fst =
      firstKeys ((xs.filterMap (fun x => (Effect.ofExcept (clubRecord x)).entry)).map
        Prod.fst) ∧
    ((loadClubs clubData mm).state.clubNames.map Prod.fst).Pairwise
      (fun a b => sameValueZero a b = false) ∧
    (∀ pre r post k n, xs = pre ++ r :: post → clubRecord r = .ok (some (k, n)) →
      (∀ x ∈ post, ∀ e, clubRecord x = .ok (some e) → sameValueZero e.1 k = false) →
      (loadClubs clubData mm).state.clubNames.has k = true ∧
      (loadClubs clubData mm).state.clubNames.get k = n) ∧
    (∀ (toLowerCase : String → String) (term : String) (limit : Option Int) rs,
      searchClubs toLowerCase (loadClubs clubData mm).state (.str term) limit = .ok rs →
      (rs.map Prod.fst).Sublist ((loadClubs clubData mm).state.clubNames.map Prod.fst)) := by
  have hT := loadTable_arr (fun x => Effect.ofExcept (clubRecord x)) "C" clubData xs hC
  have hstate : (loadClubs clubData mm).state.clubNames
      = (forOf (fun x => Effect.ofExcept (clubRecord x)) xs []).state := by
    show (loadTable (fun x => Effect.ofExcept (clubRecord x)) "C" clubData).state = _
    rw [hT]
  have hthrown : (forOf (fun x => Effect.ofExcept (clubRecord x)) xs []).thrown = none := by
    rw [← hT]; exact hdone
  have hkeys : (loadClubs clubData mm).state.clubNames.map Prod.fst =
      firstKeys ((xs.filterMap (fun x => (Effect.ofExcept (clubRecord x)).entry)).map
        Prod.fst) := by
    rw [hstate, forOf_done_eq _ xs [] hthrown, keys_foldl_set]
    simp [JMap.has]
  refine ⟨hkeys, ?_, ?_, ?_⟩
  · rw [hkeys]; exact firstKeys_pairwise _
  · intro pre r post k n hxs hr hpost
    have hk := clubRecord_key r k n hr
    have hentry : (Effect.ofExcept (clubRecord r)).entry = some (k, n) := by rw [hr]; rfl
    have hpost' : ∀ x ∈ post, ∀ e, (Effect.ofExcept (clubRecord x)).entry = some e →
        sameValueZero e.1 k = false :=
      fun x hx e he => hpost x hx e (ofExcept_entry _ _ he)
    rw [hstate]
    subst hxs
    exact ⟨forOf_has_last _ k n pre post r [] hthrown hentry hk,
      forOf_get_last _ k n pre post r [] hthrown hentry hk hpost'⟩
  · intro toLowerCase term limit rs h
    simp only [searchClubs] at h
    obtain ⟨found, hrs, hsub⟩ := searchLoop_sublist _ _ _ _ [] rs h
    rw [hrs]
    simpa using hsub

/-- C29 on the ids "7", "8", "07": the table holds the keys 7 and 8 in this order, and the
name under 7 is the one of the third record. -/
theorem C29_duplicate_ids_witness :
    (loadClubs duplicateIdData MappingManager.fresh).state.clubNames
      = [(.num 7, .str "Gamma"), (.num 8, .str "Beta")] ∧
    (loadClubs duplicateIdData MappingManager.fresh).state.clubNames.get (.num 7)
      = .str "Gamma" ∧
    searchClubs asciiLower (loadClubs duplicateIdData MappingManager.fresh).state (.str "a")
      none = .ok [(.num 7, "Gamma"), (.num 8, "Beta")] ∧
    (loadClubs duplicateIdData MappingManager.fresh).state.clubNames.map Prod.fst =
      firstKeys [.num 7, .num 8, .num 7] :=
  have h := C29_duplicate_ids duplicateIdData _ MappingManager.fresh
    (rfl : getProp duplicateIdData "C" = .ok (.arr [.obj [("id", .str "7"), ("n", .str "Alpha")],
      .obj [("id", .str "8"), ("n", .str "Beta")],
      .obj [("id", .str "07"), ("n", .str "Gamma")]])) rfl
  ⟨rfl, (h.2.2.1 [.obj [("id", .str "7"), ("n", .str "Alpha")],
      .obj [("id", .str "8"), ("n", .str "Beta")]]
      (.obj [("id", .str "07"), ("n", .str "Gamma")]) [] (.num 7) (.str "Gamma") rfl rfl
      (by simp)).2, rfl, h.1⟩

end SovoBot
